import Mathlib

/-!
# Migration controller (`pkg/virt-controller/watch/migration.go`)

A shallow embedding of the reconciler `MigrationController.execute` and of its
helpers `investigateTargetPodSituation` and `mergeConstraints`.

* Go maps `map[string]string` are association lists with unique keys
  (`AList`); the order of the entries is the iteration order of `range`, so a
  statement quantified over all maps covers every iteration order.
* The services the controller talks to (`services.VMService`, the node client,
  the informer cache) are the fields of `Services σ`, over an arbitrary type
  `σ` of cluster states: every call receives the current state and returns its
  result together with the next state.
* `execute` records the service calls it makes, in order, in `Outcome.calls`.
-/

namespace MigrationController

/-! ## Data model -/

/-- A Go `map[string]string`. A nil map and an empty map read the same. -/
abbrev GoMap := AList (fun _ : String => String)

/-- Modelled from the spec: the type `kubev1.MigrationPhase` and its constants
(`pkg/api/v1`), "phase ∈ {Unknown, Running, Succeeded, Failed}". -/
inductive MigrationPhase where
  | MigrationUnknown
  | MigrationRunning
  | MigrationSucceeded
  | MigrationFailed
  deriving DecidableEq, Repr

/-- Modelled from the spec: the type `kubev1.VMPhase` and its constants
(`pkg/api/v1`), "phase ∈ {Pending, Scheduling, Running, Migrating, Succeeded,
Failed, Unknown}". -/
inductive VMPhase where
  | Pending
  | Scheduling
  | Running
  | Migrating
  | Succeeded
  | Failed
  | Unknown
  deriving DecidableEq, Repr

/-- Modelled from the spec: the type `k8sv1.PodPhase` and its constants,
"status.phase ∈ {Pending, Running, Succeeded, Failed, Unknown}". -/
inductive PodPhase where
  | PodPending
  | PodRunning
  | PodSucceeded
  | PodFailed
  | PodUnknown
  deriving DecidableEq, Repr

/-- Modelled from the spec: the constant `kubev1.MigrationLabel`, the pod label
"migration=<migration-name>". -/
def MigrationLabel : String := "migration"

/-- Modelled from the spec: the constant `kubev1.MigrationUIDLabel`, the pod
label "migration-uid=<M.UID>". -/
def MigrationUIDLabel : String := "migration-uid"

/-- Modelled from the spec: the constant `kubev1.NodeNameLabel`, the VM label
"nodeName=<current-node>". -/
def NodeNameLabel : String := "nodeName"

/-- The part of `metav1.ObjectMeta` the controller reads. `Labels = none` is the
nil map. -/
structure ObjectMeta where
  Name : String
  Namespace : String
  UID : String
  Labels : Option GoMap
  deriving DecidableEq

/-- The expression `obj.Labels[key]` with its `exists` flag: `none` when the
label is absent (also on a nil map). -/
def ObjectMeta.label? (meta : ObjectMeta) (key : String) : Option String :=
  match meta.Labels with
  | none => none
  | some m => m.lookup key

/-- The expression `obj.Labels[key]` as a value: `""` when the label is absent. -/
def ObjectMeta.label (meta : ObjectMeta) (key : String) : String :=
  (meta.label? key).getD ""

structure MigrationSelector where
  Name : String
  deriving DecidableEq

structure MigrationSpec where
  Selector : MigrationSelector
  NodeSelector : GoMap
  deriving DecidableEq

structure MigrationStatus where
  Phase : MigrationPhase
  deriving DecidableEq

structure Migration where
  ObjectMeta : ObjectMeta
  Spec : MigrationSpec
  Status : MigrationStatus
  deriving DecidableEq

structure VMSpec where
  NodeSelector : GoMap
  deriving DecidableEq

structure VMStatus where
  Phase : VMPhase
  NodeName : String
  MigrationNodeName : String
  deriving DecidableEq

structure VM where
  ObjectMeta : ObjectMeta
  Spec : VMSpec
  Status : VMStatus
  deriving DecidableEq

structure PodSpec where
  NodeName : String
  deriving DecidableEq

structure PodStatus where
  Phase : PodPhase
  deriving DecidableEq

structure Pod where
  ObjectMeta : ObjectMeta
  Spec : PodSpec
  Status : PodStatus
  deriving DecidableEq

structure Node where
  Name : String
  deriving DecidableEq

/-- Errors. `conflictingNodeSelectors conflicts` is
`fmt.Errorf("Conflicting node selectors: %v", conflicts)`; `other msg` is an
error returned by a service. -/
inductive Err where
  | conflictingNodeSelectors (conflicts : List String)
  | other (msg : String)
  deriving DecidableEq

/-! ## `mergeConstraints` -/

/-- The first loop of `mergeConstraints`: `merged[k] = v` for every entry of the
VM's selector. -/
def copySelector (entries : List (Sigma (fun _ : String => String))) (merged : GoMap) : GoMap :=
  entries.foldl (fun acc e => acc.insert e.1 e.2) merged

/-- One iteration of the second loop of `mergeConstraints`. -/
def mergeStep (vmSelector : GoMap) (acc : GoMap × List String)
    (e : Sigma (fun _ : String => String)) : GoMap × List String :=
  match vmSelector.lookup e.1 with
  | some val =>
    if val ≠ e.2 then (acc.1, acc.2 ++ [e.1]) else (acc.1.insert e.1 e.2, acc.2)
  | none => (acc.1.insert e.1 e.2, acc.2)

/-- The two loops of `mergeConstraints`: the merged map and the conflicts. -/
def mergeLoops (migrationSelector vmSelector : GoMap) : GoMap × List String :=
  migrationSelector.entries.foldl (mergeStep vmSelector)
    (copySelector vmSelector.entries ∅, [])

/-- The function `mergeConstraints(migration, vm) error`: the error and the VM
as it is after the call (the Go code mutates `vm` in place). -/
def mergeConstraints (migration : Migration) (vm : VM) : Option Err × VM :=
  let r := mergeLoops migration.Spec.NodeSelector vm.Spec.NodeSelector
  if r.2.length > 0 then
    (some (Err.conflictingNodeSelectors r.2), vm)
  else
    (none, { vm with Spec := { vm.Spec with NodeSelector := r.1 } })

/-! ## `investigateTargetPodSituation` -/

/-- The informer cache `cache.Store` as `GetByKey` sees it: for every key an
error, a miss (`none`) or the cached Migration. -/
abbrev Store := String → Except Err (Option Migration)

/-- The key `fmt.Sprintf("%s/%s", pod.ObjectMeta.Namespace, l)`. -/
def podMigrationKey (pod : Pod) (l : String) : String :=
  pod.ObjectMeta.Namespace ++ "/" ++ l

/-- The loop of `investigateTargetPodSituation` over the remaining pods, with
the current values of `podCount` and `targetPod`. -/
def investigateLoop (migration : Migration) (migrationStore : Store) :
    List Pod → Nat → Option Pod → Except Err (Nat × Option Pod)
  | [], podCount, targetPod => .ok (podCount, targetPod)
  | pod :: rest, podCount, targetPod =>
    if pod.ObjectMeta.label MigrationUIDLabel = migration.ObjectMeta.UID then
      investigateLoop migration migrationStore rest (podCount + 1) (some pod)
    else
      match pod.ObjectMeta.label? MigrationLabel with
      | none => investigateLoop migration migrationStore rest podCount targetPod
      | some l =>
        match migrationStore (podMigrationKey pod l) with
        | .error err => .error err
        | .ok (some cachedMigration) =>
          if cachedMigration.Status.Phase ≠ MigrationPhase.MigrationFailed ∧
              cachedMigration.Status.Phase ≠ MigrationPhase.MigrationSucceeded then
            investigateLoop migration migrationStore rest (podCount + 1) targetPod
          else
            investigateLoop migration migrationStore rest podCount targetPod
        | .ok none =>
          investigateLoop migration migrationStore rest (podCount + 1) targetPod

/-- The function `investigateTargetPodSituation(migration, podList,
migrationStore) (int, *k8sv1.Pod, error)`; the Go result `(0, nil, err)` is
`.error err`. -/
def investigateTargetPodSituation (migration : Migration) (podList : List Pod)
    (migrationStore : Store) : Except Err (Nat × Option Pod) :=
  investigateLoop migration migrationStore podList 0 none

/-! ## Services and call log -/

/-- The collaborators of the controller over a type `σ` of cluster states.
`store` is `md.store.GetByKey` on the cache as it is in a state; `schemeCopy` is
`kubeapi.Scheme.Copy`, which fails or yields an equal object; the other fields
are the methods of `services.VMService` and, for `nodesGet`,
`md.clientset.CoreV1().Nodes().Get`. -/
structure Services (σ : Type) where
  store : σ → Store
  schemeCopy : Migration → σ → Option Err
  FetchVM : String → σ → Except Err (Option VM) × σ
  GetRunningVMPods : VM → σ → Except Err (List Pod) × σ
  CreateMigrationTargetPod : Migration → VM → σ → Option Err × σ
  UpdateMigration : Migration → σ → Option Err × σ
  PutVm : VM → σ → Option Err × σ
  GetMigrationJob : Migration → σ → Except Err (Option Pod) × σ
  nodesGet : String → σ → Except Err Node × σ
  StartMigration : Migration → VM → Node → Node → Pod → σ → Option Err × σ

/-- A service call with its arguments. -/
inductive Call where
  | FetchVM (name : String)
  | GetRunningVMPods (vm : VM)
  | CreateMigrationTargetPod (migration : Migration) (vm : VM)
  | UpdateMigration (migration : Migration)
  | PutVm (vm : VM)
  | GetMigrationJob (migration : Migration)
  | nodesGet (name : String)
  | StartMigration (migration : Migration) (vm : VM) (sourceNode targetNode : Node)
      (targetPod : Pod)
  deriving DecidableEq

/-- The calls that change the cluster: `UpdateMigration`, `PutVm`,
`CreateMigrationTargetPod` and `StartMigration`. -/
def Call.isMutating : Call → Bool
  | .UpdateMigration _ => true
  | .PutVm _ => true
  | .CreateMigrationTargetPod _ _ => true
  | .StartMigration _ _ _ _ _ => true
  | _ => false

/-- What one run of (a part of) `execute` leaves behind: the returned error,
the service calls made in order, the cluster state, and the working copy of the
Migration as it is at the return (`none` before the copy is taken). -/
structure Outcome (σ : Type) where
  err : Option Err
  calls : List Call
  state : σ
  migration : Option Migration

/-- The outcome `o` of a continuation, run after the calls `pre`. -/
def Outcome.after {σ : Type} (pre : List Call) (o : Outcome σ) : Outcome σ :=
  { o with calls := pre ++ o.calls }

/-- The mutating calls of a run, in order. -/
def Outcome.mutatingCalls {σ : Type} (o : Outcome σ) : List Call :=
  o.calls.filter Call.isMutating

/-! ## `execute` -/

section Execute

variable {σ : Type}

/-- The assignment `migration.Status.Phase = phase` on the working copy. -/
def Migration.withPhase (migration : Migration) (phase : MigrationPhase) : Migration :=
  { migration with Status := { Phase := phase } }

/-- The closure `setMigrationPhase` of `execute` (lines 93-109). -/
def setMigrationPhase (S : Services σ) (migration : Migration) (phase : MigrationPhase)
    (s : σ) : Outcome σ :=
  if migration.Status.Phase = phase then
    ⟨none, [], s, some migration⟩
  else
    let migration1 : Migration := migration.withPhase phase
    match S.UpdateMigration migration1 s with
    | (some err, s1) => ⟨some err, [Call.UpdateMigration migration1], s1, some migration1⟩
    | (none, s1) => ⟨none, [Call.UpdateMigration migration1], s1, some migration1⟩

/-- The closure `setMigrationFailed` of `execute` (lines 111-113). -/
def setMigrationFailed (S : Services σ) (mig : Migration) (s : σ) : Outcome σ :=
  setMigrationPhase S mig MigrationPhase.MigrationFailed s

/-- The case `kubev1.MigrationUnknown` of the switch of `execute`
(lines 143-192). -/
def executeUnknown (S : Services σ) (migration : Migration) (vm : VM) (s : σ) : Outcome σ :=
  if vm.Status.Phase ≠ VMPhase.Running then
    setMigrationFailed S migration s
  else
    match mergeConstraints migration vm with
    | (some err, _) => ⟨some err, [], s, some migration⟩
    | (none, vm1) =>
      match S.GetRunningVMPods vm1 s with
      | (.error err, s1) => ⟨some err, [Call.GetRunningVMPods vm1], s1, some migration⟩
      | (.ok podList, s1) =>
        Outcome.after [Call.GetRunningVMPods vm1] <|
        match investigateTargetPodSituation migration podList (S.store s1) with
        | .error err => ⟨some err, [], s1, some migration⟩
        | .ok (numOfPods, none) =>
          if numOfPods ≥ 1 then
            -- the error of `setMigrationFailed`, or nil
            setMigrationFailed S migration s1
          else if numOfPods = 0 then
            match S.CreateMigrationTargetPod migration vm1 s1 with
            | (some err, s2) =>
              ⟨some err, [Call.CreateMigrationTargetPod migration vm1], s2, some migration⟩
            | (none, s2) =>
              Outcome.after [Call.CreateMigrationTargetPod migration vm1]
                (setMigrationPhase S migration MigrationPhase.MigrationRunning s2)
          else
            setMigrationPhase S migration MigrationPhase.MigrationRunning s1
        | .ok (_, some targetPod) =>
          if targetPod.Status.Phase = PodPhase.PodFailed then
            setMigrationFailed S migration s1
          else
            setMigrationPhase S migration MigrationPhase.MigrationRunning s1

/-- Lines 229-278 of `execute`: the migration job is looked up and either
started or, when it exists, its phase is acted upon. -/
def executeJob (S : Services σ) (migration : Migration) (vm : VM) (targetPod : Pod)
    (s : σ) : Outcome σ :=
  match S.GetMigrationJob migration s with
  | (.error err, s1) => ⟨some err, [Call.GetMigrationJob migration], s1, some migration⟩
  | (.ok none, s1) =>
    Outcome.after [Call.GetMigrationJob migration] <|
    match S.nodesGet vm.Status.NodeName s1 with
    | (.error err, s2) => ⟨some err, [Call.nodesGet vm.Status.NodeName], s2, some migration⟩
    | (.ok sourceNode, s2) =>
      Outcome.after [Call.nodesGet vm.Status.NodeName] <|
      match S.nodesGet vm.Status.MigrationNodeName s2 with
      | (.error err, s3) =>
        ⟨some err, [Call.nodesGet vm.Status.MigrationNodeName], s3, some migration⟩
      | (.ok targetNode, s3) =>
        Outcome.after [Call.nodesGet vm.Status.MigrationNodeName] <|
        match S.StartMigration migration vm sourceNode targetNode targetPod s3 with
        | (some err, s4) =>
          ⟨some err, [Call.StartMigration migration vm sourceNode targetNode targetPod], s4,
            some migration⟩
        | (none, s4) =>
          ⟨none, [Call.StartMigration migration vm sourceNode targetNode targetPod], s4,
            some migration⟩
  | (.ok (some migrationPod), s1) =>
    Outcome.after [Call.GetMigrationJob migration] <|
    match migrationPod.Status.Phase with
    | PodPhase.PodFailed =>
      let vm1 : VM :=
        { vm with Status := { vm.Status with Phase := VMPhase.Running, MigrationNodeName := "" } }
      match S.PutVm vm1 s1 with
      | (some err, s2) => ⟨some err, [Call.PutVm vm1], s2, some migration⟩
      | (none, s2) => Outcome.after [Call.PutVm vm1] (setMigrationFailed S migration s2)
    | PodPhase.PodSucceeded =>
      let vm1 : VM :=
        { vm with
          Status :=
            { NodeName := targetPod.Spec.NodeName, MigrationNodeName := "",
              Phase := VMPhase.Running }
          ObjectMeta :=
            { vm.ObjectMeta with
              Labels :=
                some (((vm.ObjectMeta.Labels.getD ∅)).insert NodeNameLabel
                  targetPod.Spec.NodeName) } }
      match S.PutVm vm1 s1 with
      | (some err, s2) => ⟨some err, [Call.PutVm vm1], s2, some migration⟩
      | (none, s2) =>
        Outcome.after [Call.PutVm vm1]
          (setMigrationPhase S migration MigrationPhase.MigrationSucceeded s2)
    | _ => ⟨none, [], s1, some migration⟩

/-- The case `kubev1.MigrationRunning` of the switch of `execute`
(lines 193-278). -/
def executeRunning (S : Services σ) (migration : Migration) (vm : VM) (s : σ) : Outcome σ :=
  match S.GetRunningVMPods vm s with
  | (.error err, s1) => ⟨some err, [Call.GetRunningVMPods vm], s1, some migration⟩
  | (.ok podList, s1) =>
    Outcome.after [Call.GetRunningVMPods vm] <|
    match investigateTargetPodSituation migration podList (S.store s1) with
    | .error err => ⟨some err, [], s1, some migration⟩
    | .ok (_, none) => setMigrationFailed S migration s1
    | .ok (_, some targetPod) =>
      match targetPod.Status.Phase with
      | PodPhase.PodRunning =>
        if vm.Status.MigrationNodeName ≠ targetPod.Spec.NodeName then
          let vm1 : VM :=
            { vm with
              Status :=
                { vm.Status with
                  Phase := VMPhase.Migrating, MigrationNodeName := targetPod.Spec.NodeName } }
          match S.PutVm vm1 s1 with
          | (some err, s2) => ⟨some err, [Call.PutVm vm1], s2, some migration⟩
          | (none, s2) => Outcome.after [Call.PutVm vm1] (executeJob S migration vm1 targetPod s2)
        else
          executeJob S migration vm targetPod s1
      | PodPhase.PodSucceeded => setMigrationFailed S migration s1
      | PodPhase.PodFailed => setMigrationFailed S migration s1
      | _ => ⟨none, [], s1, some migration⟩

/-- The method `MigrationController.execute(key string) error` (lines 91-281). -/
def execute (S : Services σ) (key : String) (s : σ) : Outcome σ :=
  match S.store s key with
  | .error err => ⟨some err, [], s, none⟩
  | .ok none => ⟨none, [], s, none⟩
  | .ok (some obj) =>
    match S.schemeCopy obj s with
    | some err => ⟨some err, [], s, none⟩
    | none =>
      let migration := obj
      match S.FetchVM migration.Spec.Selector.Name s with
      | (.error err, s1) =>
        ⟨some err, [Call.FetchVM migration.Spec.Selector.Name], s1, some migration⟩
      | (.ok none, s1) =>
        Outcome.after [Call.FetchVM migration.Spec.Selector.Name]
          (setMigrationFailed S migration s1)
      | (.ok (some vm), s1) =>
        Outcome.after [Call.FetchVM migration.Spec.Selector.Name] <|
        match migration.Status.Phase with
        | MigrationPhase.MigrationUnknown => executeUnknown S migration vm s1
        | MigrationPhase.MigrationRunning => executeRunning S migration vm s1
        | _ => ⟨none, [], s1, some migration⟩

end Execute

/-! ## Specification-side notions -/

/-- The entry `e` of the Migration's selector is a conflict: the VM's selector
binds its key to another value (`exists && val != v`). -/
def isConflict (vmSelector : GoMap) (e : Sigma (fun _ : String => String)) : Bool :=
  match vmSelector.lookup e.1 with
  | some val => decide (val ≠ e.2)
  | none => false

/-- The key `k` is bound by both selectors, to different values. -/
def ConflictingKey (migrationSelector vmSelector : GoMap) (k : String) : Prop :=
  ∃ a b, migrationSelector.lookup k = some a ∧ vmSelector.lookup k = some b ∧ b ≠ a

/-- The pod is the target pod of the Migration as the code tests it:
`pod.Labels[kubev1.MigrationUIDLabel] == string(migration.GetObjectMeta().GetUID())`. -/
def matchesUID (migration : Migration) (pod : Pod) : Bool :=
  decide (pod.ObjectMeta.label MigrationUIDLabel = migration.ObjectMeta.UID)

/-- The pod carries a `migration-uid` label whose value is the Migration's UID. -/
def carriesUID (migration : Migration) (pod : Pod) : Bool :=
  decide (pod.ObjectMeta.label? MigrationUIDLabel = some migration.ObjectMeta.UID)

/-- The counting rule of the situation analysis, in the words of the
specification: the pod's migration-uid label equals the Migration's UID, or the
pod has a migration label and the cache entry for `namespace/label` is absent or
has a phase other than Succeeded and Failed. -/
def countsAsActive (migration : Migration) (migrationStore : Store) (pod : Pod) : Bool :=
  matchesUID migration pod ||
    match pod.ObjectMeta.label? MigrationLabel with
    | none => false
    | some l =>
      match migrationStore (podMigrationKey pod l) with
      | .error _ => false
      | .ok none => true
      | .ok (some cachedMigration) =>
        decide (cachedMigration.Status.Phase ≠ MigrationPhase.MigrationSucceeded ∧
          cachedMigration.Status.Phase ≠ MigrationPhase.MigrationFailed)

/-- The last pod of the list that passes the UID test, if any. -/
def lastMatching (migration : Migration) (podList : List Pod) : Option Pod :=
  (podList.filter (matchesUID migration)).getLast?

/-- The number of mutating calls of a run. -/
def Outcome.mutCount {σ : Type} (o : Outcome σ) : Nat := o.mutatingCalls.length

/-! ## Concrete cluster -/

/-- Services over a fixed cluster: the cache holds the Migrations `cache` under
their `namespace/name` keys, `FetchVM` answers `vm`, `GetRunningVMPods` answers
`podList`, `GetMigrationJob` answers `job`, and no call fails. -/
def fixedServices (cache : List Migration) (vm : Option VM) (podList : List Pod)
    (job : Option Pod) : Services Unit where
  store := fun _ key =>
    .ok (cache.find? fun m => decide (m.ObjectMeta.Namespace ++ "/" ++ m.ObjectMeta.Name = key))
  schemeCopy := fun _ _ => none
  FetchVM := fun _ s => (.ok vm, s)
  GetRunningVMPods := fun _ s => (.ok podList, s)
  CreateMigrationTargetPod := fun _ _ s => (none, s)
  UpdateMigration := fun _ s => (none, s)
  PutVm := fun _ s => (none, s)
  GetMigrationJob := fun _ s => (.ok job, s)
  nodesGet := fun name s => (.ok ⟨name⟩, s)
  StartMigration := fun _ _ _ _ _ s => (none, s)

/-- A Migration `default/<name>` of the VM `vm1`. -/
def migrationFor (name uid : String) (phase : MigrationPhase) (nodeSelector : GoMap) :
    Migration :=
  ⟨⟨name, "default", uid, none⟩, ⟨⟨"vm1"⟩, nodeSelector⟩, ⟨phase⟩⟩

/-- The VM `vm1` on node `nodeA`. -/
def vmWith (phase : VMPhase) (nodeSelector : GoMap) (migrationNodeName : String) : VM :=
  ⟨⟨"vm1", "default", "vm-uid", none⟩, ⟨nodeSelector⟩, ⟨phase, "nodeA", migrationNodeName⟩⟩

/-- A pod of the namespace `default` with the given labels. -/
def podWith (name : String) (labels : Option GoMap) (phase : PodPhase) (nodeName : String) :
    Pod :=
  ⟨⟨name, "default", "pod-uid", labels⟩, ⟨nodeName⟩, ⟨phase⟩⟩

def selectorZoneEu : GoMap := (∅ : GoMap).insert "zone" "eu"

def selectorZoneUs : GoMap := (∅ : GoMap).insert "zone" "us"

def selectorDiskSsd : GoMap := (∅ : GoMap).insert "disk" "ssd"

/-- The labels of a target pod created for the Migration `name` with UID `uid`. -/
def targetPodLabels (name uid : String) : GoMap :=
  ((∅ : GoMap).insert MigrationLabel name).insert MigrationUIDLabel uid

/-! ## The VM as the Running case rewrites it -/

/-- The VM as step `vm.Status.Phase = kubev1.Migrating;
vm.Status.MigrationNodeName = targetPod.Spec.NodeName` leaves it (lines 221-222). -/
def VM.migratingTo (vm : VM) (nodeName : String) : VM :=
  { vm with
    Status := { vm.Status with Phase := VMPhase.Migrating, MigrationNodeName := nodeName } }

/-- The VM as the roll-back of a failed job leaves it (lines 259-260). -/
def VM.rolledBack (vm : VM) : VM :=
  { vm with Status := { vm.Status with Phase := VMPhase.Running, MigrationNodeName := "" } }

/-- The VM as the commit of a succeeded job leaves it (lines 266-272). -/
def VM.committedOn (vm : VM) (nodeName : String) : VM :=
  { vm with
    Status := { NodeName := nodeName, MigrationNodeName := "", Phase := VMPhase.Running }
    ObjectMeta :=
      { vm.ObjectMeta with
        Labels := some ((vm.ObjectMeta.Labels.getD ∅).insert NodeNameLabel nodeName) } }

/-- The calls of the Running case up to the job lookup: `FetchVM`,
`GetRunningVMPods` and, when the VM does not yet point at the node of the target
pod, `PutVm` with the VM in phase Migrating. -/
def callsBeforeJob (migration : Migration) (vm : VM) (targetPod : Pod) : List Call :=
  [Call.FetchVM migration.Spec.Selector.Name, Call.GetRunningVMPods vm] ++
    (if vm.Status.MigrationNodeName = targetPod.Spec.NodeName then []
     else [Call.PutVm (vm.migratingTo targetPod.Spec.NodeName)])

/-- The VM that goes into the job lookup: the fetched VM when it already points
at the node of the target pod, else the VM in phase Migrating. -/
def vmBeforeJob (vm : VM) (targetPod : Pod) : VM :=
  if vm.Status.MigrationNodeName = targetPod.Spec.NodeName then vm
  else vm.migratingTo targetPod.Spec.NodeName

/-- The cluster state in which the Running case looks the job up (line 230):
the state `s` that the pod listing left when the VM already points at the node
of the target pod, else the state that the `PutVm` of line 223 leaves. -/
def stateBeforeJob {σ : Type} (S : Services σ) (vm : VM) (targetPod : Pod) (s : σ) : σ :=
  if vm.Status.MigrationNodeName = targetPod.Spec.NodeName then s
  else (S.PutVm (vm.migratingTo targetPod.Spec.NodeName) s).2

/-- Modelled from the spec: "`spec.nodeName` names its assigned node (set by the
cluster scheduler after Pending)": a pod in phase Running has been assigned a
node. -/
def Pod.assigned (pod : Pod) : Prop :=
  pod.Status.Phase = PodPhase.PodRunning → pod.Spec.NodeName ≠ ""

instance (pod : Pod) : Decidable pod.assigned :=
  inferInstanceAs (Decidable (pod.Status.Phase = PodPhase.PodRunning → pod.Spec.NodeName ≠ ""))

/-! ## `migrationLabelHandler` -/

/-- The constant `k8sv1.NamespaceDefault` of client-go. -/
def NamespaceDefault : String := "default"

/-- The closure that `migrationLabelHandler(migrationQueue)` returns
(lines 381-386); `Add` is `migrationQueue.Add` on a queue of type `q`. -/
def migrationLabelHandler {q : Type} (Add : String → q → q) (obj : Pod) : q → q :=
  let migrationLabel := obj.ObjectMeta.label MigrationLabel
  Add (NamespaceDefault ++ "/" ++ migrationLabel)

/-- The pods whose events reach `migrationLabelHandler`: its only callers,
`NewMigrationJobInformer` and `NewMigrationPodInformer`, list and watch the pods
of the namespace `kubeapi.NamespaceDefault` (lines 366 and 375). -/
def watched (pod : Pod) : Prop :=
  pod.ObjectMeta.Namespace = NamespaceDefault

instance (pod : Pod) : Decidable (watched pod) :=
  inferInstanceAs (Decidable (pod.ObjectMeta.Namespace = NamespaceDefault))

/-- The Migration `default/m1` with UID `uid-1`, in phase Running. -/
def runningMigration (nodeSelector : GoMap) : Migration :=
  migrationFor "m1" "uid-1" MigrationPhase.MigrationRunning nodeSelector

/-- The target pod `p1` of the Migration `m1`. -/
def targetPodOn (phase : PodPhase) (nodeName : String) : Pod :=
  podWith "p1" (some (targetPodLabels "m1" "uid-1")) phase nodeName

/-- The migration job pod of the Migration `m1`. -/
def jobPod (phase : PodPhase) : Pod :=
  podWith "job" none phase "nodeA"

/-! ## Sequences of reconciliations -/

/-- The pod's `migration-uid` label, as the code reads it, is `uid`. -/
def uidMatches (uid : String) (pod : Pod) : Bool :=
  decide (pod.ObjectMeta.label MigrationUIDLabel = uid)

/-- The pod carries the label `migration-uid=uid`. -/
def uidCarried (uid : String) (pod : Pod) : Bool :=
  decide (pod.ObjectMeta.label? MigrationUIDLabel = some uid)

/-- The cluster state after one reconciliation of `key`. -/
def reconcile {σ : Type} (S : Services σ) (key : String) (s : σ) : σ :=
  (execute S key s).state

/-- The cluster state after `n` reconciliations of `key` in a row. -/
def reconcileN {σ : Type} (S : Services σ) (key : String) : Nat → σ → σ
  | 0, s => s
  | n + 1, s => reconcileN S key n (reconcile S key s)

/-- The cluster model of the target pods of one Migration: `pods s` are the pods
of the VM in the state `s`.  The Migration cached under `key` has the UID `uid`;
`GetRunningVMPods`, when it succeeds, returns `pods s`; a successful
`CreateMigrationTargetPod` appends one pod labelled `migration-uid` with the UID
of the Migration it is given; a failing one, and every other service call,
successful or not, leaves the pods as they are. -/
structure TargetPodModel {σ : Type} (S : Services σ) (key uid : String)
    (pods : σ → List Pod) : Prop where
  store_uid : ∀ s m, S.store s key = .ok (some m) → m.ObjectMeta.UID = uid
  fetchVM : ∀ name s, pods (S.FetchVM name s).2 = pods s
  listed : ∀ vm s podList, (S.GetRunningVMPods vm s).1 = .ok podList → podList = pods s
  getRunningVMPods : ∀ vm s, pods (S.GetRunningVMPods vm s).2 = pods s
  create_ok : ∀ m vm s, (S.CreateMigrationTargetPod m vm s).1 = none →
    ∃ pod, pod.ObjectMeta.label? MigrationUIDLabel = some m.ObjectMeta.UID ∧
      pods (S.CreateMigrationTargetPod m vm s).2 = pods s ++ [pod]
  create_err : ∀ m vm s, (S.CreateMigrationTargetPod m vm s).1 ≠ none →
    pods (S.CreateMigrationTargetPod m vm s).2 = pods s
  updateMigration : ∀ m s, pods (S.UpdateMigration m s).2 = pods s
  putVm : ∀ vm s, pods (S.PutVm vm s).2 = pods s
  getMigrationJob : ∀ m s, pods (S.GetMigrationJob m s).2 = pods s
  nodesGet : ∀ name s, pods (S.nodesGet name s).2 = pods s
  startMigration : ∀ m vm src tgt pod s, pods (S.StartMigration m vm src tgt pod s).2 = pods s
/-- A cluster made of the Migration `default/m1` (of which only the phase
changes) and of the pods of its VM; `updateFails` makes every `UpdateMigration`
fail. -/
structure TargetCluster where
  phase : MigrationPhase
  pods : List Pod
  updateFails : Bool

/-- The services over a `TargetCluster`: a successful `CreateMigrationTargetPod`
appends a pending pod labelled with the name and the UID of the Migration, a
successful `UpdateMigration` stores the phase. -/
def targetClusterServices : Services TargetCluster where
  store := fun c _ => .ok (some (migrationFor "m1" "uid-1" c.phase ∅))
  schemeCopy := fun _ _ => none
  FetchVM := fun _ c => (.ok (some (vmWith VMPhase.Running ∅ "")), c)
  GetRunningVMPods := fun _ c => (.ok c.pods, c)
  CreateMigrationTargetPod := fun m _ c =>
    (none,
      { c with
        pods := c.pods ++
          [podWith "target" (some (targetPodLabels m.ObjectMeta.Name m.ObjectMeta.UID))
            PodPhase.PodPending ""] })
  UpdateMigration := fun m c =>
    if c.updateFails then (some (Err.other "conflict"), c)
    else (none, { c with phase := m.Status.Phase })
  PutVm := fun _ c => (none, c)
  GetMigrationJob := fun _ c => (.ok none, c)
  nodesGet := fun name c => (.ok ⟨name⟩, c)
  StartMigration := fun _ _ _ _ _ c => (none, c)

/-! ## Recording of the results of the service calls -/

/-- A service call together with the error it returned, if any. -/
abbrev CallResult := Call × Option Err

/-- The error of a result `(value, err)`. -/
def errorOf {α : Type} : Except Err α → Option Err
  | .error err => some err
  | .ok _ => none

/-- The services `S`, keeping a record of every service call made and of the
error it returned. -/
def Services.recording {σ : Type} (S : Services σ) : Services (σ × List CallResult) where
  store := fun s => S.store s.1
  schemeCopy := fun m s => S.schemeCopy m s.1
  FetchVM := fun name s =>
    ((S.FetchVM name s.1).1,
      ((S.FetchVM name s.1).2, s.2 ++ [(Call.FetchVM name, errorOf (S.FetchVM name s.1).1)]))
  GetRunningVMPods := fun vm s =>
    ((S.GetRunningVMPods vm s.1).1,
      ((S.GetRunningVMPods vm s.1).2,
        s.2 ++ [(Call.GetRunningVMPods vm, errorOf (S.GetRunningVMPods vm s.1).1)]))
  CreateMigrationTargetPod := fun m vm s =>
    ((S.CreateMigrationTargetPod m vm s.1).1,
      ((S.CreateMigrationTargetPod m vm s.1).2,
        s.2 ++ [(Call.CreateMigrationTargetPod m vm, (S.CreateMigrationTargetPod m vm s.1).1)]))
  UpdateMigration := fun m s =>
    ((S.UpdateMigration m s.1).1,
      ((S.UpdateMigration m s.1).2, s.2 ++ [(Call.UpdateMigration m, (S.UpdateMigration m s.1).1)]))
  PutVm := fun vm s =>
    ((S.PutVm vm s.1).1, ((S.PutVm vm s.1).2, s.2 ++ [(Call.PutVm vm, (S.PutVm vm s.1).1)]))
  GetMigrationJob := fun m s =>
    ((S.GetMigrationJob m s.1).1,
      ((S.GetMigrationJob m s.1).2,
        s.2 ++ [(Call.GetMigrationJob m, errorOf (S.GetMigrationJob m s.1).1)]))
  nodesGet := fun name s =>
    ((S.nodesGet name s.1).1,
      ((S.nodesGet name s.1).2, s.2 ++ [(Call.nodesGet name, errorOf (S.nodesGet name s.1).1)]))
  StartMigration := fun m vm src tgt pod s =>
    ((S.StartMigration m vm src tgt pod s.1).1,
      ((S.StartMigration m vm src tgt pod s.1).2,
        s.2 ++ [(Call.StartMigration m vm src tgt pod, (S.StartMigration m vm src tgt pod s.1).1)]))

/-- Every call of the record but the last one succeeded, and the last one
succeeded or returned `err`. -/
def FailFast (err : Option Err) : List CallResult → Prop
  | [] => True
  | [cr] => cr.2 = none ∨ cr.2 = err
  | cr :: cr1 :: rest => cr.2 = none ∧ FailFast err (cr1 :: rest)
/-- The situation analysis of the pods of `vm`, listed in the state `s`, fails
with `err` on a cache lookup. -/
def AnalysisFails {σ : Type} (S : Services σ) (migration : Migration) (vm : VM) (s : σ)
    (err : Err) : Prop :=
  ∃ podList, (S.GetRunningVMPods vm s).1 = .ok podList ∧
    investigateTargetPodSituation migration podList (S.store (S.GetRunningVMPods vm s).2) =
      .error err

/-- A step of `execute` that is not a service call fails with `err`: the cache
lookup of the key; the copy of the cached Migration; for a Migration in phase
Unknown with a VM in phase Running, `mergeConstraints` (the node selectors
conflict) or the cache lookup inside the situation analysis; for a Migration in
phase Running, the cache lookup inside the situation analysis. -/
def LocalFailure {σ : Type} (S : Services σ) (key : String) (s : σ) (err : Err) : Prop :=
  S.store s key = .error err ∨
  ∃ migration, S.store s key = .ok (some migration) ∧
    (S.schemeCopy migration s = some err ∨
      (S.schemeCopy migration s = none ∧
        ∃ vm, (S.FetchVM migration.Spec.Selector.Name s).1 = .ok (some vm) ∧
          ((migration.Status.Phase = MigrationPhase.MigrationUnknown ∧
              vm.Status.Phase = VMPhase.Running ∧
              ((mergeConstraints migration vm).1 = some err ∨
                ((mergeConstraints migration vm).1 = none ∧
                  AnalysisFails S migration (mergeConstraints migration vm).2
                    (S.FetchVM migration.Spec.Selector.Name s).2 err))) ∨
            (migration.Status.Phase = MigrationPhase.MigrationRunning ∧
              AnalysisFails S migration vm (S.FetchVM migration.Spec.Selector.Name s).2 err))))

/-- The outcome `o` of a run on the recording services is the outcome `p` of the
same run on the plain services, next to the record. -/
def SameRun {σ : Type} (o : Outcome (σ × List CallResult)) (p : Outcome σ) : Prop :=
  o.err = p.err ∧ o.calls = p.calls ∧ o.migration = p.migration ∧ o.state.1 = p.state

/-! ## A cluster for the idempotence property -/

/-- Modelled from the spec: the cluster state of property (T5), made of the
cached Migration, the VM, the pods of the VM and the migration job. -/
structure Cluster where
  migration : Option Migration
  vm : Option VM
  pods : List Pod
  job : Option Pod

/-- Modelled from the spec: the pod that a successful `CreateMigrationTargetPod`
adds, labelled `migration=<migration-name>` and `migration-uid=<M.UID>`, pending
and not yet assigned to a node. -/
def newTargetPod (migration : Migration) (vm : VM) : Pod :=
  ⟨⟨vm.ObjectMeta.Name ++ "-target", migration.ObjectMeta.Namespace, "",
      some (targetPodLabels migration.ObjectMeta.Name migration.ObjectMeta.UID)⟩,
    ⟨""⟩, ⟨PodPhase.PodPending⟩⟩

/-- Modelled from the spec: the job pod that a successful `StartMigration`
launches, labelled `app=migration`, pending. -/
def newMigrationJob (migration : Migration) : Pod :=
  ⟨⟨migration.ObjectMeta.Name ++ "-job", migration.ObjectMeta.Namespace, "",
      some (((∅ : GoMap).insert "app" "migration").insert MigrationLabel
        migration.ObjectMeta.Name)⟩,
    ⟨""⟩, ⟨PodPhase.PodPending⟩⟩

/-- Modelled from the spec: the services of the interface section applied to a
`Cluster`.  `fails` tells which service calls fail, and with which error: a
failing call leaves the cluster as it is, and as long as nothing else changes
the same call fails again.  A successful call is applied to the cluster:
`FetchVM` finds the VM by name; `GetRunningVMPods` and `GetMigrationJob` read
the pods and the job; `UpdateMigration` and `PutVm` write the Migration and the
VM; `StartMigration` launches the job; `CreateMigrationTargetPod` is "idempotent
by label selector; creates at most one pod per M.UID": it adds a target pod
unless a pod of the cluster already carries the label `migration-uid=<M.UID>`.
The cache, which holds the Migration under its `namespace/name` key, and the
copy of the cached Migration are local to the controller and do not fail. -/
def clusterServices (fails : Call → Option Err) : Services Cluster where
  store := fun c key =>
    .ok (c.migration.filter fun m =>
      decide (m.ObjectMeta.Namespace ++ "/" ++ m.ObjectMeta.Name = key))
  schemeCopy := fun _ _ => none
  FetchVM := fun name c =>
    match fails (Call.FetchVM name) with
    | some err => (.error err, c)
    | none => (.ok (c.vm.filter fun vm => decide (vm.ObjectMeta.Name = name)), c)
  GetRunningVMPods := fun vm c =>
    match fails (Call.GetRunningVMPods vm) with
    | some err => (.error err, c)
    | none => (.ok c.pods, c)
  CreateMigrationTargetPod := fun m vm c =>
    match fails (Call.CreateMigrationTargetPod m vm) with
    | some err => (some err, c)
    | none =>
      if c.pods.any (carriesUID m) then (none, c)
      else (none, { c with pods := c.pods ++ [newTargetPod m vm] })
  UpdateMigration := fun m c =>
    match fails (Call.UpdateMigration m) with
    | some err => (some err, c)
    | none => (none, { c with migration := some m })
  PutVm := fun vm c =>
    match fails (Call.PutVm vm) with
    | some err => (some err, c)
    | none => (none, { c with vm := some vm })
  GetMigrationJob := fun m c =>
    match fails (Call.GetMigrationJob m) with
    | some err => (.error err, c)
    | none => (.ok c.job, c)
  nodesGet := fun name c =>
    match fails (Call.nodesGet name) with
    | some err => (.error err, c)
    | none => (.ok ⟨name⟩, c)
  StartMigration := fun m vm src tgt pod c =>
    match fails (Call.StartMigration m vm src tgt pod) with
    | some err => (some err, c)
    | none => (none, { c with job := some (newMigrationJob m) })

/-- No service call fails. -/
def noFailure : Call → Option Err := fun _ => none

/-- The cluster of the re-entry case: the Migration `m1` is still in phase
Unknown although its target pod already runs on `nodeB`. -/
def reentryCluster : Cluster :=
  ⟨some (migrationFor "m1" "uid-1" MigrationPhase.MigrationUnknown ∅),
    some (vmWith VMPhase.Running ∅ ""), [targetPodOn PodPhase.PodRunning "nodeB"], none⟩

/-- The cache of the cluster holds the Migration `m` under `key`. -/
def Cached (c : Cluster) (key : String) (m : Migration) : Prop :=
  c.migration = some m ∧ m.ObjectMeta.Namespace ++ "/" ++ m.ObjectMeta.Name = key

/-- The VM of the cluster is `vm` and has the name that the Migration `m` selects. -/
def Fetched (c : Cluster) (m : Migration) (vm : VM) : Prop :=
  c.vm = some vm ∧ vm.ObjectMeta.Name = m.Spec.Selector.Name

/-- The cluster with the Migration `m` stored in phase `phase`. -/
def Cluster.withPhase (c : Cluster) (m : Migration) (phase : MigrationPhase) : Cluster :=
  { c with migration := some (m.withPhase phase) }

/-- The job of the cluster exists and is in a phase other than Failed and
Succeeded: the Running case waits for it. -/
def JobPending (c : Cluster) : Prop :=
  ∃ job ∈ c.job, job.Status.Phase ≠ PodPhase.PodFailed ∧
    job.Status.Phase ≠ PodPhase.PodSucceeded

instance (c : Cluster) : Decidable (JobPending c) :=
  inferInstanceAs (Decidable (∃ job ∈ c.job, job.Status.Phase ≠ PodPhase.PodFailed ∧
    job.Status.Phase ≠ PodPhase.PodSucceeded))

/-- The re-entry case of lines 188-190 with work left to do: the Migration
cached under `key` is still in phase Unknown, its VM exists in phase Running
and the selectors merge, and the situation analysis finds a target pod that is
in phase Succeeded, or in phase Running while the VM does not yet point at the
node of that pod or no job in a phase other than Failed and Succeeded exists. -/
def Reentry (c : Cluster) (key : String) : Prop :=
  ∃ m ∈ c.migration, ∃ vm ∈ c.vm, ∃ pod ∈ lastMatching m c.pods,
    m.ObjectMeta.Namespace ++ "/" ++ m.ObjectMeta.Name = key ∧
    vm.ObjectMeta.Name = m.Spec.Selector.Name ∧
    m.Status.Phase = MigrationPhase.MigrationUnknown ∧
    vm.Status.Phase = VMPhase.Running ∧
    (mergeConstraints m vm).1 = none ∧
    (pod.Status.Phase = PodPhase.PodSucceeded ∨
      (pod.Status.Phase = PodPhase.PodRunning ∧
        ¬ (vm.Status.MigrationNodeName = pod.Spec.NodeName ∧ JobPending c)))

instance (c : Cluster) (key : String) : Decidable (Reentry c key) :=
  inferInstanceAs (Decidable (∃ m ∈ c.migration, ∃ vm ∈ c.vm, ∃ pod ∈ lastMatching m c.pods,
    m.ObjectMeta.Namespace ++ "/" ++ m.ObjectMeta.Name = key ∧
    vm.ObjectMeta.Name = m.Spec.Selector.Name ∧
    m.Status.Phase = MigrationPhase.MigrationUnknown ∧
    vm.Status.Phase = VMPhase.Running ∧
    (mergeConstraints m vm).1 = none ∧
    (pod.Status.Phase = PodPhase.PodSucceeded ∨
      (pod.Status.Phase = PodPhase.PodRunning ∧
        ¬ (vm.Status.MigrationNodeName = pod.Spec.NodeName ∧ JobPending c)))))

/-- The oracle under which every `UpdateMigration` fails and nothing else does. -/
def updateFails : Call → Option Err
  | .UpdateMigration _ => some (Err.other "conflict")
  | _ => none

/-! ## Lemmas on `mergeConstraints` -/

theorem copySelector_lookup (l : List (Sigma (fun _ : String => String))) (hl : l.NodupKeys)
    (acc : GoMap) (k : String) :
    (copySelector l acc).lookup k = (l.dlookup k).orElse (fun _ => acc.lookup k) := by
  induction l generalizing acc with
  | nil => simp [copySelector]
  | cons e l ih =>
    obtain ⟨ek, ev⟩ := e
    obtain ⟨hk, hl1⟩ := List.nodupKeys_cons.mp hl
    have h := ih hl1 (acc.insert ek ev)
    simp only [copySelector, List.foldl_cons] at h ⊢
    rw [h]
    by_cases hke : k = ek
    · subst hke
      have hnone : l.dlookup k = none := List.dlookup_eq_none.mpr hk
      simp [hnone, List.dlookup_cons_eq]
    · rw [List.dlookup_cons_ne l ⟨ek, ev⟩ hke, AList.lookup_insert_ne hke]

theorem mergeStep_eq (vmSelector : GoMap) (acc : GoMap × List String)
    (e : Sigma (fun _ : String => String)) :
    mergeStep vmSelector acc e =
      if isConflict vmSelector e then (acc.1, acc.2 ++ [e.1])
      else (acc.1.insert e.1 e.2, acc.2) := by
  unfold mergeStep isConflict
  cases h : vmSelector.lookup e.1 with
  | none => simp
  | some val => by_cases hv : val = e.2 <;> simp [hv]

theorem foldl_mergeStep (vmSelector : GoMap) (l : List (Sigma (fun _ : String => String)))
    (acc : GoMap × List String) :
    l.foldl (mergeStep vmSelector) acc =
      (copySelector (l.filter (fun e => !isConflict vmSelector e)) acc.1,
        acc.2 ++ (l.filter (isConflict vmSelector)).map Sigma.fst) := by
  induction l generalizing acc with
  | nil => simp [copySelector]
  | cons e l ih =>
    rw [List.foldl_cons, ih, mergeStep_eq]
    by_cases hc : isConflict vmSelector e <;> simp [hc, copySelector]

theorem dlookup_filter (p : Sigma (fun _ : String => String) → Bool)
    (l : List (Sigma (fun _ : String => String))) (hl : l.NodupKeys) (k : String) :
    (l.filter p).dlookup k = (l.dlookup k).filter (fun b => p ⟨k, b⟩) := by
  induction l with
  | nil => simp
  | cons e l ih =>
    obtain ⟨ek, ev⟩ := e
    obtain ⟨hk, hl1⟩ := List.nodupKeys_cons.mp hl
    by_cases hke : k = ek
    · subst hke
      have hnone : l.dlookup k = none := List.dlookup_eq_none.mpr hk
      by_cases hp : p ⟨k, ev⟩
      · simp [List.filter_cons, hp, List.dlookup_cons_eq, Option.filter]
      · simp [List.filter_cons, hp, List.dlookup_cons_eq, Option.filter, ih hl1, hnone]
    · have h1 : ∀ l1 : List (Sigma (fun _ : String => String)),
          List.dlookup k (⟨ek, ev⟩ :: l1) = List.dlookup k l1 :=
        fun l1 => List.dlookup_cons_ne l1 ⟨ek, ev⟩ hke
      by_cases hp : p ⟨ek, ev⟩
      · simp [List.filter_cons, hp, h1, ih hl1]
      · simp [List.filter_cons, hp, h1, ih hl1]

theorem isConflict_iff (migrationSelector vmSelector : GoMap) (k a : String)
    (ha : migrationSelector.lookup k = some a) :
    isConflict vmSelector ⟨k, a⟩ = true ↔ ConflictingKey migrationSelector vmSelector k := by
  unfold isConflict ConflictingKey
  constructor
  · intro h
    cases hv : vmSelector.lookup k with
    | none => simp [hv] at h
    | some val =>
      simp [hv] at h
      exact ⟨a, val, ha, rfl, h⟩
  · rintro ⟨a1, b, h1, h2, hne⟩
    rw [ha] at h1
    cases h1
    simp [h2, hne]

/-- The conflicts that `mergeConstraints` collects: the keys of the conflicting
entries of the Migration's selector, in iteration order. -/
theorem mergeLoops_conflicts (migrationSelector vmSelector : GoMap) :
    (mergeLoops migrationSelector vmSelector).2 =
      (migrationSelector.entries.filter (isConflict vmSelector)).map Sigma.fst := by
  simp [mergeLoops, foldl_mergeStep]

theorem mem_mergeLoops_conflicts (migrationSelector vmSelector : GoMap) (k : String) :
    k ∈ (mergeLoops migrationSelector vmSelector).2 ↔
      ConflictingKey migrationSelector vmSelector k := by
  rw [mergeLoops_conflicts]
  constructor
  · intro h
    obtain ⟨e, he, hek⟩ := List.mem_map.mp h
    obtain ⟨hmem, hc⟩ := List.mem_filter.mp he
    obtain ⟨ek, ev⟩ := e
    simp only at hek
    subst hek
    have ha : migrationSelector.lookup ek = some ev := AList.mem_lookup_iff.mpr hmem
    exact (isConflict_iff migrationSelector vmSelector ek ev ha).mp hc
  · intro h
    obtain ⟨a, b, h1, h2, hne⟩ := h
    have hmem : (⟨k, a⟩ : Sigma (fun _ : String => String)) ∈ migrationSelector.entries :=
      AList.mem_lookup_iff.mp h1
    refine List.mem_map.mpr ⟨⟨k, a⟩, List.mem_filter.mpr ⟨hmem, ?_⟩, rfl⟩
    exact (isConflict_iff migrationSelector vmSelector k a h1).mpr ⟨a, b, h1, h2, hne⟩

theorem mergeLoops_conflicts_nodup (migrationSelector vmSelector : GoMap) :
    (mergeLoops migrationSelector vmSelector).2.Nodup := by
  rw [mergeLoops_conflicts]
  have h : (migrationSelector.entries.filter (isConflict vmSelector)).NodupKeys :=
    List.NodupKeys.sublist (List.filter_sublist _) migrationSelector.nodupKeys
  exact h

/-- The merged map of `mergeConstraints`, key by key: the value of a
non-conflicting entry of the Migration's selector, else the VM's value. -/
theorem mergeLoops_lookup (migrationSelector vmSelector : GoMap) (k : String) :
    (mergeLoops migrationSelector vmSelector).1.lookup k =
      ((migrationSelector.lookup k).filter (fun a => !isConflict vmSelector ⟨k, a⟩)).orElse
        (fun _ => vmSelector.lookup k) := by
  have hn : (migrationSelector.entries.filter (fun e => !isConflict vmSelector e)).NodupKeys :=
    List.NodupKeys.sublist (List.filter_sublist _) migrationSelector.nodupKeys
  simp only [mergeLoops, foldl_mergeStep]
  rw [copySelector_lookup _ hn, copySelector_lookup _ vmSelector.nodupKeys,
    dlookup_filter _ _ migrationSelector.nodupKeys]
  simp [AList.lookup]

theorem mergeConstraints_of_nil (migration : Migration) (vm : VM)
    (h : (mergeLoops migration.Spec.NodeSelector vm.Spec.NodeSelector).2 = []) :
    mergeConstraints migration vm =
      (none, { vm with Spec := { vm.Spec with
        NodeSelector := (mergeLoops migration.Spec.NodeSelector vm.Spec.NodeSelector).1 } }) := by
  simp [mergeConstraints, h]

theorem mergeConstraints_of_ne_nil (migration : Migration) (vm : VM)
    (h : (mergeLoops migration.Spec.NodeSelector vm.Spec.NodeSelector).2 ≠ []) :
    mergeConstraints migration vm =
      (some (Err.conflictingNodeSelectors
        (mergeLoops migration.Spec.NodeSelector vm.Spec.NodeSelector).2), vm) := by
  have hpos : 0 < (mergeLoops migration.Spec.NodeSelector vm.Spec.NodeSelector).2.length :=
    List.length_pos.mpr h
  simp [mergeConstraints, hpos]

theorem conflicts_eq_nil_iff (migrationSelector vmSelector : GoMap) :
    (mergeLoops migrationSelector vmSelector).2 = [] ↔
      ∀ k, ¬ ConflictingKey migrationSelector vmSelector k := by
  rw [List.eq_nil_iff_forall_not_mem]
  exact forall_congr' fun k => not_congr (mem_mergeLoops_conflicts _ _ k)

/-- Without conflicts the merged map binds a key as the Migration's selector
does, and otherwise as the VM's selector does. -/
theorem mergeLoops_lookup_of_no_conflict (migrationSelector vmSelector : GoMap)
    (h : ∀ k, ¬ ConflictingKey migrationSelector vmSelector k) (k : String) :
    (mergeLoops migrationSelector vmSelector).1.lookup k =
      (migrationSelector.lookup k).orElse (fun _ => vmSelector.lookup k) := by
  rw [mergeLoops_lookup]
  cases ha : migrationSelector.lookup k with
  | none => simp [Option.filter]
  | some a =>
    have hc : isConflict vmSelector ⟨k, a⟩ = false := by
      cases hb : isConflict vmSelector ⟨k, a⟩ with
      | false => rfl
      | true => exact absurd ((isConflict_iff migrationSelector vmSelector k a ha).mp hb) (h k)
    simp [Option.filter, hc]

/-! ## Lemmas on `investigateTargetPodSituation` -/

theorem matchesUID_eq_carriesUID (migration : Migration)
    (huid : migration.ObjectMeta.UID ≠ "") (pod : Pod) :
    matchesUID migration pod = carriesUID migration pod := by
  unfold matchesUID carriesUID ObjectMeta.label
  cases h : pod.ObjectMeta.label? MigrationUIDLabel with
  | none =>
    have : ¬ "" = migration.ObjectMeta.UID := fun h => huid h.symm
    simp [this]
  | some v => simp

theorem lastMatching_cons_pos (migration : Migration) (pod : Pod) (rest : List Pod)
    (h : matchesUID migration pod = true) :
    lastMatching migration (pod :: rest) = ((lastMatching migration rest).or (some pod)) := by
  simp only [lastMatching, List.filter_cons, h, if_true, List.getLast?_cons]
  cases (rest.filter (matchesUID migration)).getLast? <;> rfl

theorem lastMatching_cons_neg (migration : Migration) (pod : Pod) (rest : List Pod)
    (h : matchesUID migration pod = false) :
    lastMatching migration (pod :: rest) = lastMatching migration rest := by
  simp [lastMatching, List.filter_cons, h]

theorem investigateLoop_ok (migration : Migration) (migrationStore : Store)
    (hstore : ∀ key, ∃ r, migrationStore key = .ok r) (podList : List Pod) :
    ∀ (podCount : Nat) (targetPod : Option Pod),
      investigateLoop migration migrationStore podList podCount targetPod =
        .ok (podCount + podList.countP (countsAsActive migration migrationStore),
          (lastMatching migration podList).or targetPod) := by
  induction podList with
  | nil => intro podCount targetPod; simp [investigateLoop, lastMatching]
  | cons pod rest ih =>
    intro podCount targetPod
    unfold investigateLoop
    by_cases hm : pod.ObjectMeta.label MigrationUIDLabel = migration.ObjectMeta.UID
    · have hmu : matchesUID migration pod = true := by simp [matchesUID, hm]
      have hc : countsAsActive migration migrationStore pod = true := by
        simp [countsAsActive, hmu]
      rw [if_pos hm, ih, List.countP_cons_of_pos _ _ hc, lastMatching_cons_pos _ _ _ hmu]
      congr 2
      · omega
      · cases lastMatching migration rest <;> rfl
    · have hmu : matchesUID migration pod = false := by simp [matchesUID, hm]
      rw [if_neg hm, lastMatching_cons_neg _ _ _ hmu]
      cases hl : pod.ObjectMeta.label? MigrationLabel with
      | none =>
        have hc : ¬ countsAsActive migration migrationStore pod = true := by
          simp [countsAsActive, hmu, hl]
        simp only [ih, List.countP_cons_of_neg _ _ hc]
      | some l =>
        obtain ⟨r, hr⟩ := hstore (podMigrationKey pod l)
        cases r with
        | none =>
          have hc : countsAsActive migration migrationStore pod = true := by
            simp [countsAsActive, hmu, hl, hr]
          simp only [hr, ih, List.countP_cons_of_pos _ _ hc]
          congr 2
          omega
        | some cachedMigration =>
          by_cases hp : cachedMigration.Status.Phase ≠ MigrationPhase.MigrationFailed ∧
              cachedMigration.Status.Phase ≠ MigrationPhase.MigrationSucceeded
          · have hc : countsAsActive migration migrationStore pod = true := by
              simp [countsAsActive, hmu, hl, hr, hp.1, hp.2]
            simp only [hr, if_pos hp, ih, List.countP_cons_of_pos _ _ hc]
            congr 2
            omega
          · have hc : ¬ countsAsActive migration migrationStore pod = true := by
              simp only [countsAsActive, hmu, hl, hr, Bool.false_or, decide_eq_true_eq]
              tauto
            simp only [hr, if_neg hp, ih, List.countP_cons_of_neg _ _ hc]

/-- The target pod of a successful situation analysis is the last pod that
passes the UID test, whatever the cache holds. -/
theorem investigateLoop_target (migration : Migration) (migrationStore : Store)
    (podList : List Pod) :
    ∀ (podCount : Nat) (targetPod : Option Pod) (n : Nat) (t : Option Pod),
      investigateLoop migration migrationStore podList podCount targetPod = .ok (n, t) →
        t = (lastMatching migration podList).or targetPod := by
  induction podList with
  | nil =>
    intro podCount targetPod n t h
    simp [investigateLoop, lastMatching] at h ⊢
    exact h.2.symm
  | cons pod rest ih =>
    intro podCount targetPod n t h
    unfold investigateLoop at h
    by_cases hm : pod.ObjectMeta.label MigrationUIDLabel = migration.ObjectMeta.UID
    · have hmu : matchesUID migration pod = true := by simp [matchesUID, hm]
      rw [if_pos hm] at h
      rw [ih _ _ _ _ h, lastMatching_cons_pos _ _ _ hmu]
      cases lastMatching migration rest <;> rfl
    · have hmu : matchesUID migration pod = false := by simp [matchesUID, hm]
      rw [if_neg hm] at h
      rw [lastMatching_cons_neg _ _ _ hmu]
      split at h
      · exact ih _ _ _ _ h
      · split at h
        · cases h
        · split at h <;> exact ih _ _ _ _ h
        · exact ih _ _ _ _ h

/-! ## Lemmas on `execute` -/

section
variable {σ : Type}

theorem setMigrationPhase_of_ne (S : Services σ) (migration : Migration)
    (phase : MigrationPhase) (s : σ) (h : migration.Status.Phase ≠ phase) :
    setMigrationPhase S migration phase s =
      ⟨(S.UpdateMigration (migration.withPhase phase) s).1,
        [Call.UpdateMigration (migration.withPhase phase)],
        (S.UpdateMigration (migration.withPhase phase) s).2,
        some (migration.withPhase phase)⟩ := by
  unfold setMigrationPhase
  rw [if_neg h]
  dsimp only
  split <;> simp_all

theorem setMigrationPhase_of_eq (S : Services σ) (migration : Migration)
    (phase : MigrationPhase) (s : σ) (h : migration.Status.Phase = phase) :
    setMigrationPhase S migration phase s = ⟨none, [], s, some migration⟩ := by
  unfold setMigrationPhase
  rw [if_pos h]

theorem withPhase_of_eq (migration : Migration) (phase : MigrationPhase)
    (h : migration.Status.Phase = phase) : migration.withPhase phase = migration := by
  cases h
  rfl

theorem setMigrationPhase_calls (S : Services σ) (migration : Migration)
    (phase : MigrationPhase) (s : σ) :
    (setMigrationPhase S migration phase s).calls =
      if migration.Status.Phase = phase then []
      else [Call.UpdateMigration (migration.withPhase phase)] := by
  by_cases h : migration.Status.Phase = phase
  · rw [setMigrationPhase_of_eq S migration phase s h, if_pos h]
  · rw [setMigrationPhase_of_ne S migration phase s h, if_neg h]

theorem setMigrationPhase_migration (S : Services σ) (migration : Migration)
    (phase : MigrationPhase) (s : σ) :
    (setMigrationPhase S migration phase s).migration = some (migration.withPhase phase) := by
  by_cases h : migration.Status.Phase = phase
  · rw [setMigrationPhase_of_eq S migration phase s h, withPhase_of_eq migration phase h]
  · rw [setMigrationPhase_of_ne S migration phase s h]

theorem setMigrationPhase_err (S : Services σ) (migration : Migration)
    (phase : MigrationPhase) (s : σ) :
    (setMigrationPhase S migration phase s).err =
      if migration.Status.Phase = phase then none
      else (S.UpdateMigration (migration.withPhase phase) s).1 := by
  by_cases h : migration.Status.Phase = phase
  · rw [setMigrationPhase_of_eq S migration phase s h, if_pos h]
  · rw [setMigrationPhase_of_ne S migration phase s h, if_neg h]

theorem setMigrationPhase_state (S : Services σ) (migration : Migration)
    (phase : MigrationPhase) (s : σ) :
    (setMigrationPhase S migration phase s).state =
      if migration.Status.Phase = phase then s
      else (S.UpdateMigration (migration.withPhase phase) s).2 := by
  by_cases h : migration.Status.Phase = phase
  · rw [setMigrationPhase_of_eq S migration phase s h, if_pos h]
  · rw [setMigrationPhase_of_ne S migration phase s h, if_neg h]

theorem mutCount_after (pre : List Call) (o : Outcome σ) :
    (Outcome.after pre o).mutCount = (pre.filter Call.isMutating).length + o.mutCount := by
  simp [Outcome.after, Outcome.mutCount, Outcome.mutatingCalls]

theorem mutCount_setMigrationPhase (S : Services σ) (migration : Migration)
    (phase : MigrationPhase) (s : σ) :
    (setMigrationPhase S migration phase s).mutCount =
      if migration.Status.Phase = phase then 0 else 1 := by
  simp only [Outcome.mutCount, Outcome.mutatingCalls, setMigrationPhase_calls]
  split <;> simp [Call.isMutating]

theorem mutCount_mk (err : Option Err) (calls : List Call) (s : σ) (m : Option Migration) :
    (Outcome.mk err calls s m).mutCount = (calls.filter Call.isMutating).length := rfl

theorem mutCount_executeJob (S : Services σ) (migration : Migration) (vm : VM)
    (targetPod : Pod) (s : σ) :
    (executeJob S migration vm targetPod s).mutCount ≤ 2 := by
  unfold executeJob
  repeat' first
    | split
    | simp only [mutCount_after, mutCount_mk, mutCount_setMigrationPhase,
        setMigrationFailed, List.filter, Call.isMutating, List.length]
  all_goals omega

theorem mutCount_executeRunning (S : Services σ) (migration : Migration) (vm : VM) (s : σ) :
    (executeRunning S migration vm s).mutCount ≤ 3 := by
  unfold executeRunning
  repeat' first
    | split
    | simp only [mutCount_after, mutCount_mk, mutCount_setMigrationPhase,
        setMigrationFailed, List.filter, Call.isMutating, List.length, Nat.zero_add]
  all_goals
    first
    | omega
    | exact Nat.le_trans (mutCount_executeJob _ _ _ _ _) (by decide)
    | exact Nat.le_trans (Nat.add_le_add_left (mutCount_executeJob _ _ _ _ _) _) (by decide)

theorem mutCount_executeUnknown (S : Services σ) (migration : Migration) (vm : VM) (s : σ) :
    (executeUnknown S migration vm s).mutCount ≤ 2 := by
  unfold executeUnknown
  repeat' first
    | split
    | simp only [mutCount_after, mutCount_mk, mutCount_setMigrationPhase,
        setMigrationFailed, List.filter, Call.isMutating, List.length, Nat.zero_add]
  all_goals omega

end

/-! ## The claims -/

section
variable {σ : Type}

/-- The sibling path of C1: a cached Migration in phase Failed, or in phase
Succeeded while `FetchVM` does not report the VM as absent, is left alone by
`execute`: no mutating call is made and the working copy is the cached
Migration. -/
theorem execute_terminal_unchanged (S : Services σ) (key : String) (s : σ)
    (migration : Migration)
    (hstore : S.store s key = .ok (some migration))
    (hterminal : migration.Status.Phase = MigrationPhase.MigrationFailed ∨
      (migration.Status.Phase = MigrationPhase.MigrationSucceeded ∧
        (S.FetchVM migration.Spec.Selector.Name s).1 ≠ .ok none)) :
    (execute S key s).mutatingCalls = [] ∧
    ((execute S key s).migration = none ∨ (execute S key s).migration = some migration) := by
  unfold execute
  simp only [hstore]
  cases hcopy : S.schemeCopy migration s with
  | some err => simp [Outcome.mutatingCalls]
  | none =>
    rcases hfetch : S.FetchVM migration.Spec.Selector.Name s with ⟨r, s1⟩
    rcases hterminal with hfailed | ⟨hsucc, hvm⟩
    · rcases r with err | _ | vm
      · simp [Outcome.mutatingCalls, Call.isMutating]
      · simp [Outcome.mutatingCalls, Call.isMutating, Outcome.after, setMigrationFailed,
          setMigrationPhase_of_eq S migration _ s1 hfailed]
      · simp [Outcome.mutatingCalls, Call.isMutating, Outcome.after, hfailed]
    · rw [hfetch] at hvm
      rcases r with err | _ | vm
      · simp [Outcome.mutatingCalls, Call.isMutating]
      · exact absurd rfl hvm
      · simp [Outcome.mutatingCalls, Call.isMutating, Outcome.after, hsucc]

end

/-- C1 (code bug): on the cluster whose cache holds the Migration `default/m1`
in phase Succeeded and where `FetchVM` reports that the VM `vm1` does not
exist, `execute` calls `UpdateMigration` with the Migration in phase Failed:
the terminal phase Succeeded is overwritten. -/
theorem execute_succeeded_vm_absent_marks_failed :
    execute
        (fixedServices [migrationFor "m1" "uid-1" MigrationPhase.MigrationSucceeded ∅]
          none [] none)
        "default/m1" () =
      ⟨none,
        [Call.FetchVM "vm1",
          Call.UpdateMigration (migrationFor "m1" "uid-1" MigrationPhase.MigrationFailed ∅)],
        (), some (migrationFor "m1" "uid-1" MigrationPhase.MigrationFailed ∅)⟩ :=
  rfl

section
variable {σ : Type}

/-- C2 (amended): one invocation of `execute` issues at most three mutating
calls among `UpdateMigration`, `PutVm`, `CreateMigrationTargetPod` and
`StartMigration`, whatever the key, the services and the cluster state. -/
theorem execute_mutating_calls_le_three (S : Services σ) (key : String) (s : σ) :
    (execute S key s).mutatingCalls.length ≤ 3 := by
  show (execute S key s).mutCount ≤ 3
  unfold execute
  repeat' first
    | split
    | simp only [mutCount_after, mutCount_mk, mutCount_setMigrationPhase,
        setMigrationFailed, List.filter, Call.isMutating, List.length, Nat.zero_add]
  all_goals
    first
    | omega
    | exact Nat.le_trans (mutCount_executeUnknown _ _ _ _) (by decide)
    | exact mutCount_executeRunning _ _ _ _

end

/-- C2 (counterexample): for a Migration in phase Running whose target pod runs
on `nodeB`, with a VM not yet pointing at `nodeB` and a migration job in phase
Failed, one invocation of `execute` makes three mutating calls: `PutVm` with the
VM in phase Migrating, `PutVm` with the VM rolled back, and `UpdateMigration`. -/
theorem execute_three_mutating_calls :
    (execute
        (fixedServices [migrationFor "m1" "uid-1" MigrationPhase.MigrationRunning ∅]
          (some (vmWith VMPhase.Running ∅ ""))
          [podWith "p1" (some (targetPodLabels "m1" "uid-1")) PodPhase.PodRunning "nodeB"]
          (some (podWith "job" none PodPhase.PodFailed "nodeA")))
        "default/m1" ()).mutatingCalls =
      [Call.PutVm (vmWith VMPhase.Migrating ∅ "nodeB"),
        Call.PutVm (vmWith VMPhase.Running ∅ ""),
        Call.UpdateMigration (migrationFor "m1" "uid-1" MigrationPhase.MigrationFailed ∅)] ∧
    ¬ (execute
        (fixedServices [migrationFor "m1" "uid-1" MigrationPhase.MigrationRunning ∅]
          (some (vmWith VMPhase.Running ∅ ""))
          [podWith "p1" (some (targetPodLabels "m1" "uid-1")) PodPhase.PodRunning "nodeB"]
          (some (podWith "job" none PodPhase.PodFailed "nodeA")))
        "default/m1" ()).mutatingCalls.length ≤ 1 :=
  ⟨rfl, by decide⟩

/-- C3: when no key is bound to different values by the Migration's selector and
by the VM's selector, `mergeConstraints` returns no error and replaces the VM's
selector by a map whose keys are the keys of either selector, which agrees with
the VM's selector on its keys and with the Migration's selector on its keys;
nothing else of the VM changes. -/
theorem mergeConstraints_no_conflict (migration : Migration) (vm : VM)
    (h : ∀ k, ¬ ConflictingKey migration.Spec.NodeSelector vm.Spec.NodeSelector k) :
    (mergeConstraints migration vm).1 = none ∧
    (∀ k, k ∈ (mergeConstraints migration vm).2.Spec.NodeSelector ↔
      k ∈ vm.Spec.NodeSelector ∨ k ∈ migration.Spec.NodeSelector) ∧
    (∀ k, k ∈ vm.Spec.NodeSelector →
      (mergeConstraints migration vm).2.Spec.NodeSelector.lookup k =
        vm.Spec.NodeSelector.lookup k) ∧
    (∀ k, k ∈ migration.Spec.NodeSelector →
      (mergeConstraints migration vm).2.Spec.NodeSelector.lookup k =
        migration.Spec.NodeSelector.lookup k) ∧
    (mergeConstraints migration vm).2.ObjectMeta = vm.ObjectMeta ∧
    (mergeConstraints migration vm).2.Status = vm.Status := by
  have hnil := (conflicts_eq_nil_iff _ _).mpr h
  have hl := mergeLoops_lookup_of_no_conflict _ _ h
  rw [mergeConstraints_of_nil migration vm hnil]
  refine ⟨rfl, ?_, ?_, ?_, rfl, rfl⟩
  · intro k
    simp only [← AList.lookup_isSome, hl]
    cases ha : migration.Spec.NodeSelector.lookup k <;>
      cases hb : vm.Spec.NodeSelector.lookup k <;> simp
  · intro k hk
    simp only [hl]
    obtain ⟨b, hb⟩ := Option.isSome_iff_exists.mp (AList.lookup_isSome.mpr hk)
    cases ha : migration.Spec.NodeSelector.lookup k with
    | none => simp
    | some a =>
      have : b = a := by
        by_contra hne
        exact h k ⟨a, b, ha, hb, hne⟩
      simp [hb, this]
  · intro k hk
    simp only [hl]
    obtain ⟨a, ha⟩ := Option.isSome_iff_exists.mp (AList.lookup_isSome.mpr hk)
    simp [ha]

/-- C3 (witness): the selectors `zone=eu` of the Migration and `disk=ssd` of the
VM do not conflict, and the merge succeeds. -/
theorem mergeConstraints_no_conflict_witness :
    (∀ k, ¬ ConflictingKey selectorZoneEu selectorDiskSsd k) ∧
    (mergeConstraints (migrationFor "m1" "uid-1" MigrationPhase.MigrationUnknown selectorZoneEu)
      (vmWith VMPhase.Running selectorDiskSsd "")).1 = none :=
  ⟨(conflicts_eq_nil_iff _ _).mp rfl,
    (mergeConstraints_no_conflict
      (migrationFor "m1" "uid-1" MigrationPhase.MigrationUnknown selectorZoneEu)
      (vmWith VMPhase.Running selectorDiskSsd "") ((conflicts_eq_nil_iff _ _).mp rfl)).1⟩

/-- C4: `mergeConstraints` returns an error exactly when some key is bound by
both selectors to different values; it then leaves the VM as it was, and the
error lists, once each, exactly the keys bound to different values. -/
theorem mergeConstraints_error_iff (migration : Migration) (vm : VM) :
    ((mergeConstraints migration vm).1 ≠ none ↔
      ∃ k, ConflictingKey migration.Spec.NodeSelector vm.Spec.NodeSelector k) ∧
    ((mergeConstraints migration vm).1 ≠ none →
      (mergeConstraints migration vm).2 = vm ∧
      ∃ conflicts,
        (mergeConstraints migration vm).1 = some (Err.conflictingNodeSelectors conflicts) ∧
        conflicts.Nodup ∧
        ∀ k, k ∈ conflicts ↔
          ConflictingKey migration.Spec.NodeSelector vm.Spec.NodeSelector k) := by
  by_cases hnil : (mergeLoops migration.Spec.NodeSelector vm.Spec.NodeSelector).2 = []
  · have hno := (conflicts_eq_nil_iff _ _).mp hnil
    rw [mergeConstraints_of_nil migration vm hnil]
    refine ⟨⟨fun hc => absurd rfl hc, fun ⟨k, hk⟩ => absurd hk (hno k)⟩, fun hc => absurd rfl hc⟩
  · rw [mergeConstraints_of_ne_nil migration vm hnil]
    refine ⟨⟨fun _ => ?_, fun _ => by simp⟩, fun _ => ⟨rfl, _, rfl, ?_, ?_⟩⟩
    · by_contra hex
      exact hnil ((conflicts_eq_nil_iff _ _).mpr fun k hk => hex ⟨k, hk⟩)
    · exact mergeLoops_conflicts_nodup _ _
    · exact mem_mergeLoops_conflicts _ _

/-- C4 (witness): the selectors `zone=eu` of the Migration and `zone=us` of the
VM conflict; the VM is left as it was. -/
theorem mergeConstraints_error_iff_witness :
    (mergeConstraints (migrationFor "m1" "uid-1" MigrationPhase.MigrationUnknown selectorZoneEu)
      (vmWith VMPhase.Running selectorZoneUs "")).1 ≠ none ∧
    (mergeConstraints (migrationFor "m1" "uid-1" MigrationPhase.MigrationUnknown selectorZoneEu)
      (vmWith VMPhase.Running selectorZoneUs "")).2 = vmWith VMPhase.Running selectorZoneUs "" :=
  ⟨by decide,
    ((mergeConstraints_error_iff
      (migrationFor "m1" "uid-1" MigrationPhase.MigrationUnknown selectorZoneEu)
      (vmWith VMPhase.Running selectorZoneUs "")).2 (by decide)).1⟩

/-- C5: when no lookup of the Migration cache errors,
`investigateTargetPodSituation` returns without error and its pod count is the
number of pods of the list whose migration-uid label (read as the code reads it,
`pod.Labels[...]`, the empty string when absent) equals the Migration's UID, or
which have a migration label whose cache entry `namespace/label` is absent or in
a phase other than Succeeded and Failed. A pod with no migration label and
another migration-uid is not counted. For a non-empty UID the UID test holds
exactly when the pod carries the label with that value. -/
theorem investigateTargetPodSituation_podCount (migration : Migration) (podList : List Pod)
    (migrationStore : Store) (hstore : ∀ key, ∃ r, migrationStore key = .ok r) :
    (∃ targetPod, investigateTargetPodSituation migration podList migrationStore =
      .ok (podList.countP (countsAsActive migration migrationStore), targetPod)) ∧
    (∀ pod, pod.ObjectMeta.label? MigrationLabel = none →
      pod.ObjectMeta.label MigrationUIDLabel ≠ migration.ObjectMeta.UID →
      countsAsActive migration migrationStore pod = false) ∧
    (migration.ObjectMeta.UID ≠ "" →
      ∀ pod, matchesUID migration pod = carriesUID migration pod) := by
  refine ⟨⟨(lastMatching migration podList).or none, ?_⟩, ?_, ?_⟩
  · unfold investigateTargetPodSituation
    rw [investigateLoop_ok migration migrationStore hstore podList 0 none, Nat.zero_add]
  · intro pod hl hne
    simp [countsAsActive, matchesUID, hl, hne]
  · exact matchesUID_eq_carriesUID migration

/-- C5 (witness): with the Migrations `m1` (Running) and `m3` (Failed) cached,
the target pod of `m1`, an unlabelled pod, a pod of the unknown Migration `m2`
and a pod of `m3` give a pod count of two. -/
theorem investigateTargetPodSituation_podCount_witness :
    ∃ targetPod,
      investigateTargetPodSituation
          (migrationFor "m1" "uid-1" MigrationPhase.MigrationRunning ∅)
          [podWith "p1" (some (targetPodLabels "m1" "uid-1")) PodPhase.PodRunning "nodeB",
            podWith "p0" none PodPhase.PodRunning "nodeA",
            podWith "p2" (some (targetPodLabels "m2" "uid-2")) PodPhase.PodRunning "nodeC",
            podWith "p3" (some (targetPodLabels "m3" "uid-3")) PodPhase.PodRunning "nodeD"]
          ((fixedServices
            [migrationFor "m1" "uid-1" MigrationPhase.MigrationRunning ∅,
              migrationFor "m3" "uid-3" MigrationPhase.MigrationFailed ∅] none [] none).store ()) =
        .ok (2, targetPod) :=
  (investigateTargetPodSituation_podCount
    (migrationFor "m1" "uid-1" MigrationPhase.MigrationRunning ∅)
    [podWith "p1" (some (targetPodLabels "m1" "uid-1")) PodPhase.PodRunning "nodeB",
      podWith "p0" none PodPhase.PodRunning "nodeA",
      podWith "p2" (some (targetPodLabels "m2" "uid-2")) PodPhase.PodRunning "nodeC",
      podWith "p3" (some (targetPodLabels "m3" "uid-3")) PodPhase.PodRunning "nodeD"]
    ((fixedServices
      [migrationFor "m1" "uid-1" MigrationPhase.MigrationRunning ∅,
        migrationFor "m3" "uid-3" MigrationPhase.MigrationFailed ∅] none [] none).store ())
    (fun _ => ⟨_, rfl⟩)).1

/-- C6 (counterexample): for a Migration with the empty UID and a pod list made
of one pod without labels, `investigateTargetPodSituation` returns that pod as
the target pod, although no pod of the list carries a migration-uid label. -/
theorem investigateTargetPodSituation_empty_uid :
    investigateTargetPodSituation (migrationFor "m1" "" MigrationPhase.MigrationUnknown ∅)
        [podWith "p0" none PodPhase.PodRunning "nodeA"]
        ((fixedServices [migrationFor "m1" "" MigrationPhase.MigrationUnknown ∅]
          none [] none).store ()) =
      .ok (1, some (podWith "p0" none PodPhase.PodRunning "nodeA")) ∧
    (podWith "p0" none PodPhase.PodRunning "nodeA").ObjectMeta.label? MigrationUIDLabel = none :=
  ⟨rfl, rfl⟩

/-- C6 (amended): for a Migration with a non-empty UID, when
`investigateTargetPodSituation` returns without error, its target pod is the
last pod of the list, in list order, that carries a migration-uid label equal to
the UID: a returned pod belongs to the list and carries that label, and no pod
is returned exactly when no pod of the list carries it. -/
theorem investigateTargetPodSituation_targetPod (migration : Migration) (podList : List Pod)
    (migrationStore : Store) (numOfPods : Nat) (targetPod : Option Pod)
    (huid : migration.ObjectMeta.UID ≠ "")
    (hok : investigateTargetPodSituation migration podList migrationStore =
      .ok (numOfPods, targetPod)) :
    targetPod = (podList.filter (carriesUID migration)).getLast? ∧
    (∀ pod, targetPod = some pod →
      pod ∈ podList ∧
        pod.ObjectMeta.label? MigrationUIDLabel = some migration.ObjectMeta.UID) ∧
    (targetPod = none ↔
      ∀ pod ∈ podList,
        pod.ObjectMeta.label? MigrationUIDLabel ≠ some migration.ObjectMeta.UID) := by
  have htarget : targetPod = (podList.filter (carriesUID migration)).getLast? := by
    have h := investigateLoop_target migration migrationStore podList 0 none _ _ hok
    have hfun : matchesUID migration = carriesUID migration :=
      funext (matchesUID_eq_carriesUID migration huid)
    rw [h, lastMatching, hfun]
    simp
  refine ⟨htarget, ?_, ?_⟩
  · intro pod hpod
    have hmem : pod ∈ podList.filter (carriesUID migration) :=
      List.mem_of_getLast?_eq_some (by rw [← htarget, hpod])
    obtain ⟨h1, h2⟩ := List.mem_filter.mp hmem
    exact ⟨h1, by simpa [carriesUID] using h2⟩
  · rw [htarget, List.getLast?_eq_none_iff, List.filter_eq_nil_iff]
    simp [carriesUID]

/-- C6 (witness): two pods carry the label `migration-uid=uid-1`; the later one
is the target pod. -/
theorem investigateTargetPodSituation_targetPod_witness :
    some (podWith "p2" (some (targetPodLabels "m1" "uid-1")) PodPhase.PodPending "") =
      ([podWith "p1" (some (targetPodLabels "m1" "uid-1")) PodPhase.PodRunning "nodeB",
        podWith "p0" none PodPhase.PodRunning "nodeA",
        podWith "p2" (some (targetPodLabels "m1" "uid-1")) PodPhase.PodPending ""].filter
          (carriesUID (migrationFor "m1" "uid-1" MigrationPhase.MigrationRunning ∅))).getLast? :=
  (investigateTargetPodSituation_targetPod
    (migrationFor "m1" "uid-1" MigrationPhase.MigrationRunning ∅)
    [podWith "p1" (some (targetPodLabels "m1" "uid-1")) PodPhase.PodRunning "nodeB",
      podWith "p0" none PodPhase.PodRunning "nodeA",
      podWith "p2" (some (targetPodLabels "m1" "uid-1")) PodPhase.PodPending ""]
    ((fixedServices [migrationFor "m1" "uid-1" MigrationPhase.MigrationRunning ∅]
      none [] none).store ())
    2 (some (podWith "p2" (some (targetPodLabels "m1" "uid-1")) PodPhase.PodPending ""))
    (by decide) rfl).1

section
variable {σ : Type}

/-- C7: for a cached Migration in phase Unknown whose VM exists in phase
Running, with selectors that do not conflict, a situation analysis that yields
no target pod and a pod count of zero, and no failing service call, `execute`
calls `FetchVM`, `GetRunningVMPods`, `CreateMigrationTargetPod` (once, with the
Migration and the VM carrying the merged selector) and `UpdateMigration`, in
this order and nothing else: neither `PutVm` nor `StartMigration`.  The
Migration handed to `UpdateMigration` has the metadata and the spec of the
cached one and `Status.Phase = MigrationRunning`. -/
theorem execute_unknown_creates_target_pod (S : Services σ) (key : String)
    (s s1 s2 s3 s4 : σ) (migration : Migration) (vm : VM) (podList : List Pod)
    (hstore : S.store s key = .ok (some migration))
    (hcopy : S.schemeCopy migration s = none)
    (hphase : migration.Status.Phase = MigrationPhase.MigrationUnknown)
    (hfetch : S.FetchVM migration.Spec.Selector.Name s = (.ok (some vm), s1))
    (hvm : vm.Status.Phase = VMPhase.Running)
    (hsel : ∀ k, ¬ ConflictingKey migration.Spec.NodeSelector vm.Spec.NodeSelector k)
    (hpods : S.GetRunningVMPods (mergeConstraints migration vm).2 s1 = (.ok podList, s2))
    (hsit : investigateTargetPodSituation migration podList (S.store s2) = .ok (0, none))
    (hcreate : S.CreateMigrationTargetPod migration (mergeConstraints migration vm).2 s2 =
      (none, s3))
    (hupdate :
      S.UpdateMigration
          ⟨migration.ObjectMeta, migration.Spec, ⟨MigrationPhase.MigrationRunning⟩⟩ s3 =
        (none, s4)) :
    execute S key s =
      ⟨none,
        [Call.FetchVM migration.Spec.Selector.Name,
          Call.GetRunningVMPods (mergeConstraints migration vm).2,
          Call.CreateMigrationTargetPod migration (mergeConstraints migration vm).2,
          Call.UpdateMigration
            ⟨migration.ObjectMeta, migration.Spec, ⟨MigrationPhase.MigrationRunning⟩⟩],
        s4,
        some ⟨migration.ObjectMeta, migration.Spec, ⟨MigrationPhase.MigrationRunning⟩⟩⟩ ∧
    (∀ m, Call.UpdateMigration m ∈ (execute S key s).calls →
      m.Status.Phase = MigrationPhase.MigrationRunning ∧
        m.ObjectMeta = migration.ObjectMeta ∧ m.Spec = migration.Spec) ∧
    (∀ v, Call.PutVm v ∉ (execute S key s).calls) ∧
    (∀ m v src tgt p, Call.StartMigration m v src tgt p ∉ (execute S key s).calls) := by
  have hmerge : (mergeConstraints migration vm).1 = none := by
    rw [mergeConstraints_of_nil migration vm ((conflicts_eq_nil_iff _ _).mpr hsel)]
  have hpair : mergeConstraints migration vm = (none, (mergeConstraints migration vm).2) :=
    Prod.ext hmerge rfl
  have hne : migration.Status.Phase ≠ MigrationPhase.MigrationRunning := by
    rw [hphase]; decide
  have hupdate1 :
      S.UpdateMigration (migration.withPhase MigrationPhase.MigrationRunning) s3 = (none, s4) :=
    hupdate
  have hexec : execute S key s =
      ⟨none,
        [Call.FetchVM migration.Spec.Selector.Name,
          Call.GetRunningVMPods (mergeConstraints migration vm).2,
          Call.CreateMigrationTargetPod migration (mergeConstraints migration vm).2,
          Call.UpdateMigration
            ⟨migration.ObjectMeta, migration.Spec, ⟨MigrationPhase.MigrationRunning⟩⟩],
        s4,
        some ⟨migration.ObjectMeta, migration.Spec, ⟨MigrationPhase.MigrationRunning⟩⟩⟩ := by
    show execute S key s =
      ⟨none,
        [Call.FetchVM migration.Spec.Selector.Name,
          Call.GetRunningVMPods (mergeConstraints migration vm).2,
          Call.CreateMigrationTargetPod migration (mergeConstraints migration vm).2,
          Call.UpdateMigration (migration.withPhase MigrationPhase.MigrationRunning)],
        s4, some (migration.withPhase MigrationPhase.MigrationRunning)⟩
    unfold execute
    simp only [hstore, hcopy, hfetch, hphase]
    unfold executeUnknown
    rw [hpair] at hpods hcreate ⊢
    simp only [hvm, hpods, hsit, hcreate, setMigrationPhase_of_ne S migration _ _ hne, hupdate1,
      Outcome.after]
    simp
  refine ⟨hexec, ?_, ?_, ?_⟩
  · intro m hm
    rw [hexec] at hm
    simp only [List.mem_cons, List.mem_singleton, List.not_mem_nil, or_false, false_or,
      reduceCtorEq, Call.UpdateMigration.injEq] at hm
    subst hm
    exact ⟨rfl, rfl, rfl⟩
  · intro v hv
    rw [hexec] at hv
    simp at hv
  · intro m v src tgt p hp
    rw [hexec] at hp
    simp at hp

/-- C8: for a cached Migration in phase Unknown whose VM exists in phase
Running, when the situation analysis is reached (the selectors merge and the
pods are listed) and yields no target pod and a pod count of at least one,
`execute` calls `FetchVM`, `GetRunningVMPods` and `UpdateMigration`, and nothing
else: no `CreateMigrationTargetPod`, `PutVm` or `StartMigration`.  The Migration
handed to `UpdateMigration` has the metadata and the spec of the cached one (no
other Migration is updated) and `Status.Phase = MigrationFailed`; `execute`
returns what `UpdateMigration` returns. -/
theorem execute_unknown_other_migration_in_progress (S : Services σ) (key : String)
    (s s1 s2 : σ) (migration : Migration) (vm : VM) (podList : List Pod) (numOfPods : Nat)
    (hstore : S.store s key = .ok (some migration))
    (hcopy : S.schemeCopy migration s = none)
    (hphase : migration.Status.Phase = MigrationPhase.MigrationUnknown)
    (hfetch : S.FetchVM migration.Spec.Selector.Name s = (.ok (some vm), s1))
    (hvm : vm.Status.Phase = VMPhase.Running)
    (hsel : ∀ k, ¬ ConflictingKey migration.Spec.NodeSelector vm.Spec.NodeSelector k)
    (hpods : S.GetRunningVMPods (mergeConstraints migration vm).2 s1 = (.ok podList, s2))
    (hsit : investigateTargetPodSituation migration podList (S.store s2) =
      .ok (numOfPods, none))
    (hnum : numOfPods ≥ 1) :
    execute S key s =
      ⟨(S.UpdateMigration
          ⟨migration.ObjectMeta, migration.Spec, ⟨MigrationPhase.MigrationFailed⟩⟩ s2).1,
        [Call.FetchVM migration.Spec.Selector.Name,
          Call.GetRunningVMPods (mergeConstraints migration vm).2,
          Call.UpdateMigration
            ⟨migration.ObjectMeta, migration.Spec, ⟨MigrationPhase.MigrationFailed⟩⟩],
        (S.UpdateMigration
          ⟨migration.ObjectMeta, migration.Spec, ⟨MigrationPhase.MigrationFailed⟩⟩ s2).2,
        some ⟨migration.ObjectMeta, migration.Spec, ⟨MigrationPhase.MigrationFailed⟩⟩⟩ ∧
    (∀ m, Call.UpdateMigration m ∈ (execute S key s).calls →
      m.Status.Phase = MigrationPhase.MigrationFailed ∧
        m.ObjectMeta = migration.ObjectMeta ∧ m.Spec = migration.Spec) ∧
    (∀ m v, Call.CreateMigrationTargetPod m v ∉ (execute S key s).calls) ∧
    (∀ v, Call.PutVm v ∉ (execute S key s).calls) ∧
    (∀ m v src tgt p, Call.StartMigration m v src tgt p ∉ (execute S key s).calls) := by
  have hmerge : (mergeConstraints migration vm).1 = none := by
    rw [mergeConstraints_of_nil migration vm ((conflicts_eq_nil_iff _ _).mpr hsel)]
  have hpair : mergeConstraints migration vm = (none, (mergeConstraints migration vm).2) :=
    Prod.ext hmerge rfl
  have hne : migration.Status.Phase ≠ MigrationPhase.MigrationFailed := by
    rw [hphase]; decide
  have hexec : execute S key s =
      ⟨(S.UpdateMigration
          ⟨migration.ObjectMeta, migration.Spec, ⟨MigrationPhase.MigrationFailed⟩⟩ s2).1,
        [Call.FetchVM migration.Spec.Selector.Name,
          Call.GetRunningVMPods (mergeConstraints migration vm).2,
          Call.UpdateMigration
            ⟨migration.ObjectMeta, migration.Spec, ⟨MigrationPhase.MigrationFailed⟩⟩],
        (S.UpdateMigration
          ⟨migration.ObjectMeta, migration.Spec, ⟨MigrationPhase.MigrationFailed⟩⟩ s2).2,
        some ⟨migration.ObjectMeta, migration.Spec, ⟨MigrationPhase.MigrationFailed⟩⟩⟩ := by
    show execute S key s =
      ⟨(S.UpdateMigration (migration.withPhase MigrationPhase.MigrationFailed) s2).1,
        [Call.FetchVM migration.Spec.Selector.Name,
          Call.GetRunningVMPods (mergeConstraints migration vm).2,
          Call.UpdateMigration (migration.withPhase MigrationPhase.MigrationFailed)],
        (S.UpdateMigration (migration.withPhase MigrationPhase.MigrationFailed) s2).2,
        some (migration.withPhase MigrationPhase.MigrationFailed)⟩
    unfold execute
    simp only [hstore, hcopy, hfetch, hphase]
    unfold executeUnknown
    rw [hpair] at hpods ⊢
    simp only [hvm, hpods, hsit, hnum, setMigrationFailed,
      setMigrationPhase_of_ne S migration _ _ hne, Outcome.after]
    simp
  refine ⟨hexec, ?_, ?_, ?_, ?_⟩
  · intro m hm
    rw [hexec] at hm
    simp only [List.mem_cons, List.mem_singleton, List.not_mem_nil, or_false, false_or,
      reduceCtorEq, Call.UpdateMigration.injEq] at hm
    subst hm
    exact ⟨rfl, rfl, rfl⟩
  · intro m v hv
    rw [hexec] at hv
    simp at hv
  · intro v hv
    rw [hexec] at hv
    simp at hv
  · intro m v src tgt p hp
    rw [hexec] at hp
    simp at hp

/-- C9 (amended): for a cached Migration M, when `FetchVM` reports that the VM
does not exist and M is not in phase Succeeded, or M is in phase Unknown and the
VM exists in a phase other than Running, `execute` leaves M in phase Failed: the
working copy has the metadata and the spec of the cached Migration and
`Status.Phase = MigrationFailed`.  Its service calls are `FetchVM` followed by a
single `UpdateMigration` of that Migration, and no `UpdateMigration` at all when
M was already in phase Failed: no pod listing, pod creation, VM update or job
start. -/
theorem execute_vm_absent_or_not_running (S : Services σ) (key : String) (s s1 : σ)
    (migration : Migration)
    (hstore : S.store s key = .ok (some migration))
    (hcopy : S.schemeCopy migration s = none)
    (hcase :
      (S.FetchVM migration.Spec.Selector.Name s = (.ok none, s1) ∧
        migration.Status.Phase ≠ MigrationPhase.MigrationSucceeded) ∨
      (∃ vm, S.FetchVM migration.Spec.Selector.Name s = (.ok (some vm), s1) ∧
        migration.Status.Phase = MigrationPhase.MigrationUnknown ∧
        vm.Status.Phase ≠ VMPhase.Running)) :
    (execute S key s).calls =
      Call.FetchVM migration.Spec.Selector.Name ::
        (if migration.Status.Phase = MigrationPhase.MigrationFailed then []
         else
          [Call.UpdateMigration
            ⟨migration.ObjectMeta, migration.Spec, ⟨MigrationPhase.MigrationFailed⟩⟩]) ∧
    (execute S key s).migration =
      some ⟨migration.ObjectMeta, migration.Spec, ⟨MigrationPhase.MigrationFailed⟩⟩ ∧
    (execute S key s).migration.map (fun m => m.Status.Phase) =
      some MigrationPhase.MigrationFailed ∧
    (execute S key s).err =
      (if migration.Status.Phase = MigrationPhase.MigrationFailed then none
       else
        (S.UpdateMigration
          ⟨migration.ObjectMeta, migration.Spec, ⟨MigrationPhase.MigrationFailed⟩⟩ s1).1) := by
  have hmain :
      (execute S key s).calls =
        Call.FetchVM migration.Spec.Selector.Name ::
          (if migration.Status.Phase = MigrationPhase.MigrationFailed then []
           else [Call.UpdateMigration (migration.withPhase MigrationPhase.MigrationFailed)]) ∧
      (execute S key s).migration = some (migration.withPhase MigrationPhase.MigrationFailed) ∧
      (execute S key s).err =
        (if migration.Status.Phase = MigrationPhase.MigrationFailed then none
         else (S.UpdateMigration (migration.withPhase MigrationPhase.MigrationFailed) s1).1) := by
    rcases hcase with ⟨hfetch, _⟩ | ⟨vm, hfetch, hphase, hvm⟩
    · unfold execute
      simp only [hstore, hcopy, hfetch, setMigrationFailed, Outcome.after,
        setMigrationPhase_calls, setMigrationPhase_migration, setMigrationPhase_err,
        Migration.withPhase]
      simp
    · unfold execute
      simp only [hstore, hcopy, hfetch, hphase]
      unfold executeUnknown
      rw [if_pos hvm]
      simp only [setMigrationFailed, Outcome.after,
        setMigrationPhase_calls, setMigrationPhase_migration, setMigrationPhase_err,
        Migration.withPhase, hphase]
      simp
  obtain ⟨h1, h2, h3⟩ := hmain
  refine ⟨h1, h2, ?_, h3⟩
  rw [h2]
  rfl

/-- C10: for a cached Migration in phase Unknown whose VM exists in phase
Running, when some key is bound by both node selectors to different values,
`execute` returns the conflict error after `FetchVM` as its only service call:
the Migration stays in phase Unknown, pods are not listed and no mutating call
is made. -/
theorem execute_unknown_selector_conflict (S : Services σ) (key : String) (s s1 : σ)
    (migration : Migration) (vm : VM)
    (hstore : S.store s key = .ok (some migration))
    (hcopy : S.schemeCopy migration s = none)
    (hphase : migration.Status.Phase = MigrationPhase.MigrationUnknown)
    (hfetch : S.FetchVM migration.Spec.Selector.Name s = (.ok (some vm), s1))
    (hvm : vm.Status.Phase = VMPhase.Running)
    (hconflict : ∃ k, ConflictingKey migration.Spec.NodeSelector vm.Spec.NodeSelector k) :
    (∃ conflicts, conflicts ≠ [] ∧
      (∀ k, k ∈ conflicts ↔
        ConflictingKey migration.Spec.NodeSelector vm.Spec.NodeSelector k) ∧
      execute S key s =
        ⟨some (Err.conflictingNodeSelectors conflicts),
          [Call.FetchVM migration.Spec.Selector.Name], s1, some migration⟩) ∧
    (execute S key s).err ≠ none ∧
    (execute S key s).mutatingCalls = [] ∧
    (∀ v, Call.GetRunningVMPods v ∉ (execute S key s).calls) ∧
    (execute S key s).migration.map (fun m => m.Status.Phase) =
      some MigrationPhase.MigrationUnknown := by
  have hnil : (mergeLoops migration.Spec.NodeSelector vm.Spec.NodeSelector).2 ≠ [] := by
    intro h
    obtain ⟨k, hk⟩ := hconflict
    exact (conflicts_eq_nil_iff _ _).mp h k hk
  have hexec : execute S key s =
      ⟨some (Err.conflictingNodeSelectors
          (mergeLoops migration.Spec.NodeSelector vm.Spec.NodeSelector).2),
        [Call.FetchVM migration.Spec.Selector.Name], s1, some migration⟩ := by
    unfold execute
    simp only [hstore, hcopy, hfetch, hphase]
    unfold executeUnknown
    simp [hvm, mergeConstraints_of_ne_nil migration vm hnil, Outcome.after]
  refine ⟨⟨_, hnil, mem_mergeLoops_conflicts _ _, hexec⟩, ?_, ?_, ?_, ?_⟩
  · rw [hexec]; simp
  · rw [hexec]; simp [Outcome.mutatingCalls, Call.isMutating]
  · intro v; rw [hexec]; simp
  · rw [hexec]; simp [hphase]

end

/-- C7 (witness): the first reconciliation of the happy path: the Migration
`m1` is new, the VM runs and has no pod of a migration; the Migration is
persisted in phase Running. -/
theorem execute_unknown_creates_target_pod_witness :
    execute
        (fixedServices [migrationFor "m1" "uid-1" MigrationPhase.MigrationUnknown selectorZoneEu]
          (some (vmWith VMPhase.Running selectorDiskSsd "")) [] none)
        "default/m1" () =
      ⟨none,
        [Call.FetchVM "vm1",
          Call.GetRunningVMPods
            (mergeConstraints
              (migrationFor "m1" "uid-1" MigrationPhase.MigrationUnknown selectorZoneEu)
              (vmWith VMPhase.Running selectorDiskSsd "")).2,
          Call.CreateMigrationTargetPod
            (migrationFor "m1" "uid-1" MigrationPhase.MigrationUnknown selectorZoneEu)
            (mergeConstraints
              (migrationFor "m1" "uid-1" MigrationPhase.MigrationUnknown selectorZoneEu)
              (vmWith VMPhase.Running selectorDiskSsd "")).2,
          Call.UpdateMigration
            (migrationFor "m1" "uid-1" MigrationPhase.MigrationRunning selectorZoneEu)],
        (),
        some (migrationFor "m1" "uid-1" MigrationPhase.MigrationRunning selectorZoneEu)⟩ :=
  (execute_unknown_creates_target_pod
    (fixedServices [migrationFor "m1" "uid-1" MigrationPhase.MigrationUnknown selectorZoneEu]
      (some (vmWith VMPhase.Running selectorDiskSsd "")) [] none)
    "default/m1" () () () () ()
    (migrationFor "m1" "uid-1" MigrationPhase.MigrationUnknown selectorZoneEu)
    (vmWith VMPhase.Running selectorDiskSsd "") []
    rfl rfl rfl rfl rfl ((conflicts_eq_nil_iff _ _).mp rfl) rfl rfl rfl rfl).1

/-- C8 (witness): the Migration `m2` is new while the pod of the Migration `m1`
of the same VM is still pending; `m2` is persisted in phase Failed. -/
theorem execute_unknown_other_migration_in_progress_witness :
    (execute
        (fixedServices [migrationFor "m2" "uid-2" MigrationPhase.MigrationUnknown ∅]
          (some (vmWith VMPhase.Running ∅ ""))
          [podWith "p1" (some (targetPodLabels "m1" "uid-1")) PodPhase.PodPending ""] none)
        "default/m2" ()).calls =
      [Call.FetchVM "vm1",
        Call.GetRunningVMPods
          (mergeConstraints (migrationFor "m2" "uid-2" MigrationPhase.MigrationUnknown ∅)
            (vmWith VMPhase.Running ∅ "")).2,
        Call.UpdateMigration (migrationFor "m2" "uid-2" MigrationPhase.MigrationFailed ∅)] :=
  congrArg Outcome.calls
    (execute_unknown_other_migration_in_progress
      (fixedServices [migrationFor "m2" "uid-2" MigrationPhase.MigrationUnknown ∅]
        (some (vmWith VMPhase.Running ∅ ""))
        [podWith "p1" (some (targetPodLabels "m1" "uid-1")) PodPhase.PodPending ""] none)
      "default/m2" () () ()
      (migrationFor "m2" "uid-2" MigrationPhase.MigrationUnknown ∅)
      (vmWith VMPhase.Running ∅ "")
      [podWith "p1" (some (targetPodLabels "m1" "uid-1")) PodPhase.PodPending ""] 1
      rfl rfl rfl rfl rfl ((conflicts_eq_nil_iff _ _).mp rfl) rfl rfl (by decide)).1

/-- C9 (counterexample): for a cached Migration already in phase Failed whose VM
does not exist, `execute` calls `FetchVM` and nothing else: there is no
`UpdateMigration` call. -/
theorem execute_failed_vm_absent_no_update :
    execute
        (fixedServices [migrationFor "m1" "uid-1" MigrationPhase.MigrationFailed ∅]
          none [] none)
        "default/m1" () =
      ⟨none, [Call.FetchVM "vm1"], (),
        some (migrationFor "m1" "uid-1" MigrationPhase.MigrationFailed ∅)⟩ :=
  rfl

/-- C9 (witness): the VM of the new Migration `m1` does not exist; `m1` is
persisted in phase Failed. -/
theorem execute_vm_absent_or_not_running_witness :
    (execute
        (fixedServices [migrationFor "m1" "uid-1" MigrationPhase.MigrationUnknown ∅]
          none [] none)
        "default/m1" ()).calls =
      [Call.FetchVM "vm1",
        Call.UpdateMigration (migrationFor "m1" "uid-1" MigrationPhase.MigrationFailed ∅)] :=
  (execute_vm_absent_or_not_running
    (fixedServices [migrationFor "m1" "uid-1" MigrationPhase.MigrationUnknown ∅] none [] none)
    "default/m1" () ()
    (migrationFor "m1" "uid-1" MigrationPhase.MigrationUnknown ∅)
    rfl rfl (Or.inl ⟨rfl, by decide⟩)).1

/-- C10 (witness): the Migration asks for `zone=eu`, the VM for `zone=us`. -/
theorem execute_unknown_selector_conflict_witness :
    (execute
        (fixedServices [migrationFor "m1" "uid-1" MigrationPhase.MigrationUnknown selectorZoneEu]
          (some (vmWith VMPhase.Running selectorZoneUs "")) [] none)
        "default/m1" ()).mutatingCalls = [] :=
  (execute_unknown_selector_conflict
    (fixedServices [migrationFor "m1" "uid-1" MigrationPhase.MigrationUnknown selectorZoneEu]
      (some (vmWith VMPhase.Running selectorZoneUs "")) [] none)
    "default/m1" () ()
    (migrationFor "m1" "uid-1" MigrationPhase.MigrationUnknown selectorZoneEu)
    (vmWith VMPhase.Running selectorZoneUs "")
    rfl rfl rfl rfl rfl ⟨"zone", "eu", "us", rfl, rfl, by decide⟩).2.2.1

theorem vmBeforeJob_objectMeta (vm : VM) (targetPod : Pod) :
    (vmBeforeJob vm targetPod).ObjectMeta = vm.ObjectMeta := by
  unfold vmBeforeJob
  split <;> rfl

theorem vmBeforeJob_spec (vm : VM) (targetPod : Pod) :
    (vmBeforeJob vm targetPod).Spec = vm.Spec := by
  unfold vmBeforeJob
  split <;> rfl

theorem vmBeforeJob_nodeName (vm : VM) (targetPod : Pod) :
    (vmBeforeJob vm targetPod).Status.NodeName = vm.Status.NodeName := by
  unfold vmBeforeJob
  split <;> rfl

theorem vmBeforeJob_migrationNodeName (vm : VM) (targetPod : Pod) :
    (vmBeforeJob vm targetPod).Status.MigrationNodeName = targetPod.Spec.NodeName := by
  unfold vmBeforeJob
  split
  · assumption
  · rfl

section
variable {σ : Type}

/-- The Running case up to the job lookup: with a target pod in phase Running,
and a successful `PutVm` when one is due, `execute` is `executeJob` after the
calls `callsBeforeJob`. -/
theorem execute_running_to_job (S : Services σ) (key : String) (s s1 s2 s3 : σ)
    (migration : Migration) (vm : VM) (podList : List Pod) (numOfPods : Nat) (targetPod : Pod)
    (hstore : S.store s key = .ok (some migration))
    (hcopy : S.schemeCopy migration s = none)
    (hphase : migration.Status.Phase = MigrationPhase.MigrationRunning)
    (hfetch : S.FetchVM migration.Spec.Selector.Name s = (.ok (some vm), s1))
    (hpods : S.GetRunningVMPods vm s1 = (.ok podList, s2))
    (hsit : investigateTargetPodSituation migration podList (S.store s2) =
      .ok (numOfPods, some targetPod))
    (hpod : targetPod.Status.Phase = PodPhase.PodRunning)
    (hstep : (vm.Status.MigrationNodeName = targetPod.Spec.NodeName ∧ s3 = s2) ∨
      (vm.Status.MigrationNodeName ≠ targetPod.Spec.NodeName ∧
        S.PutVm (vm.migratingTo targetPod.Spec.NodeName) s2 = (none, s3))) :
    execute S key s =
      Outcome.after (callsBeforeJob migration vm targetPod)
        (executeJob S migration (vmBeforeJob vm targetPod) targetPod s3) := by
  unfold execute
  simp only [hstore, hcopy, hfetch, hphase]
  unfold executeRunning
  simp only [hpods, hsit, hpod]
  rcases hstep with ⟨heq, rfl⟩ | ⟨hne, hput⟩
  · simp [heq, callsBeforeJob, vmBeforeJob, Outcome.after]
  · have hput1 := hput
    unfold VM.migratingTo at hput1
    simp [hne, callsBeforeJob, vmBeforeJob, Outcome.after, hput1, VM.migratingTo]

end
section
variable {σ : Type}

/-- C11: for a cached Migration in phase Running whose VM exists, when the
situation analysis yields a target pod that is absent or not in phase Running,
`execute` calls neither `PutVm` nor `GetMigrationJob` nor `StartMigration`.
When the target pod is absent or in phase Succeeded or Failed, its calls are
`FetchVM`, `GetRunningVMPods` and `UpdateMigration`, where the Migration handed
to `UpdateMigration` has the metadata and the spec of the cached one and
`Status.Phase = MigrationFailed`; for any other phase (Pending, Unknown) they
are `FetchVM` and `GetRunningVMPods` only and nothing is mutated. -/
theorem execute_running_target_pod_not_running (S : Services σ) (key : String)
    (s s1 s2 : σ) (migration : Migration) (vm : VM) (podList : List Pod) (numOfPods : Nat)
    (targetPod : Option Pod)
    (hstore : S.store s key = .ok (some migration))
    (hcopy : S.schemeCopy migration s = none)
    (hphase : migration.Status.Phase = MigrationPhase.MigrationRunning)
    (hfetch : S.FetchVM migration.Spec.Selector.Name s = (.ok (some vm), s1))
    (hpods : S.GetRunningVMPods vm s1 = (.ok podList, s2))
    (hsit : investigateTargetPodSituation migration podList (S.store s2) =
      .ok (numOfPods, targetPod))
    (hnot : ∀ pod, targetPod = some pod → pod.Status.Phase ≠ PodPhase.PodRunning) :
    ((targetPod = none ∨ ∃ pod, targetPod = some pod ∧
        (pod.Status.Phase = PodPhase.PodSucceeded ∨ pod.Status.Phase = PodPhase.PodFailed)) →
      execute S key s =
        ⟨(S.UpdateMigration ⟨migration.ObjectMeta, migration.Spec, ⟨MigrationPhase.MigrationFailed⟩⟩ s2).1,
          [Call.FetchVM migration.Spec.Selector.Name, Call.GetRunningVMPods vm,
            Call.UpdateMigration ⟨migration.ObjectMeta, migration.Spec, ⟨MigrationPhase.MigrationFailed⟩⟩],
          (S.UpdateMigration ⟨migration.ObjectMeta, migration.Spec, ⟨MigrationPhase.MigrationFailed⟩⟩ s2).2,
          some ⟨migration.ObjectMeta, migration.Spec, ⟨MigrationPhase.MigrationFailed⟩⟩⟩) ∧
    ((∃ pod, targetPod = some pod ∧
        (pod.Status.Phase = PodPhase.PodPending ∨ pod.Status.Phase = PodPhase.PodUnknown)) →
      execute S key s =
        ⟨none, [Call.FetchVM migration.Spec.Selector.Name, Call.GetRunningVMPods vm], s2,
          some migration⟩) ∧
    (∀ c ∈ (execute S key s).calls,
      c = Call.FetchVM migration.Spec.Selector.Name ∨ c = Call.GetRunningVMPods vm ∨
        c = Call.UpdateMigration ⟨migration.ObjectMeta, migration.Spec, ⟨MigrationPhase.MigrationFailed⟩⟩) ∧
    (∀ m, Call.UpdateMigration m ∈ (execute S key s).calls →
      m.Status.Phase = MigrationPhase.MigrationFailed ∧
        m.ObjectMeta = migration.ObjectMeta ∧ m.Spec = migration.Spec) := by
  have hmain :
      ((targetPod = none ∨ ∃ pod, targetPod = some pod ∧
          (pod.Status.Phase = PodPhase.PodSucceeded ∨ pod.Status.Phase = PodPhase.PodFailed)) →
        execute S key s =
          ⟨(S.UpdateMigration (migration.withPhase MigrationPhase.MigrationFailed) s2).1,
            [Call.FetchVM migration.Spec.Selector.Name, Call.GetRunningVMPods vm,
              Call.UpdateMigration (migration.withPhase MigrationPhase.MigrationFailed)],
            (S.UpdateMigration (migration.withPhase MigrationPhase.MigrationFailed) s2).2,
            some (migration.withPhase MigrationPhase.MigrationFailed)⟩) ∧
      ((∃ pod, targetPod = some pod ∧
          (pod.Status.Phase = PodPhase.PodPending ∨ pod.Status.Phase = PodPhase.PodUnknown)) →
        execute S key s =
          ⟨none, [Call.FetchVM migration.Spec.Selector.Name, Call.GetRunningVMPods vm], s2,
            some migration⟩) ∧
      (∀ c ∈ (execute S key s).calls,
        c = Call.FetchVM migration.Spec.Selector.Name ∨ c = Call.GetRunningVMPods vm ∨
          c = Call.UpdateMigration (migration.withPhase MigrationPhase.MigrationFailed)) := by
    have hne : migration.Status.Phase ≠ MigrationPhase.MigrationFailed := by
      rw [hphase]; decide
    have hfailed := setMigrationPhase_of_ne S migration MigrationPhase.MigrationFailed s2 hne
    have hexec : execute S key s =
        Outcome.after [Call.FetchVM migration.Spec.Selector.Name, Call.GetRunningVMPods vm]
          (match targetPod with
            | none => setMigrationFailed S migration s2
            | some pod =>
              match pod.Status.Phase with
              | PodPhase.PodSucceeded => setMigrationFailed S migration s2
              | PodPhase.PodFailed => setMigrationFailed S migration s2
              | _ => ⟨none, [], s2, some migration⟩) := by
      unfold execute
      simp only [hstore, hcopy, hfetch, hphase]
      unfold executeRunning
      simp only [hpods, hsit]
      cases targetPod with
      | none => simp [Outcome.after]
      | some pod =>
        have hp := hnot pod rfl
        cases hph : pod.Status.Phase <;> simp_all [Outcome.after]
    rw [hexec]
    refine ⟨?_, ?_, ?_⟩
    · rintro (rfl | ⟨pod, rfl, hp | hp⟩)
      · simp [setMigrationFailed, hfailed, Outcome.after]
      · simp [hp, setMigrationFailed, hfailed, Outcome.after]
      · simp [hp, setMigrationFailed, hfailed, Outcome.after]
    · rintro ⟨pod, rfl, hp | hp⟩ <;> simp [hp, Outcome.after]
    · intro c hc
      cases targetPod with
      | none =>
        simp [setMigrationFailed, hfailed, Outcome.after] at hc
        tauto
      | some pod =>
        cases hph : pod.Status.Phase <;>
          simp [hph, setMigrationFailed, hfailed, Outcome.after] at hc <;> tauto
  obtain ⟨h1, h2, h3⟩ := hmain
  refine ⟨h1, h2, h3, ?_⟩
  intro m hm
  rcases h3 _ hm with h | h | h
  · cases h
  · cases h
  · cases h
    exact ⟨rfl, rfl, rfl⟩

/-- C12: for a cached Migration in phase Running with a target pod in phase
Running and a migration job in phase Succeeded, when no service call fails,
`execute` persists, after the calls up to the job lookup, the VM committed on
the node of the target pod and then the Migration, with the metadata and the
spec of the cached one and `Status.Phase = MigrationSucceeded`.  The committed
VM has `Status.NodeName` equal to the node of the target pod, an empty
`Status.MigrationNodeName`, phase Running, the `nodeName` label equal to that
node and every other label as the fetched VM has it, also when the fetched VM
has no labels at all. -/
theorem execute_running_job_succeeded (S : Services σ) (key : String)
    (s s1 s2 s3 s4 s5 s6 : σ) (migration : Migration) (vm : VM) (podList : List Pod)
    (numOfPods : Nat) (targetPod job : Pod)
    (hstore : S.store s key = .ok (some migration))
    (hcopy : S.schemeCopy migration s = none)
    (hphase : migration.Status.Phase = MigrationPhase.MigrationRunning)
    (hfetch : S.FetchVM migration.Spec.Selector.Name s = (.ok (some vm), s1))
    (hpods : S.GetRunningVMPods vm s1 = (.ok podList, s2))
    (hsit : investigateTargetPodSituation migration podList (S.store s2) =
      .ok (numOfPods, some targetPod))
    (hpod : targetPod.Status.Phase = PodPhase.PodRunning)
    (hstep : (vm.Status.MigrationNodeName = targetPod.Spec.NodeName ∧ s3 = s2) ∨
      (vm.Status.MigrationNodeName ≠ targetPod.Spec.NodeName ∧
        S.PutVm (vm.migratingTo targetPod.Spec.NodeName) s2 = (none, s3)))
    (hjob : S.GetMigrationJob migration s3 = (.ok (some job), s4))
    (hjobphase : job.Status.Phase = PodPhase.PodSucceeded)
    (hput : S.PutVm (vm.committedOn targetPod.Spec.NodeName) s4 = (none, s5))
    (hupdate : S.UpdateMigration ⟨migration.ObjectMeta, migration.Spec, ⟨MigrationPhase.MigrationSucceeded⟩⟩ s5 = (none, s6)) :
    execute S key s =
      ⟨none,
        callsBeforeJob migration vm targetPod ++
          [Call.GetMigrationJob migration,
            Call.PutVm (vm.committedOn targetPod.Spec.NodeName),
            Call.UpdateMigration ⟨migration.ObjectMeta, migration.Spec, ⟨MigrationPhase.MigrationSucceeded⟩⟩],
        s6, some ⟨migration.ObjectMeta, migration.Spec, ⟨MigrationPhase.MigrationSucceeded⟩⟩⟩ ∧
    (∀ m, Call.UpdateMigration m ∈ (execute S key s).calls →
      m.Status.Phase = MigrationPhase.MigrationSucceeded ∧
        m.ObjectMeta = migration.ObjectMeta ∧ m.Spec = migration.Spec) ∧
    (vm.committedOn targetPod.Spec.NodeName).Status =
      ⟨VMPhase.Running, targetPod.Spec.NodeName, ""⟩ ∧
    (vm.committedOn targetPod.Spec.NodeName).ObjectMeta.label? NodeNameLabel =
      some targetPod.Spec.NodeName ∧
    (∀ k, k ≠ NodeNameLabel →
      (vm.committedOn targetPod.Spec.NodeName).ObjectMeta.label? k =
        vm.ObjectMeta.label? k) ∧
    (vm.committedOn targetPod.Spec.NodeName).Spec = vm.Spec := by
  have hne : migration.Status.Phase ≠ MigrationPhase.MigrationSucceeded := by
    rw [hphase]; decide
  have hvm : (vmBeforeJob vm targetPod).committedOn targetPod.Spec.NodeName =
      vm.committedOn targetPod.Spec.NodeName := by
    unfold vmBeforeJob
    split <;> rfl
  have hupdate1 :
      S.UpdateMigration (migration.withPhase MigrationPhase.MigrationSucceeded) s5 =
        (none, s6) := hupdate
  have hexec : execute S key s =
      ⟨none,
        callsBeforeJob migration vm targetPod ++
          [Call.GetMigrationJob migration,
            Call.PutVm (vm.committedOn targetPod.Spec.NodeName),
            Call.UpdateMigration ⟨migration.ObjectMeta, migration.Spec, ⟨MigrationPhase.MigrationSucceeded⟩⟩],
        s6, some ⟨migration.ObjectMeta, migration.Spec, ⟨MigrationPhase.MigrationSucceeded⟩⟩⟩ := by
    show execute S key s =
      ⟨none,
        callsBeforeJob migration vm targetPod ++
          [Call.GetMigrationJob migration,
            Call.PutVm (vm.committedOn targetPod.Spec.NodeName),
            Call.UpdateMigration (migration.withPhase MigrationPhase.MigrationSucceeded)],
        s6, some (migration.withPhase MigrationPhase.MigrationSucceeded)⟩
    rw [execute_running_to_job S key s s1 s2 s3 migration vm podList numOfPods targetPod
      hstore hcopy hphase hfetch hpods hsit hpod hstep]
    unfold executeJob
    simp only [hjob, hjobphase]
    have hput1 := hput
    rw [← hvm] at hput1
    unfold VM.committedOn at hput1
    simp only [hput1, setMigrationPhase_of_ne S migration _ _ hne, hupdate1, Outcome.after]
    simp [VM.committedOn, vmBeforeJob_objectMeta, vmBeforeJob_spec]
  refine ⟨hexec, ?_, rfl, ?_, ?_, rfl⟩
  · intro m hm
    rw [hexec] at hm
    unfold callsBeforeJob at hm
    split at hm <;>
      simp only [List.mem_append, List.mem_cons, List.mem_singleton, List.not_mem_nil,
        or_false, false_or, reduceCtorEq, Call.UpdateMigration.injEq] at hm <;>
      (subst hm; exact ⟨rfl, rfl, rfl⟩)
  · simp [VM.committedOn, ObjectMeta.label?]
  · intro k hk
    cases hl : vm.ObjectMeta.Labels with
    | none =>
      simp only [VM.committedOn, ObjectMeta.label?, hl, Option.getD]
      rw [AList.lookup_insert_ne hk]
      rfl
    | some labels =>
      simp only [VM.committedOn, ObjectMeta.label?, hl, Option.getD]
      rw [AList.lookup_insert_ne hk]

/-- C13: for a cached Migration in phase Running with a target pod in phase
Running and a migration job in phase Failed, when no call up to the job lookup
fails, `execute` persists the VM rolled back: phase Running, an empty
`Status.MigrationNodeName` and the `Status.NodeName` of the fetched VM.  When
this `PutVm` fails its error is returned and `UpdateMigration` is not called;
otherwise the Migration is persisted next, with the metadata and the spec of the
cached one and `Status.Phase = MigrationFailed`. -/
theorem execute_running_job_failed (S : Services σ) (key : String)
    (s s1 s2 s3 s4 : σ) (migration : Migration) (vm : VM) (podList : List Pod)
    (numOfPods : Nat) (targetPod job : Pod)
    (hstore : S.store s key = .ok (some migration))
    (hcopy : S.schemeCopy migration s = none)
    (hphase : migration.Status.Phase = MigrationPhase.MigrationRunning)
    (hfetch : S.FetchVM migration.Spec.Selector.Name s = (.ok (some vm), s1))
    (hpods : S.GetRunningVMPods vm s1 = (.ok podList, s2))
    (hsit : investigateTargetPodSituation migration podList (S.store s2) =
      .ok (numOfPods, some targetPod))
    (hpod : targetPod.Status.Phase = PodPhase.PodRunning)
    (hstep : (vm.Status.MigrationNodeName = targetPod.Spec.NodeName ∧ s3 = s2) ∨
      (vm.Status.MigrationNodeName ≠ targetPod.Spec.NodeName ∧
        S.PutVm (vm.migratingTo targetPod.Spec.NodeName) s2 = (none, s3)))
    (hjob : S.GetMigrationJob migration s3 = (.ok (some job), s4))
    (hjobphase : job.Status.Phase = PodPhase.PodFailed) :
    (∀ err s5, S.PutVm vm.rolledBack s4 = (some err, s5) →
      execute S key s =
        ⟨some err,
          callsBeforeJob migration vm targetPod ++
            [Call.GetMigrationJob migration, Call.PutVm vm.rolledBack],
          s5, some migration⟩) ∧
    (∀ s5, S.PutVm vm.rolledBack s4 = (none, s5) →
      execute S key s =
        ⟨(S.UpdateMigration ⟨migration.ObjectMeta, migration.Spec, ⟨MigrationPhase.MigrationFailed⟩⟩ s5).1,
          callsBeforeJob migration vm targetPod ++
            [Call.GetMigrationJob migration, Call.PutVm vm.rolledBack,
              Call.UpdateMigration ⟨migration.ObjectMeta, migration.Spec, ⟨MigrationPhase.MigrationFailed⟩⟩],
          (S.UpdateMigration ⟨migration.ObjectMeta, migration.Spec, ⟨MigrationPhase.MigrationFailed⟩⟩ s5).2,
          some ⟨migration.ObjectMeta, migration.Spec, ⟨MigrationPhase.MigrationFailed⟩⟩⟩) ∧
    (∀ m, Call.UpdateMigration m ∈ (execute S key s).calls →
      m.Status.Phase = MigrationPhase.MigrationFailed ∧
        m.ObjectMeta = migration.ObjectMeta ∧ m.Spec = migration.Spec) ∧
    vm.rolledBack.Status = ⟨VMPhase.Running, vm.Status.NodeName, ""⟩ ∧
    vm.rolledBack.Spec = vm.Spec ∧ vm.rolledBack.ObjectMeta = vm.ObjectMeta := by
  have hne : migration.Status.Phase ≠ MigrationPhase.MigrationFailed := by
    rw [hphase]; decide
  have hvm : (vmBeforeJob vm targetPod).rolledBack = vm.rolledBack := by
    unfold vmBeforeJob
    split <;> rfl
  have hexec := execute_running_to_job S key s s1 s2 s3 migration vm podList numOfPods
    targetPod hstore hcopy hphase hfetch hpods hsit hpod hstep
  have hok : ∀ s5, S.PutVm vm.rolledBack s4 = (none, s5) →
      execute S key s =
        ⟨(S.UpdateMigration ⟨migration.ObjectMeta, migration.Spec, ⟨MigrationPhase.MigrationFailed⟩⟩ s5).1,
          callsBeforeJob migration vm targetPod ++
            [Call.GetMigrationJob migration, Call.PutVm vm.rolledBack,
              Call.UpdateMigration ⟨migration.ObjectMeta, migration.Spec, ⟨MigrationPhase.MigrationFailed⟩⟩],
          (S.UpdateMigration ⟨migration.ObjectMeta, migration.Spec, ⟨MigrationPhase.MigrationFailed⟩⟩ s5).2,
          some ⟨migration.ObjectMeta, migration.Spec, ⟨MigrationPhase.MigrationFailed⟩⟩⟩ := by
    intro s5 hput
    show execute S key s =
      ⟨(S.UpdateMigration (migration.withPhase MigrationPhase.MigrationFailed) s5).1,
        callsBeforeJob migration vm targetPod ++
          [Call.GetMigrationJob migration, Call.PutVm vm.rolledBack,
            Call.UpdateMigration (migration.withPhase MigrationPhase.MigrationFailed)],
        (S.UpdateMigration (migration.withPhase MigrationPhase.MigrationFailed) s5).2,
        some (migration.withPhase MigrationPhase.MigrationFailed)⟩
    rw [hexec]
    unfold executeJob
    simp only [hjob, hjobphase]
    have hput1 := hput
    rw [← hvm] at hput1
    unfold VM.rolledBack at hput1
    simp only [hput1, setMigrationFailed, setMigrationPhase_of_ne S migration _ _ hne,
      Outcome.after]
    simp [VM.rolledBack, vmBeforeJob_objectMeta, vmBeforeJob_spec, vmBeforeJob_nodeName]
  have herr : ∀ err s5, S.PutVm vm.rolledBack s4 = (some err, s5) →
      execute S key s =
        ⟨some err,
          callsBeforeJob migration vm targetPod ++
            [Call.GetMigrationJob migration, Call.PutVm vm.rolledBack],
          s5, some migration⟩ := by
    intro err s5 hput
    rw [hexec]
    unfold executeJob
    simp only [hjob, hjobphase]
    have hput1 := hput
    rw [← hvm] at hput1
    unfold VM.rolledBack at hput1
    simp only [hput1, Outcome.after]
    simp [VM.rolledBack, vmBeforeJob_objectMeta, vmBeforeJob_spec, vmBeforeJob_nodeName]
  refine ⟨herr, hok, ?_, rfl, rfl, rfl⟩
  intro m hm
  rcases hput : S.PutVm vm.rolledBack s4 with ⟨_ | err, s5⟩
  · rw [hok s5 hput] at hm
    unfold callsBeforeJob at hm
    split at hm <;>
      simp only [List.mem_append, List.mem_cons, List.mem_singleton, List.not_mem_nil,
        or_false, false_or, reduceCtorEq, Call.UpdateMigration.injEq] at hm <;>
      (subst hm; exact ⟨rfl, rfl, rfl⟩)
  · rw [herr err s5 hput] at hm
    unfold callsBeforeJob at hm
    split at hm <;>
      simp only [List.mem_append, List.mem_cons, List.mem_singleton, List.not_mem_nil,
        or_false, false_or, reduceCtorEq] at hm

end
section
variable {σ : Type}

theorem calls_after (pre : List Call) (o : Outcome σ) :
    (Outcome.after pre o).calls = pre ++ o.calls := rfl

theorem putVm_not_mem_setMigrationPhase (S : Services σ) (migration : Migration)
    (phase : MigrationPhase) (s : σ) (v : VM) :
    Call.PutVm v ∉ (setMigrationPhase S migration phase s).calls := by
  rw [setMigrationPhase_calls]
  split <;> simp

theorem putVm_mem_executeJob (S : Services σ) (migration : Migration) (vm : VM)
    (targetPod : Pod) (s : σ) (v : VM)
    (h : Call.PutVm v ∈ (executeJob S migration vm targetPod s).calls) :
    v = vm.rolledBack ∨ v = vm.committedOn targetPod.Spec.NodeName := by
  unfold executeJob at h
  repeat' first
    | split at h
    | simp only [calls_after, setMigrationFailed, List.mem_append, List.mem_cons,
        List.mem_singleton, List.not_mem_nil, putVm_not_mem_setMigrationPhase, or_false,
        false_or, reduceCtorEq, Call.PutVm.injEq] at h
  all_goals first
    | exact Or.inl h
    | exact Or.inr h

theorem putVm_not_mem_executeUnknown (S : Services σ) (migration : Migration) (vm : VM)
    (s : σ) (v : VM) :
    Call.PutVm v ∉ (executeUnknown S migration vm s).calls := by
  intro h
  unfold executeUnknown at h
  repeat' first
    | split at h
    | simp only [calls_after, setMigrationFailed, List.mem_append, List.mem_cons,
        List.mem_singleton, List.not_mem_nil, putVm_not_mem_setMigrationPhase, or_false,
        false_or, reduceCtorEq, Call.PutVm.injEq] at h

end
section
variable {σ : Type}

theorem rolledBack_vmBeforeJob (vm : VM) (targetPod : Pod) :
    (vmBeforeJob vm targetPod).rolledBack = vm.rolledBack := by
  unfold vmBeforeJob
  split <;> rfl

theorem committedOn_vmBeforeJob (vm : VM) (targetPod : Pod) (nodeName : String) :
    (vmBeforeJob vm targetPod).committedOn nodeName = vm.committedOn nodeName := by
  unfold vmBeforeJob
  split <;> rfl

theorem putVm_mem_executeRunning (S : Services σ) (migration : Migration) (vm : VM)
    (s : σ) (v : VM) (h : Call.PutVm v ∈ (executeRunning S migration vm s).calls) :
    ∃ podList s2 numOfPods targetPod,
      S.GetRunningVMPods vm s = (.ok podList, s2) ∧
      investigateTargetPodSituation migration podList (S.store s2) =
        .ok (numOfPods, some targetPod) ∧
      targetPod.Status.Phase = PodPhase.PodRunning ∧
      ((v = vm.migratingTo targetPod.Spec.NodeName ∧
          vm.Status.MigrationNodeName ≠ targetPod.Spec.NodeName) ∨
        v = vm.rolledBack ∨ v = vm.committedOn targetPod.Spec.NodeName) := by
  unfold executeRunning at h
  split at h
  · simp at h
  · next podList s2 hpods =>
    rw [calls_after] at h
    split at h
    · simp at h
    · simp [setMigrationFailed, putVm_not_mem_setMigrationPhase] at h
    · next numOfPods targetPod hsit =>
      split at h
      · next hpod =>
        refine ⟨podList, s2, numOfPods, targetPod, hpods, hsit, hpod, ?_⟩
        split at h
        · next hne =>
          dsimp only at h
          split at h
          · simp at h
            exact Or.inl ⟨h, hne⟩
          · simp only [calls_after, List.mem_append, List.mem_cons, List.mem_singleton,
              List.not_mem_nil, or_false, false_or, reduceCtorEq, Call.PutVm.injEq] at h
            rcases h with h | h
            · exact Or.inl ⟨h, hne⟩
            · have := putVm_mem_executeJob S migration _ targetPod _ v h
              have h1 := rolledBack_vmBeforeJob vm targetPod
              have h2 := committedOn_vmBeforeJob vm targetPod targetPod.Spec.NodeName
              simp only [vmBeforeJob, if_neg hne] at h1 h2
              rw [VM.migratingTo] at h1 h2
              rw [h1, h2] at this
              exact Or.inr this
        · simp only [List.mem_append, List.mem_cons, List.mem_singleton,
            List.not_mem_nil, or_false, false_or, reduceCtorEq] at h
          exact Or.inr (putVm_mem_executeJob S migration vm targetPod _ v h)
      · simp [setMigrationFailed, putVm_not_mem_setMigrationPhase] at h
      · simp [setMigrationFailed, putVm_not_mem_setMigrationPhase] at h
      · simp at h

/-- Every VM that `execute` hands to `PutVm` stems from the Running case: the
cached Migration is in phase Running, the VM was fetched, the situation analysis
found a target pod in phase Running, and the VM persisted is the fetched VM in
phase Migrating towards the node of that pod, rolled back, or committed on that
node. -/
theorem putVm_mem_execute (S : Services σ) (key : String) (s : σ) (v : VM)
    (h : Call.PutVm v ∈ (execute S key s).calls) :
    ∃ migration vm s1 podList s2 numOfPods targetPod,
      S.store s key = .ok (some migration) ∧
      migration.Status.Phase = MigrationPhase.MigrationRunning ∧
      S.FetchVM migration.Spec.Selector.Name s = (.ok (some vm), s1) ∧
      S.GetRunningVMPods vm s1 = (.ok podList, s2) ∧
      investigateTargetPodSituation migration podList (S.store s2) =
        .ok (numOfPods, some targetPod) ∧
      targetPod.Status.Phase = PodPhase.PodRunning ∧
      ((v = vm.migratingTo targetPod.Spec.NodeName ∧
          vm.Status.MigrationNodeName ≠ targetPod.Spec.NodeName) ∨
        v = vm.rolledBack ∨ v = vm.committedOn targetPod.Spec.NodeName) := by
  unfold execute at h
  split at h
  · simp at h
  · simp at h
  · next migration hstore =>
    split at h
    · simp at h
    · dsimp only at h
      split at h
      · simp at h
      · simp [calls_after, setMigrationFailed, putVm_not_mem_setMigrationPhase] at h
      · next vm s1 hfetch =>
        rw [calls_after] at h
        simp only [List.mem_append, List.mem_cons, List.mem_singleton, List.not_mem_nil,
          or_false, false_or, reduceCtorEq] at h
        split at h
        · exact absurd h (putVm_not_mem_executeUnknown S migration vm s1 v)
        · next hphase =>
          obtain ⟨podList, s2, n, targetPod, h1, h2, h3, h4⟩ :=
            putVm_mem_executeRunning S migration vm s1 v h
          exact ⟨migration, vm, s1, podList, s2, n, targetPod, hstore, hphase, hfetch, h1, h2,
            h3, h4⟩
        · simp at h

end
theorem investigate_target_mem (migration : Migration) (podList : List Pod)
    (migrationStore : Store) (numOfPods : Nat) (targetPod : Pod)
    (h : investigateTargetPodSituation migration podList migrationStore =
      .ok (numOfPods, some targetPod)) :
    targetPod ∈ podList ∧
      targetPod.ObjectMeta.label MigrationUIDLabel = migration.ObjectMeta.UID := by
  have ht := investigateLoop_target migration migrationStore podList 0 none _ _ h
  have hl : lastMatching migration podList = some targetPod := by
    cases hlm : lastMatching migration podList with
    | none => rw [hlm] at ht; simp at ht
    | some p => rw [hlm] at ht; simp at ht; rw [ht]
  have hmem := List.mem_of_getLast?_eq_some hl
  obtain ⟨h1, h2⟩ := List.mem_filter.mp hmem
  exact ⟨h1, by simpa [matchesUID] using h2⟩

section
variable {σ : Type}

theorem startMigration_not_mem_setMigrationPhase (S : Services σ) (migration : Migration)
    (phase : MigrationPhase) (s : σ) (c : Call) (m : Migration) (v : VM) (src tgt : Node)
    (p : Pod) (hc : c = Call.StartMigration m v src tgt p) :
    c ∉ (setMigrationPhase S migration phase s).calls := by
  subst hc
  rw [setMigrationPhase_calls]
  split <;> simp

theorem startMigration_mem_executeJob (S : Services σ) (migration : Migration) (vm : VM)
    (targetPod : Pod) (s : σ) (m : Migration) (v : VM) (src tgt : Node) (p : Pod)
    (h : Call.StartMigration m v src tgt p ∈ (executeJob S migration vm targetPod s).calls) :
    m = migration ∧ v = vm ∧ p = targetPod ∧
      (∃ s1, S.GetMigrationJob migration s = (.ok none, s1)) ∧
      (executeJob S migration vm targetPod s).calls =
        [Call.GetMigrationJob migration, Call.nodesGet vm.Status.NodeName,
          Call.nodesGet vm.Status.MigrationNodeName,
          Call.StartMigration migration vm src tgt targetPod] := by
  unfold executeJob at h ⊢
  split at h
  · simp at h
  · next s1 hjob =>
    try simp only [hjob]
    rw [calls_after] at h ⊢
    split at h
    · simp at h
    · next sourceNode s2 hsrc =>
      try simp only [hsrc]
      rw [calls_after] at h ⊢
      split at h
      · simp at h
      · next targetNode s3 htgt =>
        try simp only [htgt]
        rw [calls_after] at h ⊢
        split at h <;> next hstart =>
          try simp only [hstart]
          simp only [List.mem_append, List.mem_cons, List.mem_singleton, List.not_mem_nil,
            or_false, false_or, reduceCtorEq, Call.StartMigration.injEq] at h
          obtain ⟨rfl, rfl, rfl, rfl, rfl⟩ := h
          exact ⟨rfl, rfl, rfl, ⟨s1, rfl⟩, rfl⟩
  · rw [calls_after] at h
    split at h
    · dsimp only at h
      split at h
      · simp at h
      · simp [calls_after, setMigrationFailed, setMigrationPhase_calls] at h
    · dsimp only at h
      split at h
      · simp at h
      · simp [calls_after, setMigrationPhase_calls] at h
    · simp at h

end
section
variable {σ : Type}

theorem startMigration_not_mem_executeUnknown (S : Services σ) (migration : Migration)
    (vm : VM) (s : σ) (m : Migration) (v : VM) (src tgt : Node) (p : Pod) :
    Call.StartMigration m v src tgt p ∉ (executeUnknown S migration vm s).calls := by
  intro h
  unfold executeUnknown at h
  repeat' first
    | split at h
    | simp only [calls_after, setMigrationFailed, setMigrationPhase_calls, List.mem_append,
        List.mem_cons, List.mem_singleton, List.not_mem_nil, or_false, false_or,
        reduceCtorEq] at h

theorem startMigration_mem_executeRunning (S : Services σ) (migration : Migration) (vm : VM)
    (s : σ) (m : Migration) (v : VM) (src tgt : Node) (p : Pod)
    (h : Call.StartMigration m v src tgt p ∈ (executeRunning S migration vm s).calls) :
    m = migration ∧ v = vmBeforeJob vm p ∧ p.Status.Phase = PodPhase.PodRunning ∧
      (∃ podList s2 numOfPods, S.GetRunningVMPods vm s = (.ok podList, s2) ∧
        investigateTargetPodSituation migration podList (S.store s2) =
          .ok (numOfPods, some p) ∧
        (vm.Status.MigrationNodeName ≠ p.Spec.NodeName →
          (S.PutVm (vm.migratingTo p.Spec.NodeName) s2).1 = none) ∧
        (S.GetMigrationJob migration (stateBeforeJob S vm p s2)).1 = .ok none) ∧
      (executeRunning S migration vm s).calls =
        Call.GetRunningVMPods vm ::
          ((if vm.Status.MigrationNodeName = p.Spec.NodeName then []
            else [Call.PutVm (vm.migratingTo p.Spec.NodeName)]) ++
          [Call.GetMigrationJob migration, Call.nodesGet v.Status.NodeName,
            Call.nodesGet v.Status.MigrationNodeName,
            Call.StartMigration migration v src tgt p]) := by
  have h0 := h
  unfold executeRunning at h
  split at h
  · simp at h
  · next podList s2 hpods =>
    rw [calls_after] at h
    split at h
    · simp at h
    · simp [setMigrationFailed, setMigrationPhase_calls] at h
    · next numOfPods targetPod hsit =>
      split at h
      · next hpod =>
        split at h
        · next hne =>
          dsimp only at h
          split at h
          · simp at h
          · next s3 hput =>
            simp only [calls_after, List.mem_append, List.mem_cons, List.mem_singleton,
              List.not_mem_nil, or_false, false_or, reduceCtorEq] at h
            obtain ⟨rfl, rfl, rfl, ⟨s4, hjob⟩, hcalls⟩ :=
              startMigration_mem_executeJob S migration _ targetPod _ m v src tgt p h
            have hne1 : ¬ vm.Status.MigrationNodeName = p.Spec.NodeName := hne
            have hv : vmBeforeJob vm p = vm.migratingTo p.Spec.NodeName := by
              simp [vmBeforeJob, hne1]
            have hput1 : S.PutVm (vm.migratingTo p.Spec.NodeName) s2 = (none, s3) := hput
            refine ⟨rfl, ?_, hpod, ⟨podList, s2, numOfPods, hpods, hsit, ?_, ?_⟩, ?_⟩
            · rw [hv]; rfl
            · intro _
              rw [hput1]
            · simp only [stateBeforeJob, if_neg hne1, hput1, hjob]
            · unfold executeRunning
              simp only [hpods, hsit, hpod]
              rw [if_pos hne]
              simp only [hput, calls_after, hcalls, if_neg hne1]
              rfl
        · next heq =>
          simp only [List.mem_append, List.mem_cons, List.mem_singleton,
            List.not_mem_nil, or_false, false_or, reduceCtorEq] at h
          obtain ⟨rfl, rfl, rfl, ⟨s4, hjob⟩, hcalls⟩ :=
            startMigration_mem_executeJob S migration _ targetPod _ m v src tgt p h
          have heq1 : v.Status.MigrationNodeName = p.Spec.NodeName := not_not.mp heq
          have hv : vmBeforeJob v p = v := by
            simp [vmBeforeJob, heq1]
          refine ⟨rfl, hv.symm, hpod,
            ⟨podList, s2, numOfPods, hpods, hsit, fun hne => absurd heq1 hne, ?_⟩, ?_⟩
          · simp only [stateBeforeJob, if_pos heq1, hjob]
          unfold executeRunning
          simp only [hpods, hsit, hpod]
          rw [if_neg heq]
          simp only [calls_after, hcalls, if_pos heq1]
          rfl
      · simp [setMigrationFailed, setMigrationPhase_calls] at h
      · simp [setMigrationFailed, setMigrationPhase_calls] at h
      · simp at h

/-- Every `StartMigration` call of `execute` stems from the Running case and is
its last call. -/
theorem startMigration_mem_execute (S : Services σ) (key : String) (s : σ)
    (m : Migration) (v : VM) (src tgt : Node) (p : Pod)
    (h : Call.StartMigration m v src tgt p ∈ (execute S key s).calls) :
    S.store s key = .ok (some m) ∧
      m.Status.Phase = MigrationPhase.MigrationRunning ∧
      p.Status.Phase = PodPhase.PodRunning ∧
      (∃ vm s1 podList s2 numOfPods,
        S.FetchVM m.Spec.Selector.Name s = (.ok (some vm), s1) ∧
        S.GetRunningVMPods vm s1 = (.ok podList, s2) ∧
        investigateTargetPodSituation m podList (S.store s2) = .ok (numOfPods, some p) ∧
        v = vmBeforeJob vm p ∧
        (vm.Status.MigrationNodeName ≠ p.Spec.NodeName →
          (S.PutVm (vm.migratingTo p.Spec.NodeName) s2).1 = none) ∧
        (S.GetMigrationJob m (stateBeforeJob S vm p s2)).1 = .ok none ∧
        (execute S key s).calls =
          callsBeforeJob m vm p ++
            [Call.GetMigrationJob m, Call.nodesGet v.Status.NodeName,
              Call.nodesGet v.Status.MigrationNodeName, Call.StartMigration m v src tgt p]) := by
  have h0 := h
  unfold execute at h
  split at h
  · simp at h
  · simp at h
  · next migration hstore =>
    split at h
    · simp at h
    · next hcopy =>
      dsimp only at h
      split at h
      · simp at h
      · simp [calls_after, setMigrationFailed, setMigrationPhase_calls] at h
      · next vm s1 hfetch =>
        rw [calls_after] at h
        simp only [List.mem_append, List.mem_cons, List.mem_singleton, List.not_mem_nil,
          or_false, false_or, reduceCtorEq] at h
        split at h
        · exact absurd h (startMigration_not_mem_executeUnknown S migration vm s1 m v src tgt p)
        · next hphase =>
          obtain ⟨rfl, hv, hpod, ⟨podList, s2, n, hpods, hsit, hput, hjob⟩, hcalls⟩ :=
            startMigration_mem_executeRunning S migration vm s1 m v src tgt p h
          refine ⟨hstore, hphase, hpod,
            ⟨vm, s1, podList, s2, n, hfetch, hpods, hsit, hv, hput, hjob, ?_⟩⟩
          unfold execute
          simp only [hstore, hcopy, hfetch, hphase, calls_after, hcalls]
          simp [callsBeforeJob]
        · simp at h

end
section
variable {σ : Type}

/-- C14: in a cluster where a pod in phase Running has been assigned a node,
every VM that `execute` hands to `PutVm` in phase Migrating has a non-empty
`Status.MigrationNodeName`, equal to the `Spec.NodeName` of the target pod of
the Migration being reconciled: the cached Migration is in phase Running, the VM
was fetched, and the situation analysis of its pods found that pod, of the pod
list, with the UID of the Migration as `migration-uid`, in phase Running. -/
theorem execute_putVm_migrating (S : Services σ) (key : String) (s : σ) (v : VM)
    (hassigned : ∀ vm s1 podList, (S.GetRunningVMPods vm s1).1 = .ok podList →
      ∀ pod ∈ podList, pod.assigned)
    (hmem : Call.PutVm v ∈ (execute S key s).calls)
    (hphase : v.Status.Phase = VMPhase.Migrating) :
    v.Status.MigrationNodeName ≠ "" ∧
    ∃ migration vm s1 podList s2 numOfPods targetPod,
      S.store s key = .ok (some migration) ∧
      migration.Status.Phase = MigrationPhase.MigrationRunning ∧
      S.FetchVM migration.Spec.Selector.Name s = (.ok (some vm), s1) ∧
      S.GetRunningVMPods vm s1 = (.ok podList, s2) ∧
      investigateTargetPodSituation migration podList (S.store s2) =
        .ok (numOfPods, some targetPod) ∧
      targetPod ∈ podList ∧
      targetPod.ObjectMeta.label MigrationUIDLabel = migration.ObjectMeta.UID ∧
      targetPod.Status.Phase = PodPhase.PodRunning ∧
      v.Status.MigrationNodeName = targetPod.Spec.NodeName := by
  obtain ⟨migration, vm, s1, podList, s2, n, targetPod, h1, h2, h3, h4, h5, h6, h7⟩ :=
    putVm_mem_execute S key s v hmem
  obtain ⟨hin, huid⟩ := investigate_target_mem migration podList (S.store s2) n targetPod h5
  have hnode : v.Status.MigrationNodeName = targetPod.Spec.NodeName := by
    rcases h7 with ⟨rfl, _⟩ | rfl | rfl
    · rfl
    · simp [VM.rolledBack] at hphase
    · simp [VM.committedOn] at hphase
  have hlisted : (S.GetRunningVMPods vm s1).1 = .ok podList := by rw [h4]
  refine ⟨?_, migration, vm, s1, podList, s2, n, targetPod, h1, h2, h3, h4, h5, hin, huid, h6,
    hnode⟩
  rw [hnode]
  exact hassigned vm s1 podList hlisted targetPod hin h6

/-- C15 (amended): every VM that `execute` hands to `PutVm` has the
`Spec.NodeSelector` of the VM that `FetchVM` returned in this invocation: the
selector of the Migration is not merged into it. -/
theorem execute_putVm_keeps_selector (S : Services σ) (key : String) (s s1 : σ)
    (migration : Migration) (vm v : VM)
    (hstore : S.store s key = .ok (some migration))
    (hfetch : S.FetchVM migration.Spec.Selector.Name s = (.ok (some vm), s1))
    (hmem : Call.PutVm v ∈ (execute S key s).calls) :
    v.Spec.NodeSelector = vm.Spec.NodeSelector := by
  obtain ⟨migration1, vm1, s2, podList, s3, n, targetPod, h1, _, h3, _, _, _, h7⟩ :=
    putVm_mem_execute S key s v hmem
  rw [hstore] at h1
  cases h1
  rw [hfetch] at h3
  cases h3
  rcases h7 with ⟨rfl, _⟩ | rfl | rfl <;> rfl

/-- C20: whenever `execute` calls `StartMigration` for a Migration with a
non-empty UID, the Migration passed is the cached one and is in phase Running;
the target pod passed is a pod of the pod list that carries the label
`migration-uid` with that UID, the last such pod of the list, and is in phase
Running; `GetMigrationJob`, called in the state of the run (after the `PutVm`
to phase Migrating when one was due, which succeeded), reported that no job
exists; the VM passed points at the node of the target pod; `StartMigration` is
the last call of the invocation, which makes no `CreateMigrationTargetPod` and
no `UpdateMigration` call. -/
theorem execute_startMigration (S : Services σ) (key : String) (s : σ)
    (m : Migration) (v : VM) (src tgt : Node) (p : Pod)
    (huid : m.ObjectMeta.UID ≠ "")
    (hmem : Call.StartMigration m v src tgt p ∈ (execute S key s).calls) :
    S.store s key = .ok (some m) ∧
    m.Status.Phase = MigrationPhase.MigrationRunning ∧
    p.Status.Phase = PodPhase.PodRunning ∧
    p.ObjectMeta.label? MigrationUIDLabel = some m.ObjectMeta.UID ∧
    (∃ vm s1 podList s2 numOfPods,
      S.FetchVM m.Spec.Selector.Name s = (.ok (some vm), s1) ∧
      S.GetRunningVMPods vm s1 = (.ok podList, s2) ∧
      investigateTargetPodSituation m podList (S.store s2) = .ok (numOfPods, some p) ∧
      p ∈ podList ∧
      (podList.filter (carriesUID m)).getLast? = some p ∧
      v = vmBeforeJob vm p ∧
      (vm.Status.MigrationNodeName ≠ p.Spec.NodeName →
        (S.PutVm (vm.migratingTo p.Spec.NodeName) s2).1 = none) ∧
      (S.GetMigrationJob m (stateBeforeJob S vm p s2)).1 = .ok none ∧
      (execute S key s).calls =
        callsBeforeJob m vm p ++
          [Call.GetMigrationJob m, Call.nodesGet v.Status.NodeName,
            Call.nodesGet v.Status.MigrationNodeName, Call.StartMigration m v src tgt p]) ∧
    v.Status.MigrationNodeName = p.Spec.NodeName ∧
    (∀ c ∈ (execute S key s).calls,
      (∀ m1 v1, c ≠ Call.CreateMigrationTargetPod m1 v1) ∧
        ∀ m1, c ≠ Call.UpdateMigration m1) := by
  obtain ⟨hstore, hphase, hpod, vm, s1, podList, s2, n, hfetch, hpods, hsit, hv, hput, hjob,
    hcalls⟩ := startMigration_mem_execute S key s m v src tgt p hmem
  obtain ⟨hin, hlabel⟩ := investigate_target_mem m podList (S.store s2) n p hsit
  have hcarries : carriesUID m p = true := by
    rw [← matchesUID_eq_carriesUID m huid p]
    simp [matchesUID, hlabel]
  have hlast : (podList.filter (carriesUID m)).getLast? = some p := by
    have h := investigateLoop_target m (S.store s2) podList 0 none _ _ hsit
    have hfun : matchesUID m = carriesUID m := funext (matchesUID_eq_carriesUID m huid)
    rw [lastMatching, hfun] at h
    cases hl : (podList.filter (carriesUID m)).getLast? with
    | none => rw [hl] at h; simp at h
    | some q => rw [hl] at h; simp at h; rw [h]
  refine ⟨hstore, hphase, hpod, by simpa [carriesUID] using hcarries,
    ⟨vm, s1, podList, s2, n, hfetch, hpods, hsit, hin, hlast, hv, hput, hjob, hcalls⟩, ?_, ?_⟩
  · rw [hv]
    exact vmBeforeJob_migrationNodeName vm p
  · intro c hc
    rw [hcalls] at hc
    unfold callsBeforeJob at hc
    split at hc <;> constructor <;> intros <;> rintro rfl <;> simp at hc

end

/-- C16: for every pod event that reaches `migrationLabelHandler` (a pod of
the namespace that the informers watch), the work key enqueued is
`<pod namespace>/<migration label>`: the namespace part is the namespace of the
pod and the name part is the value of its migration label, the empty string
when the label is missing. -/
theorem migrationLabelHandler_key {q : Type} (Add : String → q → q) (obj : Pod) (queue : q)
    (hwatched : watched obj) :
    migrationLabelHandler Add obj queue =
      Add (obj.ObjectMeta.Namespace ++ "/" ++ (obj.ObjectMeta.label? MigrationLabel).getD "")
        queue ∧
    (∀ l, obj.ObjectMeta.label? MigrationLabel = some l →
      migrationLabelHandler Add obj queue = Add (obj.ObjectMeta.Namespace ++ "/" ++ l) queue) ∧
    (obj.ObjectMeta.label? MigrationLabel = none →
      migrationLabelHandler Add obj queue = Add (obj.ObjectMeta.Namespace ++ "/" ++ "") queue) := by
  have hns : obj.ObjectMeta.Namespace = NamespaceDefault := hwatched
  refine ⟨?_, ?_, ?_⟩
  · rw [hns]
    rfl
  · intro l hl
    rw [hns]
    simp [migrationLabelHandler, ObjectMeta.label, hl]
  · intro hl
    rw [hns]
    simp [migrationLabelHandler, ObjectMeta.label, hl]

/-- C16 (witness): the pod `p1` of the namespace `default`, created for the
Migration `m1`, enqueues `default/m1`. -/
theorem migrationLabelHandler_key_witness :
    watched (podWith "p1" (some (targetPodLabels "m1" "uid-1")) PodPhase.PodRunning "nodeB") ∧
    migrationLabelHandler (fun key queue => queue ++ [key])
        (podWith "p1" (some (targetPodLabels "m1" "uid-1")) PodPhase.PodRunning "nodeB") [] =
      ["default/m1"] :=
  ⟨rfl,
    (migrationLabelHandler_key (fun key queue => queue ++ [key])
      (podWith "p1" (some (targetPodLabels "m1" "uid-1")) PodPhase.PodRunning "nodeB") []
      rfl).2.1 "m1" rfl⟩

/-- C11 (witness): while the target pod of the running Migration `m1` is
pending nothing is mutated; once it has failed `m1` is persisted in phase
Failed. -/
theorem execute_running_target_pod_not_running_witness :
    execute
        (fixedServices [runningMigration ∅] (some (vmWith VMPhase.Running ∅ ""))
          [targetPodOn PodPhase.PodPending ""] none)
        "default/m1" () =
      ⟨none, [Call.FetchVM "vm1", Call.GetRunningVMPods (vmWith VMPhase.Running ∅ "")], (),
        some (runningMigration ∅)⟩ ∧
    execute
        (fixedServices [runningMigration ∅] (some (vmWith VMPhase.Running ∅ ""))
          [targetPodOn PodPhase.PodFailed "nodeB"] none)
        "default/m1" () =
      ⟨none,
        [Call.FetchVM "vm1", Call.GetRunningVMPods (vmWith VMPhase.Running ∅ ""),
          Call.UpdateMigration (migrationFor "m1" "uid-1" MigrationPhase.MigrationFailed ∅)],
        (), some (migrationFor "m1" "uid-1" MigrationPhase.MigrationFailed ∅)⟩ :=
  ⟨(execute_running_target_pod_not_running
      (fixedServices [runningMigration ∅] (some (vmWith VMPhase.Running ∅ ""))
        [targetPodOn PodPhase.PodPending ""] none)
      "default/m1" () () () (runningMigration ∅) (vmWith VMPhase.Running ∅ "")
      [targetPodOn PodPhase.PodPending ""] 1 (some (targetPodOn PodPhase.PodPending ""))
      rfl rfl rfl rfl rfl rfl (fun pod h => by cases h; decide)).2.1
      ⟨targetPodOn PodPhase.PodPending "", rfl, Or.inl rfl⟩,
    (execute_running_target_pod_not_running
      (fixedServices [runningMigration ∅] (some (vmWith VMPhase.Running ∅ ""))
        [targetPodOn PodPhase.PodFailed "nodeB"] none)
      "default/m1" () () () (runningMigration ∅) (vmWith VMPhase.Running ∅ "")
      [targetPodOn PodPhase.PodFailed "nodeB"] 1 (some (targetPodOn PodPhase.PodFailed "nodeB"))
      rfl rfl rfl rfl rfl rfl (fun pod h => by cases h; decide)).1
      (Or.inr ⟨targetPodOn PodPhase.PodFailed "nodeB", rfl, Or.inr rfl⟩)⟩

/-- C12 (witness): the last reconciliation of the happy path: the job of the
Migration `m1` has succeeded, the target pod runs on `nodeB`; the VM is
committed on `nodeB` and `m1` is persisted in phase Succeeded. -/
theorem execute_running_job_succeeded_witness :
    execute
        (fixedServices [runningMigration ∅] (some (vmWith VMPhase.Migrating ∅ "nodeB"))
          [targetPodOn PodPhase.PodRunning "nodeB"] (some (jobPod PodPhase.PodSucceeded)))
        "default/m1" () =
      ⟨none,
        [Call.FetchVM "vm1", Call.GetRunningVMPods (vmWith VMPhase.Migrating ∅ "nodeB"),
          Call.GetMigrationJob (runningMigration ∅),
          Call.PutVm
            ⟨⟨"vm1", "default", "vm-uid", some ((∅ : GoMap).insert NodeNameLabel "nodeB")⟩, ⟨∅⟩,
              ⟨VMPhase.Running, "nodeB", ""⟩⟩,
          Call.UpdateMigration (migrationFor "m1" "uid-1" MigrationPhase.MigrationSucceeded ∅)],
        (), some (migrationFor "m1" "uid-1" MigrationPhase.MigrationSucceeded ∅)⟩ :=
  (execute_running_job_succeeded
    (fixedServices [runningMigration ∅] (some (vmWith VMPhase.Migrating ∅ "nodeB"))
      [targetPodOn PodPhase.PodRunning "nodeB"] (some (jobPod PodPhase.PodSucceeded)))
    "default/m1" () () () () () () () (runningMigration ∅) (vmWith VMPhase.Migrating ∅ "nodeB")
    [targetPodOn PodPhase.PodRunning "nodeB"] 1 (targetPodOn PodPhase.PodRunning "nodeB")
    (jobPod PodPhase.PodSucceeded)
    rfl rfl rfl rfl rfl rfl rfl (Or.inl ⟨rfl, rfl⟩) rfl rfl rfl rfl).1

/-- C13 (witness): the job of the Migration `m1` has failed while the VM did
not yet point at `nodeB`; the VM is rolled back and `m1` is persisted in phase
Failed. -/
theorem execute_running_job_failed_witness :
    execute
        (fixedServices [runningMigration ∅] (some (vmWith VMPhase.Running ∅ ""))
          [targetPodOn PodPhase.PodRunning "nodeB"] (some (jobPod PodPhase.PodFailed)))
        "default/m1" () =
      ⟨none,
        [Call.FetchVM "vm1", Call.GetRunningVMPods (vmWith VMPhase.Running ∅ ""),
          Call.PutVm (vmWith VMPhase.Migrating ∅ "nodeB"),
          Call.GetMigrationJob (runningMigration ∅),
          Call.PutVm (vmWith VMPhase.Running ∅ ""),
          Call.UpdateMigration (migrationFor "m1" "uid-1" MigrationPhase.MigrationFailed ∅)],
        (), some (migrationFor "m1" "uid-1" MigrationPhase.MigrationFailed ∅)⟩ :=
  (execute_running_job_failed
    (fixedServices [runningMigration ∅] (some (vmWith VMPhase.Running ∅ ""))
      [targetPodOn PodPhase.PodRunning "nodeB"] (some (jobPod PodPhase.PodFailed)))
    "default/m1" () () () () () (runningMigration ∅) (vmWith VMPhase.Running ∅ "")
    [targetPodOn PodPhase.PodRunning "nodeB"] 1 (targetPodOn PodPhase.PodRunning "nodeB")
    (jobPod PodPhase.PodFailed)
    rfl rfl rfl rfl rfl rfl rfl (Or.inr ⟨by decide, rfl⟩) rfl rfl).2.1 () rfl

/-- C14 (witness): the target pod of the running Migration `m1` runs on
`nodeB`; the VM is persisted in phase Migrating towards `nodeB`. -/
theorem execute_putVm_migrating_witness :
    Call.PutVm (vmWith VMPhase.Migrating ∅ "nodeB") ∈
      (execute
        (fixedServices [runningMigration ∅] (some (vmWith VMPhase.Running ∅ ""))
          [targetPodOn PodPhase.PodRunning "nodeB"] none)
        "default/m1" ()).calls ∧
    (vmWith VMPhase.Migrating ∅ "nodeB").Status.MigrationNodeName ≠ "" :=
  ⟨List.mem_cons_of_mem _ (List.mem_cons_of_mem _ (List.mem_cons_self _ _)),
    (execute_putVm_migrating
      (fixedServices [runningMigration ∅] (some (vmWith VMPhase.Running ∅ ""))
        [targetPodOn PodPhase.PodRunning "nodeB"] none)
      "default/m1" () (vmWith VMPhase.Migrating ∅ "nodeB")
      (fun _ _ podList h pod hpod => by
        cases h
        simp only [List.mem_singleton] at hpod
        subst hpod
        intro _
        decide)
      (List.mem_cons_of_mem _ (List.mem_cons_of_mem _ (List.mem_cons_self _ _))) rfl).1⟩

/-- C15 (counterexample): the running Migration `m1` asks for `zone=eu`, the VM
has no node selector; the VM that `execute` persists in phase Migrating has no
binding for `zone`. -/
theorem execute_putVm_selector_not_merged :
    (execute
        (fixedServices [runningMigration selectorZoneEu] (some (vmWith VMPhase.Running ∅ ""))
          [targetPodOn PodPhase.PodRunning "nodeB"] none)
        "default/m1" ()).calls =
      [Call.FetchVM "vm1", Call.GetRunningVMPods (vmWith VMPhase.Running ∅ ""),
        Call.PutVm (vmWith VMPhase.Migrating ∅ "nodeB"),
        Call.GetMigrationJob (runningMigration selectorZoneEu), Call.nodesGet "nodeA",
        Call.nodesGet "nodeB",
        Call.StartMigration (runningMigration selectorZoneEu)
          (vmWith VMPhase.Migrating ∅ "nodeB") ⟨"nodeA"⟩ ⟨"nodeB"⟩
          (targetPodOn PodPhase.PodRunning "nodeB")] ∧
    (runningMigration selectorZoneEu).Spec.NodeSelector.lookup "zone" = some "eu" ∧
    (vmWith VMPhase.Migrating ∅ "nodeB").Spec.NodeSelector.lookup "zone" = none :=
  ⟨rfl, rfl, rfl⟩

/-- C15 (witness): the VM persisted in phase Migrating keeps the selector
`disk=ssd` of the fetched VM. -/
theorem execute_putVm_keeps_selector_witness :
    (vmWith VMPhase.Migrating selectorDiskSsd "nodeB").Spec.NodeSelector =
      (vmWith VMPhase.Running selectorDiskSsd "").Spec.NodeSelector :=
  execute_putVm_keeps_selector
    (fixedServices [runningMigration selectorZoneEu]
      (some (vmWith VMPhase.Running selectorDiskSsd ""))
      [targetPodOn PodPhase.PodRunning "nodeB"] none)
    "default/m1" () () (runningMigration selectorZoneEu)
    (vmWith VMPhase.Running selectorDiskSsd "") (vmWith VMPhase.Migrating selectorDiskSsd "nodeB")
    rfl rfl (List.mem_cons_of_mem _ (List.mem_cons_of_mem _ (List.mem_cons_self _ _)))

/-- C20 (witness): the target pod of the running Migration `m1` runs on
`nodeB` and no job exists: the job is started with the VM pointing at `nodeB`
and with the pod that carries `migration-uid=uid-1`. -/
theorem execute_startMigration_witness :
    (targetPodOn PodPhase.PodRunning "nodeB").ObjectMeta.label? MigrationUIDLabel =
      some "uid-1" ∧
    (vmWith VMPhase.Migrating ∅ "nodeB").Status.MigrationNodeName =
      (targetPodOn PodPhase.PodRunning "nodeB").Spec.NodeName :=
  ⟨(execute_startMigration
      (fixedServices [runningMigration ∅] (some (vmWith VMPhase.Running ∅ ""))
        [targetPodOn PodPhase.PodRunning "nodeB"] none)
      "default/m1" () (runningMigration ∅) (vmWith VMPhase.Migrating ∅ "nodeB") ⟨"nodeA"⟩
      ⟨"nodeB"⟩ (targetPodOn PodPhase.PodRunning "nodeB") (by decide)
      (List.mem_cons_of_mem _ (List.mem_cons_of_mem _ (List.mem_cons_of_mem _
        (List.mem_cons_of_mem _ (List.mem_cons_of_mem _ (List.mem_cons_of_mem _
          (List.mem_cons_self _ _)))))))).2.2.2.1,
    (execute_startMigration
      (fixedServices [runningMigration ∅] (some (vmWith VMPhase.Running ∅ ""))
        [targetPodOn PodPhase.PodRunning "nodeB"] none)
      "default/m1" () (runningMigration ∅) (vmWith VMPhase.Migrating ∅ "nodeB") ⟨"nodeA"⟩
      ⟨"nodeB"⟩ (targetPodOn PodPhase.PodRunning "nodeB") (by decide)
      (List.mem_cons_of_mem _ (List.mem_cons_of_mem _ (List.mem_cons_of_mem _
        (List.mem_cons_of_mem _ (List.mem_cons_of_mem _ (List.mem_cons_of_mem _
          (List.mem_cons_self _ _)))))))).2.2.2.2.2.1⟩

section
variable {σ : Type}

theorem pods_setMigrationPhase {S : Services σ} {key uid : String} {pods : σ → List Pod}
    (hm : TargetPodModel S key uid pods) (migration : Migration) (phase : MigrationPhase)
    (s : σ) : pods (setMigrationPhase S migration phase s).state = pods s := by
  rw [setMigrationPhase_state]
  split
  · rfl
  · exact hm.updateMigration _ _

theorem pods_executeJob {S : Services σ} {key uid : String} {pods : σ → List Pod}
    (hm : TargetPodModel S key uid pods) (migration : Migration) (vm : VM) (targetPod : Pod)
    (s : σ) : pods (executeJob S migration vm targetPod s).state = pods s := by
  unfold executeJob
  repeat' first
    | split
    | simp only [Outcome.after, setMigrationFailed]
  all_goals
    simp only [Prod.ext_iff] at *
    casesm* _ ∧ _
    subst_vars
    simp only [pods_setMigrationPhase hm, hm.getMigrationJob,
      hm.nodesGet, hm.startMigration, hm.putVm]


theorem pods_executeRunning {S : Services σ} {key uid : String} {pods : σ → List Pod}
    (hm : TargetPodModel S key uid pods) (migration : Migration) (vm : VM)
    (s : σ) : pods (executeRunning S migration vm s).state = pods s := by
  unfold executeRunning
  repeat' first
    | split
    | simp only [Outcome.after, setMigrationFailed]
  all_goals
    simp only [Prod.ext_iff] at *
    casesm* _ ∧ _
    subst_vars
    simp only [pods_setMigrationPhase hm, pods_executeJob hm, hm.getRunningVMPods, hm.putVm]

end
theorem countP_uidMatches_of_no_target (migration : Migration) (podList : List Pod)
    (migrationStore : Store) (numOfPods : Nat)
    (h : investigateTargetPodSituation migration podList migrationStore =
      .ok (numOfPods, none)) :
    podList.countP (uidMatches migration.ObjectMeta.UID) = 0 := by
  have ht := investigateLoop_target migration migrationStore podList 0 none _ _ h
  have hl : lastMatching migration podList = none := by
    cases hlm : lastMatching migration podList with
    | none => rfl
    | some p => rw [hlm] at ht; simp at ht
  have hnil : podList.filter (matchesUID migration) = [] := List.getLast?_eq_none_iff.mp hl
  rw [List.countP_eq_zero]
  intro pod hpod hu
  have hmem : pod ∈ podList.filter (matchesUID migration) :=
    List.mem_filter.mpr ⟨hpod, hu⟩
  rw [hnil] at hmem
  exact absurd hmem (List.not_mem_nil _)

section
variable {σ : Type}

theorem pods_executeUnknown {S : Services σ} {key uid : String} {pods : σ → List Pod}
    (hm : TargetPodModel S key uid pods) (migration : Migration) (vm : VM) (s : σ) :
    pods (executeUnknown S migration vm s).state = pods s ∨
      ((pods s).countP (uidMatches migration.ObjectMeta.UID) = 0 ∧
        ∃ pod, pod.ObjectMeta.label? MigrationUIDLabel = some migration.ObjectMeta.UID ∧
          pods (executeUnknown S migration vm s).state = pods s ++ [pod]) := by
  unfold executeUnknown
  repeat' first
    | split
    | simp only [Outcome.after, setMigrationFailed]
  all_goals
    try simp only [Prod.ext_iff] at *
    try casesm* _ ∧ _
    subst_vars
    try simp only [pods_setMigrationPhase hm, hm.getRunningVMPods]
  all_goals first
    | exact Or.inl rfl
    | exact Or.inl trivial
    | skip
  · rename_i hmerge hlist hcreate hn hsit
    exact Or.inl (by rw [hm.create_err _ _ _ (by rw [hcreate]; simp), hm.getRunningVMPods])
  · rename_i hmerge hlist hcreate hn hsit
    right
    have hpl := hm.listed _ _ _ hlist
    subst hpl
    refine ⟨countP_uidMatches_of_no_target migration _ _ _ hsit, ?_⟩
    obtain ⟨pod, hpod, hpods⟩ := hm.create_ok _ _ _ hcreate
    exact ⟨pod, hpod, by rw [hpods, hm.getRunningVMPods]⟩


theorem pods_execute {S : Services σ} {key uid : String} {pods : σ → List Pod}
    (hm : TargetPodModel S key uid pods) (s : σ) :
    pods (execute S key s).state = pods s ∨
      ((pods s).countP (uidMatches uid) = 0 ∧
        ∃ pod, pod.ObjectMeta.label? MigrationUIDLabel = some uid ∧
          pods (execute S key s).state = pods s ++ [pod]) := by
  unfold execute
  split
  · exact Or.inl rfl
  · exact Or.inl rfl
  · next migration hstore =>
    have huid := hm.store_uid s migration hstore
    split
    · exact Or.inl rfl
    · dsimp only
      split
      · next hfetch =>
        have := hm.fetchVM migration.Spec.Selector.Name s
        rw [hfetch] at this
        exact Or.inl this
      · next hfetch =>
        have := hm.fetchVM migration.Spec.Selector.Name s
        rw [hfetch] at this
        left
        simp only [Outcome.after, setMigrationFailed, pods_setMigrationPhase hm, this]
      · next vm s1 hfetch =>
        have hs1 := hm.fetchVM migration.Spec.Selector.Name s
        rw [hfetch] at hs1
        simp only [Outcome.after]
        split
        · have h := pods_executeUnknown hm migration vm s1
          rw [huid, hs1] at h
          exact h
        · left
          rw [pods_executeRunning hm, hs1]
        · exact Or.inl hs1

end
theorem uidMatches_of_uidCarried (uid : String) (pod : Pod)
    (h : pod.ObjectMeta.label? MigrationUIDLabel = some uid) : uidMatches uid pod = true := by
  simp [uidMatches, ObjectMeta.label, h]

section
variable {σ : Type}

/-- Along a sequence of reconciliations the pods only grow, by at most one pod,
which carries the UID. -/
theorem pods_reconcileN {S : Services σ} {key uid : String} {pods : σ → List Pod}
    (hm : TargetPodModel S key uid pods) (s0 : σ) (n : Nat) :
    ∀ s, (pods s = pods s0 ∨
        ∃ pod, pod.ObjectMeta.label? MigrationUIDLabel = some uid ∧ pods s = pods s0 ++ [pod]) →
      (pods (reconcileN S key n s) = pods s0 ∨
        ∃ pod, pod.ObjectMeta.label? MigrationUIDLabel = some uid ∧
          pods (reconcileN S key n s) = pods s0 ++ [pod]) := by
  induction n with
  | zero => intro s h; exact h
  | succ n ih =>
    intro s h
    apply ih
    unfold reconcile
    rcases pods_execute hm s with hsame | ⟨hzero, pod, hpod, happ⟩
    · rw [hsame]; exact h
    · rcases h with h | ⟨pod0, hpod0, h⟩
      · exact Or.inr ⟨pod, hpod, by rw [happ, h]⟩
      · exfalso
        rw [h, List.countP_append] at hzero
        have : uidMatches uid pod0 = true := uidMatches_of_uidCarried uid pod0 hpod0
        simp [this] at hzero

/-- C17: in a cluster where a successful `CreateMigrationTargetPod` adds one pod
labelled with the UID of the Migration to the pods that `GetRunningVMPods`
returns and no other call changes these pods (`TargetPodModel`; every call may
fail, and `UpdateMigration` may or may not reach the cache), starting without a
pod labelled with the UID, after any number of reconciliations of the Migration
the pods are the initial ones followed by at most one created pod: at most one
`CreateMigrationTargetPod` has succeeded and at most one pod carries the UID. -/
theorem reconcileN_at_most_one_target_pod {S : Services σ} {key uid : String}
    {pods : σ → List Pod} (hm : TargetPodModel S key uid pods) (s : σ)
    (h0 : (pods s).countP (uidCarried uid) = 0) (n : Nat) :
    (∃ created, created.length ≤ 1 ∧ pods (reconcileN S key n s) = pods s ++ created) ∧
    (pods (reconcileN S key n s)).length ≤ (pods s).length + 1 ∧
    (pods (reconcileN S key n s)).countP (uidCarried uid) ≤ 1 := by
  rcases pods_reconcileN hm s n s (Or.inl rfl) with h | ⟨pod, _, h⟩
  · rw [h]
    exact ⟨⟨[], by simp, by simp⟩, by omega, by omega⟩
  · rw [h]
    refine ⟨⟨[pod], by simp, rfl⟩, by simp, ?_⟩
    rw [List.countP_append, h0]
    simp only [Nat.zero_add]
    exact List.countP_le_length _

end

theorem targetClusterServices_model :
    TargetPodModel targetClusterServices "default/m1" "uid-1" TargetCluster.pods where
  store_uid := by
    intro s m h
    simp only [targetClusterServices] at h
    cases h
    rfl
  fetchVM := fun _ _ => rfl
  listed := by
    intro vm s podList h
    simp only [targetClusterServices] at h
    cases h
    rfl
  getRunningVMPods := fun _ _ => rfl
  create_ok := by
    intro m vm s _
    refine ⟨_, ?_, rfl⟩
    simp [podWith, targetPodLabels, ObjectMeta.label?]
  create_err := by
    intro m vm s h
    exact absurd rfl h
  updateMigration := by
    intro m s
    simp only [targetClusterServices]
    split <;> rfl
  putVm := fun _ _ => rfl
  getMigrationJob := fun _ _ => rfl
  nodesGet := fun _ _ => rfl
  startMigration := fun _ _ _ _ _ _ => rfl

/-- C17 (witness): `UpdateMigration` fails every time, so the Migration `m1`
stays in phase Unknown; three reconciliations in a row create one target pod. -/
theorem reconcileN_at_most_one_target_pod_witness :
    (reconcileN targetClusterServices "default/m1" 3
        ⟨MigrationPhase.MigrationUnknown, [], true⟩).pods.length ≤ 0 + 1 ∧
    (reconcileN targetClusterServices "default/m1" 3
        ⟨MigrationPhase.MigrationUnknown, [], true⟩).pods.length = 1 :=
  ⟨(reconcileN_at_most_one_target_pod targetClusterServices_model
      ⟨MigrationPhase.MigrationUnknown, [], true⟩ rfl 3).2.1, rfl⟩

theorem failFast_mem (err : Option Err) (log : List CallResult) (h : FailFast err log)
    (c : Call) (e : Err) (hmem : (c, some e) ∈ log) :
    err = some e ∧ log.getLast? = some (c, some e) ∧ ∀ cr ∈ log.dropLast, cr.2 = none := by
  induction log with
  | nil => simp at hmem
  | cons cr rest ih =>
    cases rest with
    | nil =>
      simp only [List.mem_singleton] at hmem
      subst hmem
      simp only [FailFast] at h
      refine ⟨?_, rfl, by simp⟩
      rcases h with h | h
      · simp at h
      · exact h.symm
    | cons cr1 rest1 =>
      obtain ⟨h1, h2⟩ := h
      have hne : (c, some e) ≠ cr := by
        intro hc
        rw [← hc] at h1
        simp at h1
      have hmem1 : (c, some e) ∈ cr1 :: rest1 := by
        rcases List.mem_cons.mp hmem with h | h
        · exact absurd h hne
        · exact h
      obtain ⟨i1, i2, i3⟩ := ih h2 hmem1
      refine ⟨i1, ?_, ?_⟩
      · rw [List.getLast?_cons_cons]; exact i2
      · intro x hx
        rw [List.dropLast_cons₂] at hx
        rcases List.mem_cons.mp hx with hx | hx
        · rw [hx]; exact h1
        · exact i3 x hx

section
variable {σ : Type}

theorem recording_setMigrationPhase (S : Services σ) (migration : Migration)
    (phase : MigrationPhase) (st : σ × List CallResult) :
    setMigrationPhase S.recording migration phase st =
      if migration.Status.Phase = phase then ⟨none, [], st, some migration⟩
      else
        ⟨(S.UpdateMigration (migration.withPhase phase) st.1).1,
          [Call.UpdateMigration (migration.withPhase phase)],
          ((S.UpdateMigration (migration.withPhase phase) st.1).2,
            st.2 ++ [(Call.UpdateMigration (migration.withPhase phase),
              (S.UpdateMigration (migration.withPhase phase) st.1).1)]),
          some (migration.withPhase phase)⟩ := by
  split
  · next h => rw [setMigrationPhase_of_eq _ _ _ _ h]
  · next h => rw [setMigrationPhase_of_ne _ _ _ _ h]; rfl

set_option maxHeartbeats 1600000 in
theorem failFast_execute (S : Services σ) (key : String) (s : σ) :
    FailFast (execute S.recording key (s, [])).err (execute S.recording key (s, [])).state.2 ∧
    (execute S.recording key (s, [])).state.2.map Prod.fst =
      (execute S.recording key (s, [])).calls := by
  unfold execute executeUnknown executeRunning executeJob
  simp only [setMigrationFailed, recording_setMigrationPhase]
  simp only [Services.recording]
  repeat' first
    | split
    | simp only [Outcome.after]
  all_goals
    try simp only [Prod.mk.injEq] at *
    try casesm* _ ∧ _
    subst_vars
    simp_all [FailFast, errorOf]


theorem sameRun_setMigrationPhase (S : Services σ) (migration : Migration)
    (phase : MigrationPhase) (st : σ × List CallResult) :
    SameRun (setMigrationPhase S.recording migration phase st)
      (setMigrationPhase S migration phase st.1) := by
  by_cases h : migration.Status.Phase = phase
  · rw [setMigrationPhase_of_eq _ _ _ _ h, setMigrationPhase_of_eq _ _ _ _ h]
    exact ⟨rfl, rfl, rfl, rfl⟩
  · rw [setMigrationPhase_of_ne _ _ _ _ h, setMigrationPhase_of_ne _ _ _ _ h]
    exact ⟨rfl, rfl, rfl, rfl⟩

theorem sameRun_after (pre : List Call) (o : Outcome (σ × List CallResult)) (p : Outcome σ)
    (h : SameRun o p) : SameRun (Outcome.after pre o) (Outcome.after pre p) := by
  obtain ⟨h1, h2, h3, h4⟩ := h
  exact ⟨h1, by simp [Outcome.after, h2], h3, h4⟩

theorem sameRun_mk (err : Option Err) (calls : List Call) (st : σ × List CallResult)
    (m : Option Migration) : SameRun ⟨err, calls, st, m⟩ ⟨err, calls, st.1, m⟩ :=
  ⟨rfl, rfl, rfl, rfl⟩

theorem sameRun_executeJob (S : Services σ) (migration : Migration) (vm : VM)
    (targetPod : Pod) (st : σ × List CallResult) :
    SameRun (executeJob S.recording migration vm targetPod st)
      (executeJob S migration vm targetPod st.1) := by
  unfold executeJob
  dsimp only [Services.recording]
  generalize S.GetMigrationJob migration st.1 = p
  obtain ⟨r, s1⟩ := p
  rcases r with err | _ | migrationPod
  · exact sameRun_mk _ _ _ _
  · apply sameRun_after
    try dsimp only
    generalize S.nodesGet vm.Status.NodeName s1 = p
    obtain ⟨r, s2⟩ := p
    rcases r with err | sourceNode
    · exact sameRun_mk _ _ _ _
    · apply sameRun_after
      try dsimp only
      generalize S.nodesGet vm.Status.MigrationNodeName s2 = p
      obtain ⟨r, s3⟩ := p
      rcases r with err | targetNode
      · exact sameRun_mk _ _ _ _
      · apply sameRun_after
        try dsimp only
        generalize S.StartMigration migration vm sourceNode targetNode targetPod s3 = p
        obtain ⟨r, s4⟩ := p
        rcases r with _ | err
        · exact sameRun_mk _ _ _ _
        · exact sameRun_mk _ _ _ _
  · apply sameRun_after
    try dsimp only
    split
    · try dsimp only
      generalize S.PutVm _ s1 = p
      obtain ⟨r, s2⟩ := p
      rcases r with _ | err
      · exact sameRun_after _ _ _ (sameRun_setMigrationPhase S migration _ _)
      · exact sameRun_mk _ _ _ _
    · try dsimp only
      generalize S.PutVm _ s1 = p
      obtain ⟨r, s2⟩ := p
      rcases r with _ | err
      · exact sameRun_after _ _ _ (sameRun_setMigrationPhase S migration _ _)
      · exact sameRun_mk _ _ _ _
    · exact sameRun_mk _ _ _ _

theorem sameRun_executeRunning (S : Services σ) (migration : Migration) (vm : VM)
    (st : σ × List CallResult) :
    SameRun (executeRunning S.recording migration vm st)
      (executeRunning S migration vm st.1) := by
  unfold executeRunning
  dsimp only [Services.recording]
  generalize S.GetRunningVMPods vm st.1 = p
  obtain ⟨r, s1⟩ := p
  rcases r with err | podList
  · exact sameRun_mk _ _ _ _
  · apply sameRun_after
    try dsimp only
    split
    · exact sameRun_mk _ _ _ _
    · exact sameRun_setMigrationPhase S migration _ _
    · split
      · split
        · try dsimp only
          generalize S.PutVm _ s1 = p
          obtain ⟨r, s2⟩ := p
          rcases r with _ | err
          · exact sameRun_after _ _ _ (sameRun_executeJob S migration _ _ _)
          · exact sameRun_mk _ _ _ _
        · exact sameRun_executeJob S migration _ _ _
      · exact sameRun_setMigrationPhase S migration _ _
      · exact sameRun_setMigrationPhase S migration _ _
      · exact sameRun_mk _ _ _ _

theorem sameRun_executeUnknown (S : Services σ) (migration : Migration) (vm : VM)
    (st : σ × List CallResult) :
    SameRun (executeUnknown S.recording migration vm st)
      (executeUnknown S migration vm st.1) := by
  unfold executeUnknown
  split
  · exact sameRun_setMigrationPhase S migration _ _
  · split
    · exact sameRun_mk _ _ _ _
    · dsimp only [Services.recording]
      generalize S.GetRunningVMPods _ st.1 = p
      obtain ⟨r, s1⟩ := p
      rcases r with err | podList
      · exact sameRun_mk _ _ _ _
      · apply sameRun_after
        try dsimp only
        split
        · exact sameRun_mk _ _ _ _
        · split
          · exact sameRun_setMigrationPhase S migration _ _
          · split
            · generalize S.CreateMigrationTargetPod _ _ s1 = p
              obtain ⟨r, s2⟩ := p
              rcases r with _ | err
              · exact sameRun_after _ _ _ (sameRun_setMigrationPhase S migration _ _)
              · exact sameRun_mk _ _ _ _
            · exact sameRun_setMigrationPhase S migration _ _
        · split
          · exact sameRun_setMigrationPhase S migration _ _
          · exact sameRun_setMigrationPhase S migration _ _

/-- A run of `execute` on the recording services is the run on the plain
services: same error, same calls, same working copy, same cluster state. -/
theorem sameRun_execute (S : Services σ) (key : String) (st : σ × List CallResult) :
    SameRun (execute S.recording key st) (execute S key st.1) := by
  unfold execute
  dsimp only [Services.recording]
  split
  · exact sameRun_mk _ _ _ _
  · exact sameRun_mk _ _ _ _
  · split
    · exact sameRun_mk _ _ _ _
    · try dsimp only
      generalize S.FetchVM _ st.1 = p
      obtain ⟨r, s1⟩ := p
      rcases r with err | _ | vm
      · exact sameRun_mk _ _ _ _
      · exact sameRun_after _ _ _ (sameRun_setMigrationPhase S _ _ _)
      · apply sameRun_after
        try dsimp only
        split
        · exact sameRun_executeUnknown S _ _ _
        · exact sameRun_executeRunning S _ _ _
        · exact sameRun_mk _ _ _ _


theorem callFailed_setMigrationPhase (S : Services σ) (migration : Migration)
    (phase : MigrationPhase) (st : σ × List CallResult) (e : Err) :
    (setMigrationPhase S.recording migration phase st).err = some e →
      ∃ c, (setMigrationPhase S.recording migration phase st).state.2.getLast? =
        some (c, some e) := by
  rw [recording_setMigrationPhase]
  split <;> simp_all

theorem callFailed_executeJob (S : Services σ) (migration : Migration) (vm : VM)
    (targetPod : Pod) (st : σ × List CallResult) (e : Err) :
    (executeJob S.recording migration vm targetPod st).err = some e →
      ∃ c, (executeJob S.recording migration vm targetPod st).state.2.getLast? =
        some (c, some e) := by
  unfold executeJob
  simp only [setMigrationFailed, recording_setMigrationPhase]
  simp only [Services.recording]
  repeat' first
    | split
    | simp only [Outcome.after]
  all_goals
    try simp only [Prod.mk.injEq] at *
    try casesm* _ ∧ _
    subst_vars
    simp_all [errorOf]

theorem callFailed_executeRunning (S : Services σ) (migration : Migration) (vm : VM)
    (st : σ × List CallResult) (e : Err) :
    (executeRunning S.recording migration vm st).err = some e →
      (∃ c, (executeRunning S.recording migration vm st).state.2.getLast? =
        some (c, some e)) ∨ AnalysisFails S migration vm st.1 e := by
  unfold executeRunning
  simp only [setMigrationFailed]
  simp only [Services.recording]
  repeat' first
    | split
    | simp only [Outcome.after]
  all_goals
    try simp only [Prod.mk.injEq] at *
    try casesm* _ ∧ _
    subst_vars
    intro herr
    first
      | exact Or.inl (callFailed_setMigrationPhase S _ _ _ e herr)
      | exact Or.inl (callFailed_executeJob S _ _ _ _ e herr)
      | simp_all [AnalysisFails, errorOf]

theorem callFailed_executeUnknown (S : Services σ) (migration : Migration) (vm : VM)
    (st : σ × List CallResult) (e : Err) :
    (executeUnknown S.recording migration vm st).err = some e →
      (∃ c, (executeUnknown S.recording migration vm st).state.2.getLast? =
        some (c, some e)) ∨
      (vm.Status.Phase = VMPhase.Running ∧
        ((mergeConstraints migration vm).1 = some e ∨
          ((mergeConstraints migration vm).1 = none ∧
            AnalysisFails S migration (mergeConstraints migration vm).2 st.1 e))) := by
  unfold executeUnknown
  simp only [setMigrationFailed]
  simp only [Services.recording]
  repeat' first
    | split
    | simp only [Outcome.after]
  all_goals
    try simp only [Prod.mk.injEq] at *
    try casesm* _ ∧ _
    subst_vars
    intro herr
    first
      | exact Or.inl (callFailed_setMigrationPhase S _ _ _ e herr)
      | simp_all [AnalysisFails, errorOf]

theorem callFailed_execute (S : Services σ) (key : String) (st : σ × List CallResult)
    (e : Err) :
    (execute S.recording key st).err = some e →
      (∃ c, (execute S.recording key st).state.2.getLast? = some (c, some e)) ∨
        LocalFailure S key st.1 e := by
  unfold execute
  simp only [setMigrationFailed]
  simp only [Services.recording]
  repeat' first
    | split
    | simp only [Outcome.after]
  all_goals
    try simp only [Prod.mk.injEq] at *
    try casesm* _ ∧ _
    subst_vars
    intro herr
  · simp_all [LocalFailure]
  · simp_all
  · simp_all [LocalFailure]
  · simp_all [errorOf]
  · exact Or.inl (callFailed_setMigrationPhase S _ _ _ e herr)
  · rename_i hstore _ hcopy _ _ _ _ hphase hfetch
    rcases callFailed_executeUnknown S _ _ _ e herr with h | h
    · exact Or.inl h
    · right
      simp_all [LocalFailure]
  · rename_i hstore _ hcopy _ _ _ _ hphase hfetch
    rcases callFailed_executeRunning S _ _ _ e herr with h | h
    · exact Or.inl h
    · right
      simp_all [LocalFailure]
  · simp_all


theorem localFailure_execute (S : Services σ) (key : String) (s : σ) (e : Err)
    (h : LocalFailure S key s e) :
    (execute S.recording key (s, [])).err = some e ∧
      (∀ cr ∈ (execute S.recording key (s, [])).state.2, cr.2 = none) ∧
      (execute S.recording key (s, [])).state.2.length ≤ 2 := by
  rcases h with h | ⟨m, hstore, hcopy | ⟨hcopy, vm, hfetch,
    ⟨hph, hvm, hmerge | ⟨hmerge, podList, hlist, hsit⟩⟩ | ⟨hph, podList, hlist, hsit⟩⟩⟩
  · unfold execute
    simp [Services.recording, h]
  · unfold execute
    simp [Services.recording, hstore, hcopy]
  · have hpair : mergeConstraints m vm = (some e, (mergeConstraints m vm).2) :=
      Prod.ext hmerge rfl
    unfold execute executeUnknown
    simp only [Services.recording, hstore, hcopy, hfetch, hph, hvm]
    rw [hpair]
    simp [Outcome.after, errorOf]
  · have hpair : mergeConstraints m vm = (none, (mergeConstraints m vm).2) :=
      Prod.ext hmerge rfl
    unfold execute executeUnknown
    simp only [Services.recording, hstore, hcopy, hfetch, hph, hvm]
    rw [hpair] at hlist hsit ⊢
    simp [Outcome.after, errorOf, hlist, hsit]
  · unfold execute executeRunning
    simp only [Services.recording, hstore, hcopy, hfetch, hph]
    simp [Outcome.after, errorOf, hlist, hsit]

/-- C19 (amended): `execute` fails fast. Take the record of the service calls of one
invocation with the error each returned (the run on `S.recording`, which is the
run on `S`).  `execute` returns an error exactly when a recorded call returned
an error or a step that is no service call failed (`LocalFailure`: the cache
lookup, the copy, `mergeConstraints` finding conflicting selectors, the cache
lookup inside the situation analysis).  A recorded call that returned an error
is the last call made, every call before it succeeded, and its error is the one
`execute` returns.  When a step that is no service call fails, its error is the
one `execute` returns, every recorded call succeeded and there are at most two
of them (`FetchVM`, `GetRunningVMPods`). -/
theorem execute_fails_fast (S : Services σ) (key : String) (s : σ) :
    (execute S.recording key (s, [])).state.2.map Prod.fst = (execute S key s).calls ∧
    ((execute S key s).err ≠ none ↔
      (∃ c e, (c, some e) ∈ (execute S.recording key (s, [])).state.2) ∨
        ∃ e, LocalFailure S key s e) ∧
    (∀ c e, (c, some e) ∈ (execute S.recording key (s, [])).state.2 →
      (execute S key s).err = some e ∧
        (execute S.recording key (s, [])).state.2.getLast? = some (c, some e) ∧
        ∀ cr ∈ (execute S.recording key (s, [])).state.2.dropLast, cr.2 = none) ∧
    (∀ e, LocalFailure S key s e →
      (execute S key s).err = some e ∧
        (∀ cr ∈ (execute S.recording key (s, [])).state.2, cr.2 = none) ∧
        (execute S.recording key (s, [])).state.2.length ≤ 2) := by
  obtain ⟨herr, hcalls, _, _⟩ := sameRun_execute S key (s, [])
  obtain ⟨hff, hmap⟩ := failFast_execute S key s
  have hmem : ∀ c e, (c, some e) ∈ (execute S.recording key (s, [])).state.2 →
      (execute S key s).err = some e ∧
        (execute S.recording key (s, [])).state.2.getLast? = some (c, some e) ∧
        ∀ cr ∈ (execute S.recording key (s, [])).state.2.dropLast, cr.2 = none := by
    intro c e hc
    obtain ⟨h1, h2, h3⟩ := failFast_mem _ _ hff c e hc
    exact ⟨by rw [← herr]; exact h1, h2, h3⟩
  have hlocal : ∀ e, LocalFailure S key s e →
      (execute S key s).err = some e ∧
        (∀ cr ∈ (execute S.recording key (s, [])).state.2, cr.2 = none) ∧
        (execute S.recording key (s, [])).state.2.length ≤ 2 := by
    intro e he
    obtain ⟨h1, h2, h3⟩ := localFailure_execute S key s e he
    exact ⟨by rw [← herr]; exact h1, h2, h3⟩
  refine ⟨by rw [hmap, hcalls], ⟨?_, ?_⟩, hmem, hlocal⟩
  · intro hne
    obtain ⟨e, he⟩ := Option.ne_none_iff_exists'.mp hne
    rw [← herr] at he
    rcases callFailed_execute S key (s, []) e he with ⟨c, hc⟩ | hl
    · exact Or.inl ⟨c, e, List.mem_of_getLast?_eq_some hc⟩
    · exact Or.inr ⟨e, hl⟩
  · rintro (⟨c, e, hc⟩ | ⟨e, he⟩)
    · rw [(hmem c e hc).1]; simp
    · rw [(hlocal e he).1]; simp

end

/-- C19 (counterexample): the Migration `m1` is in phase Running and asks for
`zone=eu`, the VM asks for `zone=us`, the target pod is pending: the node
selectors conflict, no call fails, and `execute` returns no error. -/
theorem execute_running_conflict_no_error :
    execute
        (fixedServices [runningMigration selectorZoneEu]
          (some (vmWith VMPhase.Running selectorZoneUs "")) [targetPodOn PodPhase.PodPending ""]
          none)
        "default/m1" () =
      ⟨none, [Call.FetchVM "vm1", Call.GetRunningVMPods (vmWith VMPhase.Running selectorZoneUs "")],
        (), some (runningMigration selectorZoneEu)⟩ ∧
    ConflictingKey (runningMigration selectorZoneEu).Spec.NodeSelector
      (vmWith VMPhase.Running selectorZoneUs "").Spec.NodeSelector "zone" :=
  ⟨rfl, "eu", "us", rfl, rfl, by decide⟩

/-! ## Idempotence on the cluster -/

section
variable (fails : Call → Option Err)

theorem store_of_cached {c : Cluster} {key : String} {m : Migration} (h : Cached c key m) :
    (clusterServices fails).store c key = .ok (some m) := by
  obtain ⟨h1, h2⟩ := h
  simp [clusterServices, h1, h2, Option.filter]

theorem store_eq_some_iff (c : Cluster) (key : String) (m : Migration) :
    (clusterServices fails).store c key = .ok (some m) ↔ Cached c key m := by
  constructor
  · intro h
    simp only [clusterServices] at h
    cases hm : c.migration with
    | none => rw [hm] at h; simp [Option.filter] at h
    | some m0 =>
      rw [hm] at h
      simp only [Option.filter] at h
      split at h
      · next hk =>
        cases h
        exact ⟨hm, by simpa using hk⟩
      · cases h
  · exact store_of_cached fails

theorem clusterServices_schemeCopy (m : Migration) (c : Cluster) :
    (clusterServices fails).schemeCopy m c = none := rfl

theorem fetchVM_err (name : String) (c : Cluster) (err : Err)
    (h : fails (Call.FetchVM name) = some err) :
    (clusterServices fails).FetchVM name c = (.error err, c) := by
  simp [clusterServices, h]

theorem fetchVM_of_fetched {c : Cluster} {m : Migration} {vm : VM} (h : Fetched c m vm)
    (hok : fails (Call.FetchVM m.Spec.Selector.Name) = none) :
    (clusterServices fails).FetchVM m.Spec.Selector.Name c = (.ok (some vm), c) := by
  obtain ⟨h1, h2⟩ := h
  simp [clusterServices, hok, h1, h2, Option.filter]

theorem fetchVM_cases (c : Cluster) (m : Migration)
    (hok : fails (Call.FetchVM m.Spec.Selector.Name) = none) :
    (clusterServices fails).FetchVM m.Spec.Selector.Name c = (.ok none, c) ∨
      ∃ vm, Fetched c m vm := by
  cases hv : c.vm with
  | none => left; simp [clusterServices, hok, hv, Option.filter]
  | some vm =>
    by_cases hn : vm.ObjectMeta.Name = m.Spec.Selector.Name
    · exact Or.inr ⟨vm, hv, hn⟩
    · left; simp [clusterServices, hok, hv, hn, Option.filter]

theorem getRunningVMPods_cluster (vm : VM) (c : Cluster) :
    (clusterServices fails).GetRunningVMPods vm c =
      match fails (Call.GetRunningVMPods vm) with
      | some err => (.error err, c)
      | none => (.ok c.pods, c) := rfl

theorem getMigrationJob_cluster (m : Migration) (c : Cluster) :
    (clusterServices fails).GetMigrationJob m c =
      match fails (Call.GetMigrationJob m) with
      | some err => (.error err, c)
      | none => (.ok c.job, c) := rfl

theorem nodesGet_cluster (name : String) (c : Cluster) :
    (clusterServices fails).nodesGet name c =
      match fails (Call.nodesGet name) with
      | some err => (.error err, c)
      | none => (.ok ⟨name⟩, c) := rfl

theorem putVm_cluster (vm : VM) (c : Cluster) :
    (clusterServices fails).PutVm vm c =
      match fails (Call.PutVm vm) with
      | some err => (some err, c)
      | none => (none, { c with vm := some vm }) := rfl

theorem startMigration_cluster (m : Migration) (vm : VM) (src tgt : Node) (pod : Pod)
    (c : Cluster) :
    (clusterServices fails).StartMigration m vm src tgt pod c =
      match fails (Call.StartMigration m vm src tgt pod) with
      | some err => (some err, c)
      | none => (none, { c with job := some (newMigrationJob m) }) := rfl

theorem createMigrationTargetPod_cluster (m : Migration) (vm : VM) (c : Cluster) :
    (clusterServices fails).CreateMigrationTargetPod m vm c =
      match fails (Call.CreateMigrationTargetPod m vm) with
      | some err => (some err, c)
      | none =>
        if c.pods.any (carriesUID m) then (none, c)
        else (none, { c with pods := c.pods ++ [newTargetPod m vm] }) := rfl

theorem investigate_cluster (m : Migration) (podList : List Pod) (c : Cluster) :
    investigateTargetPodSituation m podList ((clusterServices fails).store c) =
      .ok (podList.countP (countsAsActive m ((clusterServices fails).store c)),
        lastMatching m podList) := by
  unfold investigateTargetPodSituation
  rw [investigateLoop_ok m ((clusterServices fails).store c) (fun key => ⟨_, rfl⟩) podList 0 none]
  simp

/-- The state that `setMigrationPhase` leaves on the cluster. -/
theorem state_setMigrationPhase_cluster (m : Migration) (phase : MigrationPhase) (c : Cluster) :
    (setMigrationPhase (clusterServices fails) m phase c).state =
      if m.Status.Phase = phase then c
      else
        match fails (Call.UpdateMigration (m.withPhase phase)) with
        | some _ => c
        | none => c.withPhase m phase := by
  rw [setMigrationPhase_state]
  split
  · rfl
  · show (match fails (Call.UpdateMigration (m.withPhase phase)) with
      | some err => ((some err : Option Err), c)
      | none => (none, { c with migration := some (m.withPhase phase) })).2 = _
    cases fails (Call.UpdateMigration (m.withPhase phase)) <;> rfl

/-- A pod that carries the UID label passes the UID test of the code. -/
theorem matchesUID_of_carriesUID (m : Migration) (pod : Pod) (h : carriesUID m pod = true) :
    matchesUID m pod = true := by
  simp only [carriesUID, decide_eq_true_eq] at h
  simp [matchesUID, ObjectMeta.label, h]

theorem any_carriesUID_of_lastMatching_none (m : Migration) (podList : List Pod)
    (h : lastMatching m podList = none) : podList.any (carriesUID m) = false := by
  rw [lastMatching, List.getLast?_eq_none_iff, List.filter_eq_nil_iff] at h
  rw [Bool.eq_false_iff]
  intro hany
  obtain ⟨pod, hpod, hc⟩ := List.any_eq_true.mp hany
  exact h pod hpod (matchesUID_of_carriesUID m pod hc)

/-- A reconciliation of a key that the cache does not hold changes nothing. -/
theorem reconcile_miss (c : Cluster) (key : String)
    (h : (clusterServices fails).store c key = .ok none) :
    reconcile (clusterServices fails) key c = c := by
  unfold reconcile execute
  simp [h]

theorem reconcile_fetch_err (c : Cluster) (key : String) (m : Migration) (err : Err)
    (hc : Cached c key m) (hf : fails (Call.FetchVM m.Spec.Selector.Name) = some err) :
    reconcile (clusterServices fails) key c = c := by
  unfold reconcile execute
  simp only [store_of_cached fails hc, clusterServices_schemeCopy,
    fetchVM_err fails _ c err hf]

theorem reconcile_absent (c : Cluster) (key : String) (m : Migration)
    (hc : Cached c key m)
    (hf : (clusterServices fails).FetchVM m.Spec.Selector.Name c = (.ok none, c)) :
    reconcile (clusterServices fails) key c =
      (setMigrationPhase (clusterServices fails) m MigrationPhase.MigrationFailed c).state := by
  unfold reconcile execute
  simp only [store_of_cached fails hc, hf, clusterServices_schemeCopy, Outcome.after,
    setMigrationFailed]

theorem reconcile_terminal (c : Cluster) (key : String) (m : Migration) (vm : VM)
    (hc : Cached c key m) (hf : Fetched c m vm)
    (hp : m.Status.Phase = MigrationPhase.MigrationFailed ∨
      m.Status.Phase = MigrationPhase.MigrationSucceeded) :
    reconcile (clusterServices fails) key c = c := by
  cases hok : fails (Call.FetchVM m.Spec.Selector.Name) with
  | some err => exact reconcile_fetch_err fails c key m err hc hok
  | none =>
    unfold reconcile execute
    simp only [store_of_cached fails hc, fetchVM_of_fetched fails hf hok,
      clusterServices_schemeCopy, Outcome.after]
    rcases hp with hp | hp <;> simp [hp]

end
section
variable (fails : Call → Option Err)

/-- The Unknown case on the cluster, as a transition of the state. -/
theorem reconcile_unknown (c : Cluster) (key : String) (m : Migration) (vm : VM)
    (hc : Cached c key m) (hf : Fetched c m vm)
    (hok : fails (Call.FetchVM m.Spec.Selector.Name) = none)
    (hp : m.Status.Phase = MigrationPhase.MigrationUnknown) :
    reconcile (clusterServices fails) key c =
      if vm.Status.Phase ≠ VMPhase.Running then
        (setMigrationPhase (clusterServices fails) m MigrationPhase.MigrationFailed c).state
      else if (mergeConstraints m vm).1 ≠ none then c
      else
        match fails (Call.GetRunningVMPods (mergeConstraints m vm).2) with
        | some _ => c
        | none =>
          match lastMatching m c.pods with
          | none =>
            if c.pods.countP (countsAsActive m ((clusterServices fails).store c)) ≥ 1 then
              (setMigrationPhase (clusterServices fails) m MigrationPhase.MigrationFailed c).state
            else
              match fails (Call.CreateMigrationTargetPod m (mergeConstraints m vm).2) with
              | some _ => c
              | none =>
                (setMigrationPhase (clusterServices fails) m MigrationPhase.MigrationRunning
                  { c with pods := c.pods ++ [newTargetPod m (mergeConstraints m vm).2] }).state
          | some pod =>
            if pod.Status.Phase = PodPhase.PodFailed then
              (setMigrationPhase (clusterServices fails) m MigrationPhase.MigrationFailed c).state
            else
              (setMigrationPhase (clusterServices fails) m MigrationPhase.MigrationRunning
                c).state := by
  unfold reconcile execute
  simp only [store_of_cached fails hc, fetchVM_of_fetched fails hf hok,
    clusterServices_schemeCopy, hp, Outcome.after]
  unfold executeUnknown
  by_cases hvm : vm.Status.Phase ≠ VMPhase.Running
  · simp only [if_pos hvm, setMigrationFailed]
  · simp only [if_neg hvm]
    rcases hmerge : mergeConstraints m vm with ⟨merr, vm1⟩
    cases merr with
    | some err => simp
    | none =>
      simp only [getRunningVMPods_cluster]
      cases hlist : fails (Call.GetRunningVMPods vm1) with
      | some err => simp
      | none =>
        simp only [investigate_cluster, Outcome.after]
        cases hlast : lastMatching m c.pods with
        | none =>
          simp only [ne_eq, not_true_eq_false, if_false]
          by_cases hn : c.pods.countP (countsAsActive m ((clusterServices fails).store c)) ≥ 1
          · simp only [if_pos hn, setMigrationFailed]
          · have h0 : c.pods.countP (countsAsActive m ((clusterServices fails).store c)) = 0 := by
              omega
            simp only [if_neg hn, h0, if_true, createMigrationTargetPod_cluster,
              any_carriesUID_of_lastMatching_none m c.pods hlast]
            cases hcreate : fails (Call.CreateMigrationTargetPod m vm1) with
            | some err => simp
            | none => simp [Outcome.after]
        | some pod =>
          simp only [ne_eq, not_true_eq_false, if_false]
          by_cases hpf : pod.Status.Phase = PodPhase.PodFailed
          · simp only [if_pos hpf, setMigrationFailed]
          · simp only [if_neg hpf]

/-- The job part of the Running case on the cluster, as a transition of the
state. -/
theorem state_executeJob_cluster (m : Migration) (vm : VM) (pod : Pod) (c : Cluster) :
    (executeJob (clusterServices fails) m vm pod c).state =
      match fails (Call.GetMigrationJob m) with
      | some _ => c
      | none =>
        match c.job with
        | none =>
          match fails (Call.nodesGet vm.Status.NodeName),
            fails (Call.nodesGet vm.Status.MigrationNodeName),
            fails (Call.StartMigration m vm ⟨vm.Status.NodeName⟩ ⟨vm.Status.MigrationNodeName⟩
              pod) with
          | none, none, none => { c with job := some (newMigrationJob m) }
          | _, _, _ => c
        | some job =>
          match job.Status.Phase with
          | PodPhase.PodFailed =>
            match fails (Call.PutVm vm.rolledBack) with
            | some _ => c
            | none =>
              (setMigrationPhase (clusterServices fails) m MigrationPhase.MigrationFailed
                { c with vm := some vm.rolledBack }).state
          | PodPhase.PodSucceeded =>
            match fails (Call.PutVm (vm.committedOn pod.Spec.NodeName)) with
            | some _ => c
            | none =>
              (setMigrationPhase (clusterServices fails) m MigrationPhase.MigrationSucceeded
                { c with vm := some (vm.committedOn pod.Spec.NodeName) }).state
          | _ => c := by
  obtain ⟨cm, cv, cp, cj⟩ := c
  unfold executeJob
  simp only [getMigrationJob_cluster]
  cases hjob : fails (Call.GetMigrationJob m) with
  | some err => rfl
  | none =>
    cases cj with
    | none =>
      simp only [Outcome.after, nodesGet_cluster, startMigration_cluster]
      cases h1 : fails (Call.nodesGet vm.Status.NodeName) with
      | some err => rfl
      | none =>
        cases h2 : fails (Call.nodesGet vm.Status.MigrationNodeName) with
        | some err => rfl
        | none =>
          simp only []
          cases h3 : fails (Call.StartMigration m vm ⟨vm.Status.NodeName⟩
            ⟨vm.Status.MigrationNodeName⟩ pod) <;> rfl
    | some job =>
      simp only [Outcome.after]
      cases hph : job.Status.Phase
      case PodFailed =>
        simp only [putVm_cluster, VM.rolledBack]
        cases h1 : fails (Call.PutVm
          { vm with Status := { vm.Status with Phase := VMPhase.Running,
                                                MigrationNodeName := "" } }) with
        | some err => rfl
        | none => simp only [Outcome.after, setMigrationFailed]
      case PodSucceeded =>
        simp only [putVm_cluster, VM.committedOn]
        cases h1 : fails (Call.PutVm
          { vm with
            Status :=
              { NodeName := pod.Spec.NodeName, MigrationNodeName := "",
                Phase := VMPhase.Running }
            ObjectMeta :=
              { vm.ObjectMeta with
                Labels :=
                  some (((vm.ObjectMeta.Labels.getD ∅)).insert NodeNameLabel
                    pod.Spec.NodeName) } }) with
        | some err => rfl
        | none => simp only [Outcome.after]
      all_goals rfl

/-- The Running case on the cluster, as a transition of the state. -/
theorem reconcile_running (c : Cluster) (key : String) (m : Migration) (vm : VM)
    (hc : Cached c key m) (hf : Fetched c m vm)
    (hok : fails (Call.FetchVM m.Spec.Selector.Name) = none)
    (hp : m.Status.Phase = MigrationPhase.MigrationRunning) :
    reconcile (clusterServices fails) key c =
      match fails (Call.GetRunningVMPods vm) with
      | some _ => c
      | none =>
        match lastMatching m c.pods with
        | none =>
          (setMigrationPhase (clusterServices fails) m MigrationPhase.MigrationFailed c).state
        | some pod =>
          match pod.Status.Phase with
          | PodPhase.PodRunning =>
            if vm.Status.MigrationNodeName = pod.Spec.NodeName then
              (executeJob (clusterServices fails) m vm pod c).state
            else
              match fails (Call.PutVm (vm.migratingTo pod.Spec.NodeName)) with
              | some _ => c
              | none =>
                (executeJob (clusterServices fails) m (vm.migratingTo pod.Spec.NodeName) pod
                  { c with vm := some (vm.migratingTo pod.Spec.NodeName) }).state
          | PodPhase.PodSucceeded =>
            (setMigrationPhase (clusterServices fails) m MigrationPhase.MigrationFailed c).state
          | PodPhase.PodFailed =>
            (setMigrationPhase (clusterServices fails) m MigrationPhase.MigrationFailed c).state
          | _ => c := by
  unfold reconcile execute
  simp only [store_of_cached fails hc, fetchVM_of_fetched fails hf hok,
    clusterServices_schemeCopy, hp, Outcome.after]
  unfold executeRunning
  simp only [getRunningVMPods_cluster]
  cases hlist : fails (Call.GetRunningVMPods vm) with
  | some err => rfl
  | none =>
    simp only [investigate_cluster, Outcome.after]
    cases hlast : lastMatching m c.pods with
    | none => simp only [setMigrationFailed]
    | some pod =>
      cases hph : pod.Status.Phase
      case PodRunning =>
        simp only [hph]
        by_cases hnode : vm.Status.MigrationNodeName = pod.Spec.NodeName
        · simp [hnode]
        · simp only [ne_eq, hnode, not_false_eq_true, if_true, if_false, putVm_cluster,
            VM.migratingTo]
          cases h1 : fails (Call.PutVm
            { vm with Status := { vm.Status with Phase := VMPhase.Migrating,
                                                  MigrationNodeName := pod.Spec.NodeName } }) with
          | some err => simp
          | none => simp [Outcome.after]
      all_goals simp only [hph, setMigrationFailed]

end
section
variable (fails : Call → Option Err)

theorem state_setMigrationPhase_of_ne (m : Migration) (phase : MigrationPhase) (c : Cluster)
    (h : m.Status.Phase ≠ phase) :
    (setMigrationPhase (clusterServices fails) m phase c).state =
      match fails (Call.UpdateMigration (m.withPhase phase)) with
      | some _ => c
      | none => c.withPhase m phase := by
  rw [state_setMigrationPhase_cluster, if_neg h]

theorem lastMatching_withPhase (m : Migration) (phase : MigrationPhase) (podList : List Pod) :
    lastMatching (m.withPhase phase) podList = lastMatching m podList := rfl

theorem lastMatching_append_newTargetPod (m : Migration) (vm : VM) (podList : List Pod) :
    lastMatching m (podList ++ [newTargetPod m vm]) = some (newTargetPod m vm) := by
  have hmatch : matchesUID m (newTargetPod m vm) = true := by
    simp [matchesUID, newTargetPod, targetPodLabels, ObjectMeta.label, ObjectMeta.label?]
  simp [lastMatching, List.filter_append, hmatch]

theorem cached_withPhase (c : Cluster) (key : String) (m : Migration) (phase : MigrationPhase)
    (hc : Cached c key m) : Cached (c.withPhase m phase) key (m.withPhase phase) :=
  ⟨rfl, hc.2⟩

theorem rolledBack_migratingTo (vm : VM) (nodeName : String) :
    (vm.migratingTo nodeName).rolledBack = vm.rolledBack := rfl

theorem rolledBack_rolledBack (vm : VM) : vm.rolledBack.rolledBack = vm.rolledBack := rfl

theorem committedOn_migratingTo (vm : VM) (nodeName target : String) :
    (vm.migratingTo target).committedOn nodeName = vm.committedOn nodeName := rfl

theorem committedOn_committedOn (vm : VM) (nodeName : String) :
    (vm.committedOn nodeName).committedOn nodeName = vm.committedOn nodeName := by
  simp [VM.committedOn, AList.insert_insert]

theorem putVm_same (c : Cluster) (vm : VM) (h : c.vm = some vm) :
    ({ c with vm := some vm } : Cluster) = c := by
  cases c
  simp_all

/-- A Migration in phase Failed is left alone, whatever fails. -/
theorem stable_failed (c : Cluster) (key : String) (m : Migration) (hc : Cached c key m)
    (hp : m.Status.Phase = MigrationPhase.MigrationFailed) :
    reconcile (clusterServices fails) key c = c := by
  cases hok : fails (Call.FetchVM m.Spec.Selector.Name) with
  | some err => exact reconcile_fetch_err fails c key m err hc hok
  | none =>
    rcases fetchVM_cases fails c m hok with hf | ⟨vm, hf⟩
    · rw [reconcile_absent fails c key m hc hf, state_setMigrationPhase_cluster, if_pos hp]
    · exact reconcile_terminal fails c key m vm hc hf (Or.inl hp)

/-- A Migration in phase Running whose target pod is pending or unknown is left
alone. -/
theorem stable_running_waiting (c : Cluster) (key : String) (m : Migration) (vm : VM)
    (pod : Pod) (hc : Cached c key m) (hf : Fetched c m vm)
    (hp : m.Status.Phase = MigrationPhase.MigrationRunning)
    (hlast : lastMatching m c.pods = some pod)
    (hpod : pod.Status.Phase = PodPhase.PodPending ∨ pod.Status.Phase = PodPhase.PodUnknown) :
    reconcile (clusterServices fails) key c = c := by
  cases hok : fails (Call.FetchVM m.Spec.Selector.Name) with
  | some err => exact reconcile_fetch_err fails c key m err hc hok
  | none =>
    rw [reconcile_running fails c key m vm hc hf hok hp]
    cases hlist : fails (Call.GetRunningVMPods vm) with
    | some err => rfl
    | none => rcases hpod with h | h <;> simp [hlast, h]

/-- A Migration in phase Running whose VM points at the node of the running
target pod is left alone when the job part leaves the cluster alone. -/
theorem stable_running_job (c : Cluster) (key : String) (m : Migration) (vm : VM)
    (pod : Pod) (hc : Cached c key m) (hf : Fetched c m vm)
    (hp : m.Status.Phase = MigrationPhase.MigrationRunning)
    (hlast : lastMatching m c.pods = some pod)
    (hpod : pod.Status.Phase = PodPhase.PodRunning)
    (hnode : vm.Status.MigrationNodeName = pod.Spec.NodeName)
    (hjob : (executeJob (clusterServices fails) m vm pod c).state = c) :
    reconcile (clusterServices fails) key c = c := by
  cases hok : fails (Call.FetchVM m.Spec.Selector.Name) with
  | some err => exact reconcile_fetch_err fails c key m err hc hok
  | none =>
    rw [reconcile_running fails c key m vm hc hf hok hp]
    cases hlist : fails (Call.GetRunningVMPods vm) with
    | some err => rfl
    | none => simp [hlast, hpod, hnode, hjob]

/-- The job part leaves the cluster alone while the job is in a phase other
than Failed and Succeeded. -/
theorem state_executeJob_pending (m : Migration) (vm : VM) (pod : Pod) (c : Cluster)
    (h : JobPending c) : (executeJob (clusterServices fails) m vm pod c).state = c := by
  obtain ⟨job, hjob, h1, h2⟩ := h
  have hjob : c.job = some job := hjob
  rw [state_executeJob_cluster]
  cases hmj : fails (Call.GetMigrationJob m) with
  | some err => rfl
  | none =>
    cases hph : job.Status.Phase <;> simp_all

/-- A Migration in phase Unknown that cannot be persisted in phase Running
stays as it is. -/
theorem stable_unknown_stuck (c : Cluster) (key : String) (m : Migration) (vm : VM)
    (pod : Pod) (err : Err) (hc : Cached c key m) (hf : Fetched c m vm)
    (hp : m.Status.Phase = MigrationPhase.MigrationUnknown)
    (hvm : vm.Status.Phase = VMPhase.Running)
    (hmerge : (mergeConstraints m vm).1 = none)
    (hlast : lastMatching m c.pods = some pod)
    (hpod : pod.Status.Phase ≠ PodPhase.PodFailed)
    (hupd : fails (Call.UpdateMigration (m.withPhase MigrationPhase.MigrationRunning)) =
      some err) :
    reconcile (clusterServices fails) key c = c := by
  have hne : m.Status.Phase ≠ MigrationPhase.MigrationRunning := by rw [hp]; decide
  cases hok : fails (Call.FetchVM m.Spec.Selector.Name) with
  | some err => exact reconcile_fetch_err fails c key m err hc hok
  | none =>
    rw [reconcile_unknown fails c key m vm hc hf hok hp]
    cases hlist : fails (Call.GetRunningVMPods (mergeConstraints m vm).2) with
    | some err => simp [hvm, hmerge]
    | none =>
      simp [hvm, hmerge, hlast, hpod, state_setMigrationPhase_of_ne fails m _ c hne, hupd]

end
section
variable (fails : Call → Option Err)

/-- A rolled-back VM whose Migration could not be persisted in phase Failed: the
next run rolls the VM back again and fails on the same update. -/
theorem stable_rolledBack (c : Cluster) (key : String) (m : Migration) (vm : VM)
    (pod job : Pod) (err : Err) (hc : Cached c key m) (hf : Fetched c m vm)
    (hp : m.Status.Phase = MigrationPhase.MigrationRunning)
    (hlast : lastMatching m c.pods = some pod)
    (hpod : pod.Status.Phase = PodPhase.PodRunning)
    (hjob : c.job = some job) (hjp : job.Status.Phase = PodPhase.PodFailed)
    (hvm : vm.rolledBack = vm)
    (hmj : fails (Call.GetMigrationJob m) = none)
    (hput : fails (Call.PutVm vm) = none)
    (hupd : fails (Call.UpdateMigration (m.withPhase MigrationPhase.MigrationFailed)) =
      some err) :
    reconcile (clusterServices fails) key c = c := by
  have hne : m.Status.Phase ≠ MigrationPhase.MigrationFailed := by rw [hp]; decide
  cases hok : fails (Call.FetchVM m.Spec.Selector.Name) with
  | some err => exact reconcile_fetch_err fails c key m err hc hok
  | none =>
    rw [reconcile_running fails c key m vm hc hf hok hp]
    cases hlist : fails (Call.GetRunningVMPods vm) with
    | some err => rfl
    | none =>
      simp only [hlast, hpod]
      by_cases hnode : vm.Status.MigrationNodeName = pod.Spec.NodeName
      · rw [if_pos hnode, state_executeJob_cluster]
        simp only [hmj, hjob, hjp, hvm, hput, state_setMigrationPhase_of_ne fails m _ _ hne, hupd]
        rw [← hjob]
        exact putVm_same c vm hf.1
      · rw [if_neg hnode]
        cases hput2 : fails (Call.PutVm (vm.migratingTo pod.Spec.NodeName)) with
        | some err => rfl
        | none =>
          simp only []
          rw [state_executeJob_cluster]
          simp only [hmj, hjob, hjp, rolledBack_migratingTo, hvm, hput,
            state_setMigrationPhase_of_ne fails m _ _ hne, hupd]
          rw [← hjob]
          exact putVm_same c vm hf.1

/-- A committed VM whose Migration could not be persisted in phase Succeeded:
the next run commits the VM again and fails on the same update. -/
theorem stable_committed (c : Cluster) (key : String) (m : Migration) (vm : VM)
    (pod job : Pod) (err : Err) (hc : Cached c key m) (hf : Fetched c m vm)
    (hp : m.Status.Phase = MigrationPhase.MigrationRunning)
    (hlast : lastMatching m c.pods = some pod)
    (hpod : pod.Status.Phase = PodPhase.PodRunning)
    (hjob : c.job = some job) (hjp : job.Status.Phase = PodPhase.PodSucceeded)
    (hvm : vm.committedOn pod.Spec.NodeName = vm)
    (hmj : fails (Call.GetMigrationJob m) = none)
    (hput : fails (Call.PutVm vm) = none)
    (hupd : fails (Call.UpdateMigration (m.withPhase MigrationPhase.MigrationSucceeded)) =
      some err) :
    reconcile (clusterServices fails) key c = c := by
  have hne : m.Status.Phase ≠ MigrationPhase.MigrationSucceeded := by rw [hp]; decide
  cases hok : fails (Call.FetchVM m.Spec.Selector.Name) with
  | some err => exact reconcile_fetch_err fails c key m err hc hok
  | none =>
    rw [reconcile_running fails c key m vm hc hf hok hp]
    cases hlist : fails (Call.GetRunningVMPods vm) with
    | some err => rfl
    | none =>
      simp only [hlast, hpod]
      by_cases hnode : vm.Status.MigrationNodeName = pod.Spec.NodeName
      · rw [if_pos hnode, state_executeJob_cluster]
        simp only [hmj, hjob, hjp, hvm, hput, state_setMigrationPhase_of_ne fails m _ _ hne, hupd]
        rw [← hjob]
        exact putVm_same c vm hf.1
      · rw [if_neg hnode]
        cases hput2 : fails (Call.PutVm (vm.migratingTo pod.Spec.NodeName)) with
        | some err => rfl
        | none =>
          simp only []
          rw [state_executeJob_cluster]
          simp only [hmj, hjob, hjp, committedOn_migratingTo, hvm, hput,
            state_setMigrationPhase_of_ne fails m _ _ hne, hupd]
          rw [← hjob]
          exact putVm_same c vm hf.1

/-- A run that ends in `setMigrationFailed` on a cluster `c0` is followed by a
run that changes nothing, provided that `c0` itself is left alone when it comes
out unchanged. -/
theorem idempotent_of_setFailed (c c0 : Cluster) (key : String) (m : Migration)
    (hc0 : Cached c0 key m)
    (h : reconcile (clusterServices fails) key c =
      (setMigrationPhase (clusterServices fails) m MigrationPhase.MigrationFailed c0).state)
    (hstay : (setMigrationPhase (clusterServices fails) m MigrationPhase.MigrationFailed c0).state
        = c0 → reconcile (clusterServices fails) key c0 = c0) :
    reconcile (clusterServices fails) key (reconcile (clusterServices fails) key c) =
      reconcile (clusterServices fails) key c := by
  have hs := state_setMigrationPhase_cluster fails m MigrationPhase.MigrationFailed c0
  by_cases hp : m.Status.Phase = MigrationPhase.MigrationFailed
  · rw [if_pos hp] at hs
    rw [h, hs]
    exact hstay hs
  · rw [if_neg hp] at hs
    cases hupd : fails (Call.UpdateMigration (m.withPhase MigrationPhase.MigrationFailed)) with
    | some err =>
      simp only [hupd] at hs
      rw [h, hs]
      exact hstay hs
    | none =>
      simp only [hupd] at hs
      rw [h, hs]
      exact stable_failed fails _ key _ (cached_withPhase c0 key m _ hc0) rfl

end
section
variable (fails : Call → Option Err)

/-- A run that ends in the job part, entered on the cluster `c0` with a VM that
points at the node of the running target pod, is followed by a run that changes
nothing. -/
theorem idempotent_of_job (c c0 : Cluster) (key : String) (m : Migration) (vm : VM)
    (pod : Pod) (hc0 : Cached c0 key m) (hf0 : Fetched c0 m vm)
    (hp : m.Status.Phase = MigrationPhase.MigrationRunning)
    (hlast : lastMatching m c0.pods = some pod)
    (hpod : pod.Status.Phase = PodPhase.PodRunning)
    (hnode : vm.Status.MigrationNodeName = pod.Spec.NodeName)
    (h : reconcile (clusterServices fails) key c =
      (executeJob (clusterServices fails) m vm pod c0).state) :
    reconcile (clusterServices fails) key (reconcile (clusterServices fails) key c) =
      reconcile (clusterServices fails) key c := by
  have hne1 : m.Status.Phase ≠ MigrationPhase.MigrationFailed := by rw [hp]; decide
  have hne2 : m.Status.Phase ≠ MigrationPhase.MigrationSucceeded := by rw [hp]; decide
  have hstay : (executeJob (clusterServices fails) m vm pod c0).state = c0 →
      reconcile (clusterServices fails) key (reconcile (clusterServices fails) key c) =
        reconcile (clusterServices fails) key c := by
    intro he
    have h2 := stable_running_job fails c0 key m vm pod hc0 hf0 hp hlast hpod hnode he
    rw [h, he, h2]
  have hL := state_executeJob_cluster fails m vm pod c0
  cases hmj : fails (Call.GetMigrationJob m) with
  | some err =>
    apply hstay
    simp only [hL, hmj]
  | none =>
    simp only [hmj] at hL
    cases hjob : c0.job with
    | none =>
      simp only [hjob] at hL
      cases h1 : fails (Call.nodesGet vm.Status.NodeName) with
      | some err => exact hstay (by simp only [hL, h1])
      | none =>
        cases h2 : fails (Call.nodesGet vm.Status.MigrationNodeName) with
        | some err => exact hstay (by simp only [hL, h1, h2])
        | none =>
          cases h3 : fails (Call.StartMigration m vm ⟨vm.Status.NodeName⟩
            ⟨vm.Status.MigrationNodeName⟩ pod) with
          | some err => exact hstay (by simp only [hL, h1, h2, h3])
          | none =>
            simp only [h1, h2, h3] at hL
            rw [h, hL]
            refine stable_running_job fails _ key m vm pod ⟨hc0.1, hc0.2⟩ ⟨hf0.1, hf0.2⟩ hp
              hlast hpod hnode ?_
            exact state_executeJob_pending fails m vm pod _
              ⟨newMigrationJob m, rfl, by simp [newMigrationJob], by simp [newMigrationJob]⟩
    | some job =>
      simp only [hjob] at hL
      cases hjp : job.Status.Phase
      case PodFailed =>
        simp only [hjp] at hL
        cases hput : fails (Call.PutVm vm.rolledBack) with
        | some err => exact hstay (by simp only [hL, hput])
        | none =>
          simp only [hput, state_setMigrationPhase_of_ne fails m _ _ hne1] at hL
          cases hupd : fails (Call.UpdateMigration
            (m.withPhase MigrationPhase.MigrationFailed)) with
          | some err =>
            simp only [hupd] at hL
            rw [h, hL]
            exact stable_rolledBack fails _ key m vm.rolledBack pod job err ⟨hc0.1, hc0.2⟩
              ⟨rfl, hf0.2⟩ hp hlast hpod rfl hjp rfl hmj hput hupd
          | none =>
            simp only [hupd] at hL
            rw [h, hL]
            exact stable_failed fails _ key (m.withPhase MigrationPhase.MigrationFailed)
              ⟨rfl, hc0.2⟩ rfl
      case PodSucceeded =>
        simp only [hjp] at hL
        cases hput : fails (Call.PutVm (vm.committedOn pod.Spec.NodeName)) with
        | some err => exact hstay (by simp only [hL, hput])
        | none =>
          simp only [hput, state_setMigrationPhase_of_ne fails m _ _ hne2] at hL
          cases hupd : fails (Call.UpdateMigration
            (m.withPhase MigrationPhase.MigrationSucceeded)) with
          | some err =>
            simp only [hupd] at hL
            rw [h, hL]
            exact stable_committed fails _ key m (vm.committedOn pod.Spec.NodeName) pod job err
              ⟨hc0.1, hc0.2⟩ ⟨rfl, hf0.2⟩ hp hlast hpod rfl hjp
              (committedOn_committedOn vm pod.Spec.NodeName) hmj hput hupd
          | none =>
            simp only [hupd] at hL
            rw [h, hL]
            exact reconcile_terminal fails _ key (m.withPhase MigrationPhase.MigrationSucceeded)
              (vm.committedOn pod.Spec.NodeName) ⟨rfl, hc0.2⟩ ⟨rfl, hf0.2⟩ (Or.inr rfl)
      all_goals
        simp only [hjp] at hL
        exact hstay hL

end
theorem reentry_iff (c : Cluster) (key : String) :
    Reentry c key ↔
      ∃ m vm pod, Cached c key m ∧ Fetched c m vm ∧
        m.Status.Phase = MigrationPhase.MigrationUnknown ∧
        vm.Status.Phase = VMPhase.Running ∧
        (mergeConstraints m vm).1 = none ∧
        lastMatching m c.pods = some pod ∧
        (pod.Status.Phase = PodPhase.PodSucceeded ∨
          (pod.Status.Phase = PodPhase.PodRunning ∧
            ¬ (vm.Status.MigrationNodeName = pod.Spec.NodeName ∧ JobPending c))) := by
  constructor
  · rintro ⟨m, hm, vm, hvm, pod, hpod, h1, h2, h3, h4, h5, h6⟩
    exact ⟨m, vm, pod, ⟨hm, h1⟩, ⟨hvm, h2⟩, h3, h4, h5, hpod, h6⟩
  · rintro ⟨m, vm, pod, ⟨hm, h1⟩, ⟨hvm, h2⟩, h3, h4, h5, hpod, h6⟩
    exact ⟨m, hm, vm, hvm, pod, hpod, h1, h2, h3, h4, h5, h6⟩

section
variable (fails : Call → Option Err)

/-- Outside the re-entry case a second run changes nothing, whichever calls
fail. -/
theorem idempotent_of_not_reentry (c : Cluster) (key : String) (hex : ¬ Reentry c key) :
    reconcile (clusterServices fails) key (reconcile (clusterServices fails) key c) =
      reconcile (clusterServices fails) key c := by
  rw [reentry_iff] at hex
  have hsame : ∀ c1, reconcile (clusterServices fails) key c = c1 →
      reconcile (clusterServices fails) key c1 = c1 →
      reconcile (clusterServices fails) key (reconcile (clusterServices fails) key c) =
        reconcile (clusterServices fails) key c := by
    intro c1 h1 h2
    rw [h1, h2]
  have hfailed : ∀ m, Cached c key m →
      reconcile (clusterServices fails) key c =
        (setMigrationPhase (clusterServices fails) m MigrationPhase.MigrationFailed c).state →
      reconcile (clusterServices fails) key (reconcile (clusterServices fails) key c) =
        reconcile (clusterServices fails) key c := by
    intro m hc h
    exact idempotent_of_setFailed fails c c key m hc h (fun hs => by rw [h, hs])
  cases hstore : (clusterServices fails).store c key with
  | error err => simp [clusterServices] at hstore
  | ok om =>
    cases om with
    | none => exact hsame c (reconcile_miss fails c key hstore) (reconcile_miss fails c key hstore)
    | some m =>
      have hc : Cached c key m := (store_eq_some_iff fails c key m).mp hstore
      cases hok : fails (Call.FetchVM m.Spec.Selector.Name) with
      | some err =>
        have h := reconcile_fetch_err fails c key m err hc hok
        exact hsame c h h
      | none =>
        rcases fetchVM_cases fails c m hok with hf | ⟨vm, hf⟩
        · exact hfailed m hc (reconcile_absent fails c key m hc hf)
        · cases hp : m.Status.Phase
          case MigrationFailed =>
            have h := reconcile_terminal fails c key m vm hc hf (Or.inl hp)
            exact hsame c h h
          case MigrationSucceeded =>
            have h := reconcile_terminal fails c key m vm hc hf (Or.inr hp)
            exact hsame c h h
          case MigrationUnknown =>
            have hne : m.Status.Phase ≠ MigrationPhase.MigrationRunning := by rw [hp]; decide
            have h := reconcile_unknown fails c key m vm hc hf hok hp
            by_cases hvm : vm.Status.Phase ≠ VMPhase.Running
            · rw [if_pos hvm] at h
              exact hfailed m hc h
            · rw [if_neg hvm] at h
              have hvmR : vm.Status.Phase = VMPhase.Running := not_not.mp hvm
              by_cases hmerge : (mergeConstraints m vm).1 ≠ none
              · rw [if_pos hmerge] at h
                exact hsame c h h
              · rw [if_neg hmerge] at h
                have hmergeN : (mergeConstraints m vm).1 = none := not_not.mp hmerge
                cases hlist : fails (Call.GetRunningVMPods (mergeConstraints m vm).2) with
                | some err =>
                  simp only [hlist] at h
                  exact hsame c h h
                | none =>
                  simp only [hlist] at h
                  cases hlast : lastMatching m c.pods with
                  | none =>
                    simp only [hlast] at h
                    by_cases hn :
                        c.pods.countP (countsAsActive m ((clusterServices fails).store c)) ≥ 1
                    · rw [if_pos hn] at h
                      exact hfailed m hc h
                    · rw [if_neg hn] at h
                      cases hcreate : fails (Call.CreateMigrationTargetPod m
                        (mergeConstraints m vm).2) with
                      | some err =>
                        simp only [hcreate] at h
                        exact hsame c h h
                      | none =>
                        simp only [hcreate, state_setMigrationPhase_of_ne fails m _ _ hne] at h
                        cases hupd : fails (Call.UpdateMigration
                          (m.withPhase MigrationPhase.MigrationRunning)) with
                        | some err =>
                          simp only [hupd] at h
                          refine hsame _ h ?_
                          exact stable_unknown_stuck fails _ key m vm
                            (newTargetPod m (mergeConstraints m vm).2) err ⟨hc.1, hc.2⟩
                            ⟨hf.1, hf.2⟩ hp hvmR hmergeN
                            (lastMatching_append_newTargetPod _ _ _)
                            (by simp [newTargetPod]) hupd
                        | none =>
                          simp only [hupd] at h
                          refine hsame _ h ?_
                          exact stable_running_waiting fails _ key
                            (m.withPhase MigrationPhase.MigrationRunning) vm
                            (newTargetPod m (mergeConstraints m vm).2) ⟨rfl, hc.2⟩
                            ⟨hf.1, hf.2⟩ rfl
                            (by
                              rw [lastMatching_withPhase]
                              exact lastMatching_append_newTargetPod _ _ _)
                            (Or.inl rfl)
                  | some pod =>
                    simp only [hlast] at h
                    by_cases hpf : pod.Status.Phase = PodPhase.PodFailed
                    · rw [if_pos hpf] at h
                      exact hfailed m hc h
                    · rw [if_neg hpf, state_setMigrationPhase_of_ne fails m _ _ hne] at h
                      cases hupd : fails (Call.UpdateMigration
                        (m.withPhase MigrationPhase.MigrationRunning)) with
                      | some err =>
                        simp only [hupd] at h
                        exact hsame c h h
                      | none =>
                        simp only [hupd] at h
                        refine hsame _ h ?_
                        have hns : pod.Status.Phase ≠ PodPhase.PodSucceeded := fun hs =>
                          hex ⟨m, vm, pod, hc, hf, hp, hvmR, hmergeN, hlast, Or.inl hs⟩
                        have hnr : pod.Status.Phase = PodPhase.PodRunning →
                            vm.Status.MigrationNodeName = pod.Spec.NodeName ∧ JobPending c := by
                          intro hr
                          by_contra hcon
                          exact hex ⟨m, vm, pod, hc, hf, hp, hvmR, hmergeN, hlast,
                            Or.inr ⟨hr, hcon⟩⟩
                        cases hph : pod.Status.Phase with
                        | PodPending =>
                          exact stable_running_waiting fails _ key
                            (m.withPhase MigrationPhase.MigrationRunning) vm pod
                            (cached_withPhase c key m _ hc) ⟨hf.1, hf.2⟩ rfl
                            (by rw [lastMatching_withPhase]; exact hlast) (Or.inl hph)
                        | PodUnknown =>
                          exact stable_running_waiting fails _ key
                            (m.withPhase MigrationPhase.MigrationRunning) vm pod
                            (cached_withPhase c key m _ hc) ⟨hf.1, hf.2⟩ rfl
                            (by rw [lastMatching_withPhase]; exact hlast) (Or.inr hph)
                        | PodRunning =>
                          obtain ⟨hnode, job, hjob, hj1, hj2⟩ := hnr hph
                          exact stable_running_job fails _ key
                            (m.withPhase MigrationPhase.MigrationRunning) vm pod
                            (cached_withPhase c key m _ hc) ⟨hf.1, hf.2⟩ rfl
                            (by rw [lastMatching_withPhase]; exact hlast) hph hnode
                            (state_executeJob_pending fails _ vm pod _ ⟨job, hjob, hj1, hj2⟩)
                        | PodSucceeded => exact absurd hph hns
                        | PodFailed => exact absurd hph hpf
          case MigrationRunning =>
            have h := reconcile_running fails c key m vm hc hf hok hp
            cases hlist : fails (Call.GetRunningVMPods vm) with
            | some err =>
              simp only [hlist] at h
              exact hsame c h h
            | none =>
              simp only [hlist] at h
              cases hlast : lastMatching m c.pods with
              | none =>
                simp only [hlast] at h
                exact hfailed m hc h
              | some pod =>
                simp only [hlast] at h
                cases hph : pod.Status.Phase
                case PodPending =>
                  simp only [hph] at h
                  exact hsame c h h
                case PodUnknown =>
                  simp only [hph] at h
                  exact hsame c h h
                case PodSucceeded =>
                  simp only [hph] at h
                  exact hfailed m hc h
                case PodFailed =>
                  simp only [hph] at h
                  exact hfailed m hc h
                case PodRunning =>
                  simp only [hph] at h
                  by_cases hnode : vm.Status.MigrationNodeName = pod.Spec.NodeName
                  · rw [if_pos hnode] at h
                    exact idempotent_of_job fails c c key m vm pod hc hf hp hlast hph hnode h
                  · rw [if_neg hnode] at h
                    cases hput : fails (Call.PutVm (vm.migratingTo pod.Spec.NodeName)) with
                    | some err =>
                      simp only [hput] at h
                      exact hsame c h h
                    | none =>
                      simp only [hput] at h
                      exact idempotent_of_job fails c
                        { c with vm := some (vm.migratingTo pod.Spec.NodeName) } key m
                        (vm.migratingTo pod.Spec.NodeName) pod ⟨hc.1, hc.2⟩ ⟨rfl, hf.2⟩ hp
                        hlast hph rfl h

end
theorem noFailure_apply (call : Call) : noFailure call = none := rfl

/-- The first run of the re-entry case, when nothing fails, only sets the
Migration to Running. -/
theorem reentry_first_run (c : Cluster) (key : String) (m : Migration) (vm : VM) (pod : Pod)
    (hc : Cached c key m) (hf : Fetched c m vm)
    (hp : m.Status.Phase = MigrationPhase.MigrationUnknown)
    (hvm : vm.Status.Phase = VMPhase.Running)
    (hmerge : (mergeConstraints m vm).1 = none)
    (hlast : lastMatching m c.pods = some pod)
    (hpod : pod.Status.Phase ≠ PodPhase.PodFailed) :
    reconcile (clusterServices noFailure) key c =
      c.withPhase m MigrationPhase.MigrationRunning := by
  have hne : m.Status.Phase ≠ MigrationPhase.MigrationRunning := by rw [hp]; decide
  rw [reconcile_unknown noFailure c key m vm hc hf rfl hp]
  simp [hvm, hmerge, noFailure_apply, hlast, hpod,
    state_setMigrationPhase_of_ne noFailure m _ c hne]

/-- In the re-entry case, when nothing fails, the second run goes on from the
Running case and changes the cluster again. -/
theorem reentry_second_run (c : Cluster) (key : String) (m : Migration) (vm : VM) (pod : Pod)
    (hc : Cached c key m) (hf : Fetched c m vm)
    (hlast : lastMatching m c.pods = some pod)
    (hcase : pod.Status.Phase = PodPhase.PodSucceeded ∨
      (pod.Status.Phase = PodPhase.PodRunning ∧
        ¬ (vm.Status.MigrationNodeName = pod.Spec.NodeName ∧ JobPending c))) :
    reconcile (clusterServices noFailure) key (c.withPhase m MigrationPhase.MigrationRunning) ≠
      c.withPhase m MigrationPhase.MigrationRunning := by
  have hc1 : Cached (c.withPhase m MigrationPhase.MigrationRunning) key
      (m.withPhase MigrationPhase.MigrationRunning) := cached_withPhase c key m _ hc
  have hf1 : Fetched (c.withPhase m MigrationPhase.MigrationRunning)
      (m.withPhase MigrationPhase.MigrationRunning) vm := ⟨hf.1, hf.2⟩
  have hlast1 : lastMatching (m.withPhase MigrationPhase.MigrationRunning)
      (c.withPhase m MigrationPhase.MigrationRunning).pods = some pod := hlast
  have hne1 : (m.withPhase MigrationPhase.MigrationRunning).Status.Phase ≠
      MigrationPhase.MigrationFailed := by simp [Migration.withPhase]
  have hne2 : (m.withPhase MigrationPhase.MigrationRunning).Status.Phase ≠
      MigrationPhase.MigrationSucceeded := by simp [Migration.withPhase]
  rw [reconcile_running noFailure _ key _ vm hc1 hf1 rfl rfl]
  simp only [noFailure_apply, hlast1]
  rcases hcase with hs | ⟨hr, hnot⟩
  · simp only [hs, state_setMigrationPhase_of_ne noFailure _ _ _ hne1, noFailure_apply]
    intro heq
    have := congrArg Cluster.migration heq
    simp [Cluster.withPhase, Migration.withPhase] at this
  · simp only [hr]
    by_cases hnode : vm.Status.MigrationNodeName = pod.Spec.NodeName
    · have hnp : ¬ JobPending c := fun hj => hnot ⟨hnode, hj⟩
      rw [if_pos hnode, state_executeJob_cluster]
      simp only [noFailure_apply, Cluster.withPhase]
      cases hjob : c.job with
      | none =>
        intro heq
        have := congrArg Cluster.job heq
        simp [hjob] at this
      | some job =>
        cases hjp : job.Status.Phase with
        | PodFailed =>
          simp only [hjp, state_setMigrationPhase_of_ne noFailure _ _ _ hne1, noFailure_apply]
          intro heq
          have := congrArg Cluster.migration heq
          simp [Cluster.withPhase, Migration.withPhase] at this
        | PodSucceeded =>
          simp only [hjp, state_setMigrationPhase_of_ne noFailure _ _ _ hne2, noFailure_apply]
          intro heq
          have := congrArg Cluster.migration heq
          simp [Cluster.withPhase, Migration.withPhase] at this
        | PodPending => exact absurd ⟨job, hjob, by simp [hjp], by simp [hjp]⟩ hnp
        | PodRunning => exact absurd ⟨job, hjob, by simp [hjp], by simp [hjp]⟩ hnp
        | PodUnknown => exact absurd ⟨job, hjob, by simp [hjp], by simp [hjp]⟩ hnp
    · rw [if_neg hnode, state_executeJob_cluster]
      simp only [noFailure_apply, Cluster.withPhase]
      have hvmne : (some (vm.migratingTo pod.Spec.NodeName) : Option VM) ≠ c.vm := by
        rw [hf.1]
        intro heq
        have := congrArg (fun o => o.map fun v => v.Status.MigrationNodeName) heq
        simp [VM.migratingTo] at this
        exact hnode this.symm
      cases hjob : c.job with
      | none =>
        intro heq
        have := congrArg Cluster.job heq
        simp [hjob] at this
      | some job =>
        cases hjp : job.Status.Phase with
        | PodFailed =>
          simp only [hjp, state_setMigrationPhase_of_ne noFailure _ _ _ hne1, noFailure_apply]
          intro heq
          have := congrArg Cluster.migration heq
          simp [Cluster.withPhase, Migration.withPhase] at this
        | PodSucceeded =>
          simp only [hjp, state_setMigrationPhase_of_ne noFailure _ _ _ hne2, noFailure_apply]
          intro heq
          have := congrArg Cluster.migration heq
          simp [Cluster.withPhase, Migration.withPhase] at this
        | PodPending =>
          simp only [hjp]
          intro heq
          exact hvmne (congrArg Cluster.vm heq)
        | PodRunning =>
          simp only [hjp]
          intro heq
          exact hvmne (congrArg Cluster.vm heq)
        | PodUnknown =>
          simp only [hjp]
          intro heq
          exact hvmne (congrArg Cluster.vm heq)

/-- C18 (amended): on the cluster made of the cached Migration, the VM, the pods
of the VM and the migration job, where a service call either fails and leaves
the cluster alone or succeeds and is applied to it, and nothing else changes it,
running `execute` twice on a key yields the same cluster as running it once,
whichever calls fail, for every starting cluster outside the re-entry case
(`Reentry`: the cached Migration is in phase Unknown, its VM exists in phase
Running, the selectors merge, and the target pod found is in phase Succeeded,
or in phase Running while the VM does not yet point at its node or no job in a
phase other than Failed and Succeeded exists).  In the re-entry case, when no
call fails, the first run only stores the Migration with
`Status.Phase = MigrationRunning` and the second run changes the cluster
again. -/
theorem reconcile_idempotent (key : String) (c : Cluster) :
    (∀ fails, ¬ Reentry c key →
      reconcile (clusterServices fails) key (reconcile (clusterServices fails) key c) =
        reconcile (clusterServices fails) key c) ∧
    (Reentry c key →
      ∃ m, c.migration = some m ∧ m.Status.Phase = MigrationPhase.MigrationUnknown ∧
        reconcile (clusterServices noFailure) key c =
          { c with
            migration := some ⟨m.ObjectMeta, m.Spec, ⟨MigrationPhase.MigrationRunning⟩⟩ } ∧
        reconcile (clusterServices noFailure) key
            (reconcile (clusterServices noFailure) key c) ≠
          reconcile (clusterServices noFailure) key c) := by
  refine ⟨fun fails hex => idempotent_of_not_reentry fails c key hex, fun h => ?_⟩
  rw [reentry_iff] at h
  obtain ⟨m, vm, pod, hc, hf, hp, hvm, hmerge, hlast, hcase⟩ := h
  have hpf : pod.Status.Phase ≠ PodPhase.PodFailed := by
    rcases hcase with hs | ⟨hr, _⟩
    · rw [hs]; decide
    · rw [hr]; decide
  have h1 := reentry_first_run c key m vm pod hc hf hp hvm hmerge hlast hpf
  refine ⟨m, hc.1, hp, h1, ?_⟩
  rw [h1]
  exact reentry_second_run c key m vm pod hc hf hlast hcase

/-- C18 (counterexample): in the cluster where the Migration `m1` is in phase
Unknown and its target pod already runs on `nodeB`, with no failing call, the
first run of `execute` only sets the Migration to Running; the second run
persists the VM in phase Migrating and starts the job.  The cluster after two
runs is not the cluster after one. -/
theorem reconcile_twice_differs :
    reconcile (clusterServices noFailure) "default/m1" reentryCluster =
      ⟨some (runningMigration ∅), some (vmWith VMPhase.Running ∅ ""),
        [targetPodOn PodPhase.PodRunning "nodeB"], none⟩ ∧
    reconcile (clusterServices noFailure) "default/m1"
        (reconcile (clusterServices noFailure) "default/m1" reentryCluster) =
      ⟨some (runningMigration ∅), some (vmWith VMPhase.Migrating ∅ "nodeB"),
        [targetPodOn PodPhase.PodRunning "nodeB"], some (newMigrationJob (runningMigration ∅))⟩ ∧
    reconcile (clusterServices noFailure) "default/m1"
        (reconcile (clusterServices noFailure) "default/m1" reentryCluster) ≠
      reconcile (clusterServices noFailure) "default/m1" reentryCluster :=
  ⟨rfl, rfl, fun h => Option.noConfusion (congrArg Cluster.job h)⟩

/-- C18 (witness): the Migration `m1` is new and its VM has no pod yet, while
every `UpdateMigration` fails.  The first run creates the target pod and fails
to persist the Migration; the second run finds the pod, fails on the same
update and leaves the cluster as the first run left it. -/
theorem reconcile_idempotent_witness :
    ¬ Reentry
      ⟨some (migrationFor "m1" "uid-1" MigrationPhase.MigrationUnknown ∅),
        some (vmWith VMPhase.Running ∅ ""), [], none⟩ "default/m1" ∧
    reconcile (clusterServices updateFails) "default/m1"
        ⟨some (migrationFor "m1" "uid-1" MigrationPhase.MigrationUnknown ∅),
          some (vmWith VMPhase.Running ∅ ""), [], none⟩ =
      ⟨some (migrationFor "m1" "uid-1" MigrationPhase.MigrationUnknown ∅),
        some (vmWith VMPhase.Running ∅ ""),
        [newTargetPod (migrationFor "m1" "uid-1" MigrationPhase.MigrationUnknown ∅)
          (vmWith VMPhase.Running ∅ "")], none⟩ ∧
    reconcile (clusterServices updateFails) "default/m1"
        (reconcile (clusterServices updateFails) "default/m1"
          ⟨some (migrationFor "m1" "uid-1" MigrationPhase.MigrationUnknown ∅),
            some (vmWith VMPhase.Running ∅ ""), [], none⟩) =
      reconcile (clusterServices updateFails) "default/m1"
        ⟨some (migrationFor "m1" "uid-1" MigrationPhase.MigrationUnknown ∅),
          some (vmWith VMPhase.Running ∅ ""), [], none⟩ :=
  have hex : ¬ Reentry
      ⟨some (migrationFor "m1" "uid-1" MigrationPhase.MigrationUnknown ∅),
        some (vmWith VMPhase.Running ∅ ""), [], none⟩ "default/m1" := by
    rintro ⟨m, _, vm, _, pod, hpod, _⟩
    cases hpod
  ⟨hex, rfl,
    (reconcile_idempotent "default/m1"
      ⟨some (migrationFor "m1" "uid-1" MigrationPhase.MigrationUnknown ∅),
        some (vmWith VMPhase.Running ∅ ""), [], none⟩).1 updateFails hex⟩

end MigrationController
